import Mathlib

/-!
Expression evaluation, SELECT resolution and logical plans of the observer SQL
layer.

A shallow embedding of `src/observer/sql/expr/expression.cpp`: comparison,
conjunction, list, sub-query, cast and arithmetic expressions and their
`get_value` and `try_get_value` protocols, and of `SelectStmt::create`
(`src/observer/sql/stmt/select_stmt.cpp`): the FROM loop, GROUP BY, the rule
on aggregates, the select list, the conditions of a sub-select and ORDER BY,
and of `LogicalPlanGenerator::create_plan` for SELECT, for a filter and for
UPDATE (`src/observer/sql/optimizer/logical_plan_generator.cpp`), followed by
theorems about them.

Conventions of the embedding.

* A C++ method `RC f(..., Value &value)` becomes a function that takes the
  caller's `value` and returns the result code together with the contents of
  `value` after the call, so a path that returns without writing is visible.
* The physical operators that sub-query expressions point to live in a
  `Store`; a `SelectExpr` holds an index into it, as the source holds a pointer.
* A result of `none` means that the source produces no result code at all
  (an exception from `vector::at`, a `static_cast` to a class the object does
  not have, or a call through a null pointer).
* `SelectStmt::create` is a chain of stages of type `Resolved`: a stage ran
  to its end, or `create` returned a code there, or the source has no defined
  behaviour there. A `Table *` is the position of the table in the catalog, so
  the alias that `create` sets on the catalog object is state of the catalog.
* A logical operator owns its children; a pointer to an operator that is
  owned elsewhere (the sharing map, `right_link`) is modelled by the operator
  it points to.
-/

namespace Observer

/-! ## Declarations the expression code relies on -/

/-- Modelled from the spec: the result codes of `rc.h` (absent), as listed in
the external-interface section, with the spelling `UNIMPLENMENT` used by the
sources and `NOTFOUND` for a failed tuple-cell lookup. -/
inductive RC where
  | SUCCESS
  | INVALID_ARGUMENT
  | SQL_SYNTAX
  | SCHEMA_TABLE_NOT_EXIST
  | SCHEMA_FIELD_MISSING
  | AGGR_FUNC_NOT_VALID
  | SELECT_EXPR_INVALID_ARGUMENT
  | EXPRESSION_LIST_NULL
  | RECORD_EOF
  | UNIMPLENMENT
  | INTERNAL
  | NOTFOUND
  deriving DecidableEq

/-- Modelled from the spec: the attribute types of the glossary, plus the
`UNDEFINED` tag of a default-constructed `Value`. -/
inductive AttrType where
  | UNDEFINED
  | CHARS
  | INTS
  | FLOATS
  | DATES
  | BOOLEANS
  | NULL_ATTR
  deriving DecidableEq

/-- Modelled from the spec: the tagged scalar `Value` (class absent from the
sources at hand). A float payload is represented by a rational number and a
date by its integer encoding. -/
inductive Value where
  | undefined
  | chars (s : String)
  | int (n : Int)
  | float (x : ℚ)
  | date (d : Int)
  | bool (b : Bool)
  | null
  deriving DecidableEq

/-- Modelled from the spec: `Value::attr_type`, the tag of a value. -/
def Value.attr_type : Value → AttrType
  | .undefined => .UNDEFINED
  | .chars _ => .CHARS
  | .int _ => .INTS
  | .float _ => .FLOATS
  | .date _ => .DATES
  | .bool _ => .BOOLEANS
  | .null => .NULL_ATTR

/-- Modelled from the spec: `Value::set_boolean`, which retags the value as a
boolean. -/
def Value.set_boolean (_value : Value) (b : Bool) : Value := .bool b

/-- Modelled from the spec: `Value::set_value`, assignment from another
value. -/
def Value.set_value (_value : Value) (other : Value) : Value := other

/-- Modelled from the spec: `Value::set_null`. -/
def Value.set_null (_value : Value) : Value := .null

/-- Modelled from the spec: `Value::set_int`. -/
def Value.set_int (_value : Value) (n : Int) : Value := .int n

/-- Modelled from the spec: `Value::set_float`. -/
def Value.set_float (_value : Value) (x : ℚ) : Value := .float x

/-- What the sources at hand do not determine about the declarations they
use. `compare l r` is the result code of `l.compare(r, cmp_result)` together
with the content of `cmp_result` after the call; `get_boolean` is the truth
value read off a `Value`; `get_int` and `get_float` are the numeric conversions
of a value that is not a number already; `EPSILON` is the constant of the
floating-point zero test; `field_type` is the declared type of a column, which
`FieldExpr::value_type` reports; `select_type` and `list_type` are what
`SelectExpr::value_type` and `ListExpression::value_type` report. -/
structure ValueApi where
  compare : Value → Value → RC × Int
  get_boolean : Value → Bool
  get_int : Value → Int
  get_float : Value → ℚ
  EPSILON : ℚ
  field_type : String → String → AttrType
  select_type : Nat → AttrType
  list_type : AttrType

/-- Modelled from the spec: `Value::get_int`; an integer is read as it is. -/
def Value.get_int (api : ValueApi) : Value → Int
  | .int n => n
  | v => api.get_int v

/-- Modelled from the spec: `Value::get_float`; a number is read as it is. -/
def Value.get_float (api : ValueApi) : Value → ℚ
  | .int n => (n : ℚ)
  | .float x => x
  | v => api.get_float v

/-- The value of a C++ `int` expression whose mathematical value is `n`, on
wrap-around to 32 bits. -/
def wrap_int (n : Int) : Int := (n + 2147483648) % 4294967296 - 2147483648

/-- The comparison operators (`ExprOp`) handled by `compare_value`; `NO_OP`
stands for every enumerator that reaches the `default` label. -/
inductive ExprOp where
  | EQUAL_TO
  | LESS_EQUAL
  | NOT_EQUAL
  | LESS_THAN
  | GREAT_EQUAL
  | GREAT_THAN
  | IS_EQUAL
  | IS_NOT_EQUAL
  | LIKE
  | NOT_LIKE
  | IN_COMP
  | NOT_IN_COMP
  | NO_OP
  deriving DecidableEq

/-- `ConjunctionExpr::Type`. -/
inductive ConjunctionType where
  | AND
  | OR
  deriving DecidableEq

/-- `ArithmeticExpr::Type`. -/
inductive ArithmeticType where
  | ADD
  | SUB
  | MUL
  | DIV
  | NEGATIVE
  deriving DecidableEq

/-! ## CastExpr::cast and the arithmetic of ArithmeticExpr -/

/-- `CastExpr::cast(value, cast_value)`, with `cast_type` what
`CastExpr::value_type` reports: a value of the target type is copied, a cast to
`BOOLEANS` reads the truth value, any other target is `INTERNAL`. -/
def CastExpr.cast (api : ValueApi) (cast_type : AttrType) (value cast_value : Value) :
    RC × Value :=
  if cast_type = value.attr_type then
    (RC.SUCCESS, value)
  else
    match cast_type with
    | .BOOLEANS => (RC.SUCCESS, cast_value.set_boolean (api.get_boolean value))
    | _ => (RC.INTERNAL, cast_value)

/-- `ArithmeticExpr::value_type`, from the types its children report;
`right_type` is `none` when `right_` is null. -/
def ArithmeticExpr.value_type (arithmetic_type : ArithmeticType) (left_type : AttrType)
    (right_type : Option AttrType) : AttrType :=
  match right_type with
  | none => left_type
  | some right_type =>
    if left_type = AttrType.NULL_ATTR ∨ right_type = AttrType.NULL_ATTR then
      AttrType.NULL_ATTR
    else if left_type = AttrType.INTS ∧ right_type = AttrType.INTS ∧
        arithmetic_type ≠ ArithmeticType.DIV then
      AttrType.INTS
    else
      AttrType.FLOATS

/-- `ArithmeticExpr::calc_value(left_value, right_value, value)`, with
`target_type` the result of `value_type()`. Integer arithmetic wraps to 32
bits and integer division truncates; float arithmetic is exact on the rational
payload. The `default` label of the switch is not reachable with the five
enumerators. -/
def ArithmeticExpr.calc_value (api : ValueApi) (arithmetic_type : ArithmeticType)
    (target_type : AttrType) (left_value right_value value : Value) : RC × Value :=
  if target_type = AttrType.NULL_ATTR then
    (RC.SUCCESS, value.set_null)
  else
    match arithmetic_type with
    | .ADD =>
      if target_type = AttrType.INTS then
        (RC.SUCCESS, value.set_int (wrap_int (left_value.get_int api + right_value.get_int api)))
      else
        (RC.SUCCESS, value.set_float (left_value.get_float api + right_value.get_float api))
    | .SUB =>
      if target_type = AttrType.INTS then
        (RC.SUCCESS, value.set_int (wrap_int (left_value.get_int api - right_value.get_int api)))
      else
        (RC.SUCCESS, value.set_float (left_value.get_float api - right_value.get_float api))
    | .MUL =>
      if target_type = AttrType.INTS then
        (RC.SUCCESS, value.set_int (wrap_int (left_value.get_int api * right_value.get_int api)))
      else
        (RC.SUCCESS, value.set_float (left_value.get_float api * right_value.get_float api))
    | .DIV =>
      if target_type = AttrType.INTS then
        if right_value.get_int api = 0 then
          (RC.SUCCESS, value.set_null)
        else
          (RC.SUCCESS,
            value.set_int (wrap_int (Int.tdiv (left_value.get_int api) (right_value.get_int api))))
      else
        if right_value.get_float api > -api.EPSILON ∧ right_value.get_float api < api.EPSILON then
          (RC.SUCCESS, value.set_null)
        else
          (RC.SUCCESS, value.set_float (left_value.get_float api / right_value.get_float api))
    | .NEGATIVE =>
      if target_type = AttrType.INTS then
        (RC.SUCCESS, value.set_int (wrap_int (-left_value.get_int api)))
      else
        (RC.SUCCESS, value.set_float (-left_value.get_float api))

/-! ## ComparisonExpr::compare_value -/

/-- `ComparisonExpr::compare_value(left, right, result)`: the returned code and
the content of `result` on return. The code starts as the one reported by
`Value::compare`; only `IS_EQUAL` and `IS_NOT_EQUAL` reset it. -/
def compare_value (api : ValueApi) (comp : ExprOp) (left right : Value) : RC × Bool :=
  let rc := (api.compare left right).1
  let cmp_result := (api.compare left right).2
  match comp with
  | .EQUAL_TO => (rc, decide (0 = cmp_result))
  | .LESS_EQUAL => (rc, decide (cmp_result ≤ 0))
  | .NOT_EQUAL => (rc, decide (cmp_result ≠ 0))
  | .LESS_THAN => (rc, decide (cmp_result < 0))
  | .GREAT_EQUAL => (rc, decide (cmp_result ≥ 0))
  | .GREAT_THAN => (rc, decide (cmp_result > 0))
  | .IS_EQUAL =>
    if left.attr_type = AttrType.NULL_ATTR ∧ right.attr_type = AttrType.NULL_ATTR then
      (RC.SUCCESS, true)
    else
      (RC.SUCCESS, false)
  | .IS_NOT_EQUAL =>
    if ¬ (left.attr_type = AttrType.NULL_ATTR ∧ right.attr_type = AttrType.NULL_ATTR) then
      (RC.SUCCESS, true)
    else
      (RC.SUCCESS, false)
  | .LIKE => (rc, decide (0 = cmp_result))
  | .NOT_LIKE => (rc, decide (0 ≠ cmp_result))
  | .IN_COMP => (rc, decide (0 = cmp_result))
  | .NOT_IN_COMP => (rc, decide (0 = cmp_result))
  | .NO_OP => (RC.INTERNAL, false)

/-! ## Tuples and physical operators -/

/-- `TupleCellSpec`: the (table name, column name) key of a cell. -/
structure TupleCellSpec where
  table_name : String
  field_name : String
  deriving DecidableEq

/-- Modelled from the spec: the tuple an expression is evaluated against, as
the association `find_cell` searches. -/
structure Tuple where
  cells : List (TupleCellSpec × Value)
  deriving DecidableEq

/-- Modelled from the spec: `Tuple::find_cell(spec, value)`; a missing cell
reports `NOTFOUND` and leaves `value` alone. -/
def Tuple.find_cell (tuple : Tuple) (spec : TupleCellSpec) (value : Value) : RC × Value :=
  match tuple.cells.find? (fun c => decide (c.1 = spec)) with
  | some c => (RC.SUCCESS, c.2)
  | none => (RC.NOTFOUND, value)

/-- One answer of a physical operator to `next()`: a row, given by its cells
in positional order, or a result code other than a row. -/
inductive Fetch where
  | row (cells : List Value)
  | fail (rc : RC)
  deriving DecidableEq

/-- Modelled from the spec: the physical root of a sub-query, a restartable
finite sequence of tuples behind `open / next / current_tuple / close`.
`script` is what successive `next()` calls answer after an `open()`, `pending`
what is left of it, `current` the cells of the current tuple; `opens` and
`closes` count the calls made so far. `missing_cell_rc` is the result code
that the tuples of this operator report from `cell_at` for an index that is
out of range: neither the sources nor the spec give it, so that it is a
parameter of the operator. -/
structure PhysicalOperator where
  open_rc : RC
  close_rc : RC
  script : List Fetch
  pending : List Fetch
  current : List Value
  opens : Nat
  closes : Nat
  missing_cell_rc : RC
  deriving DecidableEq

/-- Modelled from the spec: `PhysicalOperator::open`. -/
def PhysicalOperator.open (op : PhysicalOperator) : RC × PhysicalOperator :=
  if op.open_rc = RC.SUCCESS then
    (op.open_rc, { op with pending := op.script, opens := op.opens + 1 })
  else
    (op.open_rc, { op with opens := op.opens + 1 })

/-- Modelled from the spec: `PhysicalOperator::next`; exhaustion answers
`RECORD_EOF`. -/
def PhysicalOperator.next (op : PhysicalOperator) : RC × PhysicalOperator :=
  match op.pending with
  | [] => (RC.RECORD_EOF, op)
  | Fetch.row cells :: rest => (RC.SUCCESS, { op with pending := rest, current := cells })
  | Fetch.fail rc :: rest => (rc, { op with pending := rest })

/-- Modelled from the spec: `PhysicalOperator::close`. -/
def PhysicalOperator.close (op : PhysicalOperator) : RC × PhysicalOperator :=
  (op.close_rc, { op with closes := op.closes + 1 })

/-- Modelled from the spec: `Tuple::cell_at(index, value)` on the current tuple
of a physical operator: the cell at `index` with `SUCCESS`. For an index out
of range the code reported is the parameter `missing_rc`. -/
def cell_at (missing_rc : RC) (cells : List Value) (index : Nat) (value : Value) : RC × Value :=
  match cells[index]? with
  | some v => (RC.SUCCESS, v)
  | none => (missing_rc, value)

/-- The physical operators that the sub-query expressions of a plan point to. -/
abbrev Store := List PhysicalOperator

/-! ## SelectExpr -/

/-- `SelectExpr::open`, on the operator at index `root`. -/
def SelectExpr.open (root : Nat) (σ : Store) : Option (RC × Store) :=
  match σ[root]? with
  | none => none
  | some op => some ((op.open).1, σ.set root (op.open).2)

/-- `SelectExpr::close`. -/
def SelectExpr.close (root : Nat) (σ : Store) : Option (RC × Store) :=
  match σ[root]? with
  | none => none
  | some op => some ((op.close).1, σ.set root (op.close).2)

/-- `SelectExpr::get_value(tuple, value)`: advance the physical root and read
cell 0 of its current tuple. -/
def SelectExpr.get_value (root : Nat) (value : Value) (σ : Store) :
    Option (RC × Value × Store) :=
  match σ[root]? with
  | none => none
  | some op =>
    let rc := (op.next).1
    let op1 := (op.next).2
    if rc = RC.SUCCESS then
      if op1.current.length > 1 then
        some (RC.SELECT_EXPR_INVALID_ARGUMENT, value, σ.set root op1)
      else
        some ((cell_at op1.missing_cell_rc op1.current 0 value).1,
          (cell_at op1.missing_cell_rc op1.current 0 value).2, σ.set root op1)
    else
      some (rc, value, σ.set root op1)

/-- How a fetch loop over a sub-query ends: with a row that matched, or with
the first result code of `get_value` that is not `SUCCESS`. -/
inductive LoopEnd where
  | matched
  | stopped (rc : RC)
  deriving DecidableEq

/-- The `while (1)` loop of the `IN` and `NOT IN` branches of
`ComparisonExpr::get_value` over a sub-query: fetch a value, leave the loop on
a code other than `SUCCESS`, compare (the code of `compare_value` is dropped)
and leave on a match. `fuel` bounds the number of iterations. -/
def select_match_loop (api : ValueApi) (comp : ExprOp) (left_value : Value) (root : Nat) :
    Nat → Value → Store → Option (LoopEnd × Store)
  | 0, _, _ => none
  | fuel + 1, tmp_value, σ =>
    match SelectExpr.get_value root tmp_value σ with
    | none => none
    | some (rc, tmp_value1, σ1) =>
      if rc ≠ RC.SUCCESS then
        some (LoopEnd.stopped rc, σ1)
      else if (compare_value api comp left_value tmp_value1).2 then
        some (LoopEnd.matched, σ1)
      else
        select_match_loop api comp left_value root fuel tmp_value1 σ1

/-- The `while (1)` loop of the scalar branch of `ComparisonExpr::get_value`:
collect the values of the sub-query into `value_set` until `get_value` reports
a code other than `SUCCESS`, which is returned with the set. -/
def select_collect_loop (root : Nat) :
    Nat → Value → List Value → Store → Option (RC × List Value × Store)
  | 0, _, _, _ => none
  | fuel + 1, tmp_value, value_set, σ =>
    match SelectExpr.get_value root tmp_value σ with
    | none => none
    | some (rc, tmp_value1, σ1) =>
      if rc ≠ RC.SUCCESS then
        some (rc, value_set, σ1)
      else
        select_collect_loop root fuel tmp_value1 (value_set ++ [tmp_value1]) σ1

/-- The number of iterations after which a fetch loop over the operator at
`root` has certainly ended: one per pending answer and one for the end. -/
def loop_fuel (root : Nat) (σ : Store) : Nat :=
  match σ[root]? with
  | none => 0
  | some op => op.pending.length + 1

/-- The block of `ComparisonExpr::get_value` that evaluates an operand of type
`SELECTION` for the operators other than `IN` and `NOT IN` (the same block is
written once for `left_` and once for `right_`): open, collect every value,
require exactly one, close. A code other than `SUCCESS` is what `get_value`
returns at once; with `SUCCESS` comes the operand value. -/
def select_operand (root : Nat) (operand : Value) (σ : Store) : Option (RC × Value × Store) :=
  match SelectExpr.open root σ with
  | none => none
  | some (rc, σ1) =>
    if rc ≠ RC.SUCCESS then
      some (rc, operand, σ1)
    else
      match select_collect_loop root (loop_fuel root σ1) (Value.int 0) [] σ1 with
      | none => none
      | some (rc1, value_set, σ2) =>
        if rc1 ≠ RC.RECORD_EOF then
          some (rc1, operand, σ2)
        else
          match value_set with
          | [v] =>
            match SelectExpr.close root σ2 with
            | none => none
            | some (rc2, σ3) => some (rc2, operand.set_value v, σ3)
          | _ => some (RC.SELECT_EXPR_INVALID_ARGUMENT, operand, σ2)

/-- The `for` loop of the `IN` branch over the values of a list: compare each
in turn, return the code of a failed comparison, write TRUE and stop at the
first match. Nothing is written when no value matches. -/
def in_list_loop (api : ValueApi) (comp : ExprOp) (left_value : Value) :
    List Value → Value → RC × Value
  | [], value => (RC.SUCCESS, value)
  | iter :: rest, value =>
    if (compare_value api comp left_value iter).1 ≠ RC.SUCCESS then
      ((compare_value api comp left_value iter).1, value)
    else if (compare_value api comp left_value iter).2 then
      (RC.SUCCESS, value.set_boolean true)
    else
      in_list_loop api comp left_value rest value

/-- The sub-query part of the `IN` (`on_match = true`) and `NOT IN`
(`on_match = false`) branches: open (the code is dropped), run the fetch loop,
write `on_match` and return on a match, return any code other than
`RECORD_EOF`, and on `RECORD_EOF` close and write the opposite. -/
def select_membership (api : ValueApi) (comp : ExprOp) (on_match : Bool) (left_value : Value)
    (root : Nat) (value : Value) (σ : Store) : Option (RC × Value × Store) :=
  match SelectExpr.open root σ with
  | none => none
  | some (_, σ1) =>
    match select_match_loop api comp left_value root (loop_fuel root σ1) (Value.int 0) σ1 with
    | none => none
    | some (LoopEnd.matched, σ2) => some (RC.SUCCESS, value.set_boolean on_match, σ2)
    | some (LoopEnd.stopped rc, σ2) =>
      if rc = RC.RECORD_EOF then
        match SelectExpr.close root σ2 with
        | none => none
        | some (_, σ3) => some (RC.SUCCESS, value.set_boolean (!on_match), σ3)
      else
        some (rc, value, σ2)

/-! ## The expression tree and `get_value` -/

/-- The expression variants evaluated here: `FieldExpr`, `ValueExpr`,
`ComparisonExpr`, `ConjunctionExpr`, `SelectExpr` (holding the index of its
physical root), `ListExpression`, `CastExpr` and `ArithmeticExpr` (whose
`right` is `none` when `right_` is null, as for unary minus). -/
inductive Expr where
  | field (table_name field_name : String)
  | value (v : Value)
  | comparison (comp : ExprOp) (left right : Expr)
  | conjunction (conjunction_type : ConjunctionType) (children : List Expr)
  | select (root : Nat)
  | list (expr_list : List Expr)
  | cast (child : Expr) (cast_type : AttrType)
  | arithmetic (arithmetic_type : ArithmeticType) (left : Expr) (right : Option Expr)

/-- `Expression::value_type` by variant. Only `ArithmeticExpr::value_type` is
in the sources at hand; a value reports its tag, a cast its target type, a
comparison and a conjunction `BOOLEANS`, and a column, a sub-query and a list
what the declarations say. -/
def value_type (api : ValueApi) : Expr → AttrType
  | .field table_name field_name => api.field_type table_name field_name
  | .value v => v.attr_type
  | .comparison _ _ _ => AttrType.BOOLEANS
  | .conjunction _ _ => AttrType.BOOLEANS
  | .select root => api.select_type root
  | .list _ => api.list_type
  | .cast _ cast_type => cast_type
  | .arithmetic arithmetic_type left none =>
    ArithmeticExpr.value_type arithmetic_type (value_type api left) none
  | .arithmetic arithmetic_type left (some right) =>
    ArithmeticExpr.value_type arithmetic_type (value_type api left) (some (value_type api right))

mutual

/-- `Expression::get_value(tuple, value)` by variant. The argument `value` is
the caller's object; the result carries the code, the object after the call
and the store after the call. -/
def get_value (api : ValueApi) (tuple : Tuple) : Expr → Value → Store → Option (RC × Value × Store)
  -- FieldExpr::get_value
  | .field table_name field_name, value, σ =>
    some ((tuple.find_cell ⟨table_name, field_name⟩ value).1,
      (tuple.find_cell ⟨table_name, field_name⟩ value).2, σ)
  -- ValueExpr::get_value
  | .value v, _, σ => some (RC.SUCCESS, v, σ)
  -- SelectExpr::get_value
  | .select root, value, σ => SelectExpr.get_value root value σ
  -- ListExpression::get_value: `expr_list.at(0)` throws on an empty list
  | .list [], _, _ => none
  | .list (e :: _), value, σ => get_value api tuple e value σ
  -- ConjunctionExpr::get_value
  | .conjunction conjunction_type children, value, σ =>
    if children.isEmpty then
      some (RC.SUCCESS, value.set_boolean true, σ)
    else
      conjunction_loop api tuple conjunction_type children Value.undefined value σ
  -- ComparisonExpr::get_value
  | .comparison comp left right, value, σ =>
    if comp = ExprOp.IN_COMP then
      match get_value api tuple left Value.undefined σ with
      | none => none
      | some (rc, left_value, σ1) =>
        if rc ≠ RC.SUCCESS then
          some (rc, value, σ1)
        else
          match right with
          | .list expr_list =>
            -- ListExpression::get_value_list, inlined: the check for an empty list, then its loop
            if expr_list.isEmpty then
              some (RC.EXPRESSION_LIST_NULL, value, σ1)
            else
              match get_value_list_loop api tuple expr_list [] σ1 with
              | none => none
              | some (rc1, tmp_value_set, σ2) =>
                if rc1 ≠ RC.SUCCESS then
                  some (rc1, value, σ2)
                else
                  some ((in_list_loop api comp left_value tmp_value_set value).1,
                    (in_list_loop api comp left_value tmp_value_set value).2, σ2)
          | .select root => select_membership api comp true left_value root value σ1
          -- `static_cast<SelectExpr *>` of an operand that is neither
          | _ => none
    else if comp = ExprOp.NOT_IN_COMP then
      match get_value api tuple left Value.undefined σ with
      | none => none
      | some (rc, left_value, σ1) =>
        if rc ≠ RC.SUCCESS then
          some (rc, value, σ1)
        else
          match right with
          | .select root => select_membership api comp false left_value root value σ1
          -- `static_cast<SelectExpr *>` of an operand that is no sub-query
          | _ => none
    else
      let left_result :=
        match left with
        | .select root => select_operand root Value.undefined σ
        | _ => get_value api tuple left Value.undefined σ
      match left_result with
      | none => none
      | some (rc, left_value, σ1) =>
        if rc ≠ RC.SUCCESS then
          some (rc, value, σ1)
        else
          let right_result :=
            match right with
            | .select root => select_operand root Value.undefined σ1
            | _ => get_value api tuple right Value.undefined σ1
          match right_result with
          | none => none
          | some (rc1, right_value, σ2) =>
            if rc1 ≠ RC.SUCCESS then
              some (rc1, value, σ2)
            else if (compare_value api comp left_value right_value).1 = RC.SUCCESS then
              some (RC.SUCCESS, value.set_boolean (compare_value api comp left_value right_value).2, σ2)
            else
              some ((compare_value api comp left_value right_value).1, value, σ2)
  -- CastExpr::get_value: the child writes into the caller's value
  | .cast child cast_type, cell, σ =>
    match get_value api tuple child cell σ with
    | none => none
    | some (rc, cell1, σ1) =>
      if rc ≠ RC.SUCCESS then
        some (rc, cell1, σ1)
      else
        some ((CastExpr.cast api cast_type cell1 cell1).1,
          (CastExpr.cast api cast_type cell1 cell1).2, σ1)
  -- ArithmeticExpr::get_value: `right_->get_value` is called whether or not
  -- `right_` is null
  | .arithmetic arithmetic_type left right, value, σ =>
    match get_value api tuple left Value.undefined σ with
    | none => none
    | some (rc, left_value, σ1) =>
      if rc ≠ RC.SUCCESS then
        some (rc, value, σ1)
      else
        match right with
        | none => none
        | some right_expr =>
          match get_value api tuple right_expr Value.undefined σ1 with
          | none => none
          | some (rc1, right_value, σ2) =>
            if rc1 ≠ RC.SUCCESS then
              some (rc1, value, σ2)
            else
              some ((ArithmeticExpr.calc_value api arithmetic_type
                  (value_type api (.arithmetic arithmetic_type left (some right_expr)))
                  left_value right_value value).1,
                (ArithmeticExpr.calc_value api arithmetic_type
                  (value_type api (.arithmetic arithmetic_type left (some right_expr)))
                  left_value right_value value).2, σ2)

/-- The `for` loop of `ConjunctionExpr::get_value` over the children that are
left; `tmp_value` is the one object every child writes into. -/
def conjunction_loop (api : ValueApi) (tuple : Tuple) (conjunction_type : ConjunctionType) :
    List Expr → Value → Value → Store → Option (RC × Value × Store)
  | [], _, value, σ =>
    some (RC.SUCCESS, value.set_boolean (decide (conjunction_type = ConjunctionType.AND)), σ)
  | expr :: rest, tmp_value, value, σ =>
    match get_value api tuple expr tmp_value σ with
    | none => none
    | some (rc, tmp_value1, σ1) =>
      if rc ≠ RC.SUCCESS then
        some (rc, value, σ1)
      else if (conjunction_type = ConjunctionType.AND ∧ api.get_boolean tmp_value1 = false) ∨
          (conjunction_type = ConjunctionType.OR ∧ api.get_boolean tmp_value1 = true) then
        some (rc, value.set_boolean (api.get_boolean tmp_value1), σ1)
      else
        conjunction_loop api tuple conjunction_type rest tmp_value1 value σ1

/-- The `for` loop of `ListExpression::get_value_list`: evaluate each element
into a fresh value and append it to `value_set`, returning the first code other
than `SUCCESS`. -/
def get_value_list_loop (api : ValueApi) (tuple : Tuple) :
    List Expr → List Value → Store → Option (RC × List Value × Store)
  | [], value_set, σ => some (RC.SUCCESS, value_set, σ)
  | expr :: rest, value_set, σ =>
    match get_value api tuple expr Value.undefined σ with
    | none => none
    | some (rc, tmp_value, σ1) =>
      if rc ≠ RC.SUCCESS then
        some (rc, value_set, σ1)
      else
        get_value_list_loop api tuple rest (value_set ++ [tmp_value]) σ1

end

/-- `Expression::try_get_value(value)` by variant: `CastExpr`, `ComparisonExpr`
and `ArithmeticExpr` as in the sources at hand; a `ValueExpr` yields its
constant, and every other variant keeps the answer `UNIMPLENMENT` of the base
class (both modelled from the spec: evaluation without a tuple succeeds only on
a constant sub-tree). -/
def try_get_value (api : ValueApi) : Expr → Value → RC × Value
  -- ValueExpr::try_get_value
  | .value v, _ => (RC.SUCCESS, v)
  -- CastExpr::try_get_value
  | .cast child cast_type, value =>
    if (try_get_value api child value).1 ≠ RC.SUCCESS then
      try_get_value api child value
    else
      CastExpr.cast api cast_type (try_get_value api child value).2
        (try_get_value api child value).2
  -- ComparisonExpr::try_get_value
  | .comparison comp (.value left_cell) (.value right_cell), cell =>
    if (compare_value api comp left_cell right_cell).1 ≠ RC.SUCCESS then
      ((compare_value api comp left_cell right_cell).1, cell)
    else
      (RC.SUCCESS, cell.set_boolean (compare_value api comp left_cell right_cell).2)
  | .comparison _ _ _, cell => (RC.INVALID_ARGUMENT, cell)
  -- ArithmeticExpr::try_get_value: `right_` is evaluated only if it is not null
  | .arithmetic arithmetic_type left none, value =>
    if (try_get_value api left Value.undefined).1 ≠ RC.SUCCESS then
      ((try_get_value api left Value.undefined).1, value)
    else
      ArithmeticExpr.calc_value api arithmetic_type
        (value_type api (.arithmetic arithmetic_type left none))
        (try_get_value api left Value.undefined).2 Value.undefined value
  | .arithmetic arithmetic_type left (some right), value =>
    if (try_get_value api left Value.undefined).1 ≠ RC.SUCCESS then
      ((try_get_value api left Value.undefined).1, value)
    else if (try_get_value api right Value.undefined).1 ≠ RC.SUCCESS then
      ((try_get_value api right Value.undefined).1, value)
    else
      ArithmeticExpr.calc_value api arithmetic_type
        (value_type api (.arithmetic arithmetic_type left (some right)))
        (try_get_value api left Value.undefined).2 (try_get_value api right Value.undefined).2
        value
  -- Expression::try_get_value
  | .field _ _, value => (RC.UNIMPLENMENT, value)
  | .conjunction _ _, value => (RC.UNIMPLENMENT, value)
  | .select _, value => (RC.UNIMPLENMENT, value)
  | .list _, value => (RC.UNIMPLENMENT, value)

/-- `ListExpression::get_value_list(tuple, value_set)`: an empty list is
rejected with `EXPRESSION_LIST_NULL`, otherwise the values of the elements are
appended to `value_set` in list order. -/
def ListExpression.get_value_list (api : ValueApi) (tuple : Tuple) (expr_list : List Expr)
    (value_set : List Value) (σ : Store) : Option (RC × List Value × Store) :=
  if expr_list.isEmpty then
    some (RC.EXPRESSION_LIST_NULL, value_set, σ)
  else
    get_value_list_loop api tuple expr_list value_set σ

/-- Evaluation of one operand of a comparison whose operator is neither `IN`
nor `NOT IN`: the sub-query block for an operand of type `SELECTION`, plain
`get_value` into a fresh value otherwise. -/
def operand_value (api : ValueApi) (tuple : Tuple) (e : Expr) (σ : Store) :
    Option (RC × Value × Store) :=
  match e with
  | .select root => select_operand root Value.undefined σ
  | _ => get_value api tuple e Value.undefined σ

/-- The six operators `=, ≠, <, ≤, >, ≥`. -/
def six_comparators : List ExprOp :=
  [ExprOp.EQUAL_TO, ExprOp.NOT_EQUAL, ExprOp.LESS_THAN, ExprOp.LESS_EQUAL,
    ExprOp.GREAT_THAN, ExprOp.GREAT_EQUAL]

/-- The ordering that `Value::compare` leaves in `cmp_result` for `x` against
`v` is "equal". The result code of the comparison plays no part, as in the
fetch loops, which drop it. -/
def compares_equal (api : ValueApi) (x v : Value) : Prop := (api.compare x v).2 = 0

/-- The script of a sub-query that yields the one-cell rows `vs`. -/
def one_cell_rows (vs : List Value) : List Fetch := vs.map (fun v => Fetch.row [v])

/-- The children `cs` evaluated in order into the shared `tmp_value`, as the
loop of `ConjunctionExpr::get_value` does, when each of them succeeds with
truth value `b`: the shared value and the store after the last child. -/
def run_children (api : ValueApi) (tuple : Tuple) (b : Bool) :
    List Expr → Value → Store → Option (Value × Store)
  | [], tmp_value, σ => some (tmp_value, σ)
  | c :: cs, tmp_value, σ =>
    match get_value api tuple c tmp_value σ with
    | none => none
    | some (rc, tmp_value1, σ1) =>
      if rc = RC.SUCCESS ∧ api.get_boolean tmp_value1 = b then
        run_children api tuple b cs tmp_value1 σ1
      else
        none

/-- Order of two elements as `Value::compare` reports it: negative, zero or
positive. -/
def ordering_result {α : Type} [LT α] [DecidableRel (fun a b : α => a < b)] [DecidableEq α]
    (a b : α) : Int :=
  if a < b then -1 else if a = b then 0 else 1

/-- Modelled from the spec: a `Value` layer for the worked examples.
`compare` orders two values of the same type; with a NULL participant or two
different types it reports `INVALID_ARGUMENT` and leaves -1 in `cmp_result`.
`get_boolean` reads a boolean as it is and a number as "not zero"; a value that
is not a number converts to 0; every column is declared `INTS`. -/
def example_api : ValueApi where
  compare := fun l r =>
    match l, r with
    | .int a, .int b => (RC.SUCCESS, ordering_result a b)
    | .date a, .date b => (RC.SUCCESS, ordering_result a b)
    | .chars a, .chars b => (RC.SUCCESS, ordering_result a b)
    | .float a, .float b => (RC.SUCCESS, ordering_result a b)
    | .bool a, .bool b => (RC.SUCCESS, ordering_result a b)
    | _, _ => (RC.INVALID_ARGUMENT, -1)
  get_boolean := fun v =>
    match v with
    | .bool b => b
    | .int n => decide (n ≠ 0)
    | .float x => decide (x ≠ 0)
    | _ => false
  get_int := fun _ => 0
  get_float := fun _ => 0
  EPSILON := 1 / 1000000
  field_type := fun _ _ => AttrType.INTS
  select_type := fun _ => AttrType.INTS
  list_type := AttrType.UNDEFINED

/-- A sub-query operator that has not been opened yet, answering `script`. The
code for a missing cell is set to `INVALID_ARGUMENT`; an example that reads a
row without cells sets its own. -/
def fresh_operator (script : List Fetch) : PhysicalOperator :=
  { open_rc := RC.SUCCESS, close_rc := RC.SUCCESS, script := script, pending := [],
    current := [], opens := 0, closes := 0, missing_cell_rc := RC.INVALID_ARGUMENT }

/-- The operator `op'` is `op` after some fetches: everything but `pending` and
`current` is unchanged. -/
def fetched_from (op op' : PhysicalOperator) : Prop :=
  op'.open_rc = op.open_rc ∧ op'.close_rc = op.close_rc ∧ op'.script = op.script ∧
    op'.opens = op.opens ∧ op'.closes = op.closes

/-- The end of `ComparisonExpr::get_value` for an operator other than `IN` and
`NOT IN`, once both operand values are known: compare, write the flag when the
comparison reports success, return its code. -/
def comparison_outcome (api : ValueApi) (comp : ExprOp) (left_value right_value value : Value)
    (σ : Store) : Option (RC × Value × Store) :=
  if (compare_value api comp left_value right_value).1 = RC.SUCCESS then
    some (RC.SUCCESS, value.set_boolean (compare_value api comp left_value right_value).2, σ)
  else
    some ((compare_value api comp left_value right_value).1, value, σ)

/-- Some suffix of `s`, the whole of `s` and the empty suffix included,
satisfies `f`. -/
def any_suffix (f : List Char → Bool) : List Char → Bool
  | [] => f []
  | c :: s => f (c :: s) || any_suffix f s

/-- The pattern match that the spec words for `LIKE`: the string `s` matches
`pattern` when `%` stands for zero or more characters, `_` for exactly one
character and every other character for itself. -/
def like_match : List Char → List Char → Bool
  | [], s => s.isEmpty
  | q :: pattern, s =>
    if q = '%' then
      any_suffix (like_match pattern) s
    else
      match s with
      | [] => false
      | c :: rest => (q = '_' || q = c) && like_match pattern rest

/-! ## SelectStmt::create: aggregates in the select list -/

/-- `AggrFuncType`: `NONE` for a plain column, `CNT` for `COUNT`. -/
inductive AggrFuncType where
  | NONE
  | CNT
  | SUM
  | AVG
  | MIN
  | MAX
  deriving DecidableEq

/-- `ExpressType`, the kind of a parsed expression node; `OTHER` stands for
every enumerator that is not `ATTR_T`. -/
inductive ExpressType where
  | ATTR_T
  | OTHER
  deriving DecidableEq

/-- `FunctionType`, the scalar function wrapped around a column; `FUNC tag`
stands for the enumerators other than `NONE_FUNC`. -/
inductive FunctionType where
  | NONE_FUNC
  | FUNC (tag : Nat)
  deriving DecidableEq

/-- `RelAttrSqlNode`, a parsed column reference, with the members that
`SelectStmt::create` reads; `alias_name` is the member `alias`. -/
structure RelAttrSqlNode where
  relation_name : String := ""
  attribute_name : String := ""
  aggr_func_type : AggrFuncType := AggrFuncType.NONE
  function_type : FunctionType := FunctionType.NONE_FUNC
  function_meta_info : String := ""
  is_constant_value : Bool := false
  constant_value : Value := Value.undefined
  has_alias : Bool := false
  alias_name : String := ""
  is_syntax_error : Bool := false
  deriving DecidableEq

/-- `ExprSqlNode`, a parsed select-list item. -/
structure ExprSqlNode where
  type : ExpressType := ExpressType.ATTR_T
  left_attr : RelAttrSqlNode := {}
  deriving DecidableEq

/-- The test of the counting loop of `SelectStmt::create`: the item is a column
reference wrapped in an aggregate function. -/
def is_aggr_attribute (item : ExprSqlNode) : Bool :=
  decide (item.type = ExpressType.ATTR_T ∧ item.left_attr.aggr_func_type ≠ AggrFuncType.NONE)

/-- The loop of `SelectStmt::create` that computes `aggr_func_count`: it walks
`select_sql.attributes` from the last item to the first and counts the items
that pass the test. -/
def aggr_func_count (attributes : List ExprSqlNode) : Nat :=
  attributes.reverse.foldl
    (fun count item => if is_aggr_attribute item then count + 1 else count) 0

/-- The rule of `SelectStmt::create` on mixing aggregates with plain columns,
between the resolution of GROUP BY and the resolution of the select list:
`some AGGR_FUNC_NOT_VALID` when `create` returns that code at this point,
`none` when it goes on. `group_by_fields_size` is `group_by_fields.size()`. -/
def SelectStmt.aggr_mixing_check (attributes : List ExprSqlNode) (group_by_fields_size : Nat) :
    Option RC :=
  if aggr_func_count attributes ≠ 0 ∧
      aggr_func_count attributes + group_by_fields_size ≠ attributes.length then
    some RC.AGGR_FUNC_NOT_VALID
  else
    none

/-- Expressions built from values, casts, comparisons other than `IN` and
`NOT IN`, and arithmetic nodes with both children present. -/
def both_children_present : Expr → Bool
  | .value _ => true
  | .cast child _ => both_children_present child
  | .comparison comp _ _ => decide (comp ≠ ExprOp.IN_COMP ∧ comp ≠ ExprOp.NOT_IN_COMP)
  | .arithmetic _ left (some right) => both_children_present left && both_children_present right
  | _ => false

/-! ## SelectStmt::create: the parsed statement, the catalog and the scope -/

/-- `ConditionSqlNode`, a parsed condition, with the members that
`SelectStmt::create` reads and the comparator and literal operands. -/
structure ConditionSqlNode where
  left_type : ExpressType := ExpressType.OTHER
  left_attr : RelAttrSqlNode := {}
  left_value : Value := Value.undefined
  comp : ExprOp := ExprOp.NO_OP
  right_type : ExpressType := ExpressType.OTHER
  right_attr : RelAttrSqlNode := {}
  right_value : Value := Value.undefined
  deriving DecidableEq

/-- `InnerJoinSqlNode`: the tables of an `INNER JOIN` entry and its `ON`
conditions. -/
structure InnerJoinSqlNode where
  relations : List String := []
  join_on_conditions : List ConditionSqlNode := []
  deriving DecidableEq

/-- `RelationSqlNode`, an entry of the FROM clause; `alias_name` is the member
`alias`. -/
structure RelationSqlNode where
  relation : String := ""
  has_alias : Bool := false
  alias_name : String := ""
  has_inner_join : Bool := false
  inner_join_sql_node : InnerJoinSqlNode := {}
  deriving DecidableEq

/-- Modelled from the spec: `OrderByDirection`. -/
inductive OrderByDirection where
  | ASC
  | DESC
  deriving DecidableEq

/-- `OrderBySqlNode`, an item of the ORDER BY clause. -/
structure OrderBySqlNode where
  rel_attr : RelAttrSqlNode := {}
  direction : OrderByDirection := OrderByDirection.ASC
  deriving DecidableEq

/-- `SelectSqlNode`, the parsed SELECT statement. -/
structure SelectSqlNode where
  relations : List RelationSqlNode := []
  attributes : List ExprSqlNode := []
  conditions : List ConditionSqlNode := []
  group_by_attributes : List RelAttrSqlNode := []
  having_conditions : List ConditionSqlNode := []
  order_by_sql_nodes : List OrderBySqlNode := []
  deriving DecidableEq

/-- Modelled from the spec: `FieldMeta`, the metadata of a column. -/
structure FieldMeta where
  name : String
  attr_type : AttrType := AttrType.INTS
  deriving DecidableEq

/-- Modelled from the spec: `TableMeta`, the columns of a table in metadata
order, the first `sys_field_num` of them being system columns. -/
structure TableMeta where
  fields : List FieldMeta := []
  sys_field_num : Nat := 0
  deriving DecidableEq

/-- Modelled from the spec: `TableMeta::field_num`. -/
def TableMeta.field_num (table_meta : TableMeta) : Nat := table_meta.fields.length

/-- Modelled from the spec: `TableMeta::field(name)`, the column of that name,
if any. -/
def TableMeta.field (table_meta : TableMeta) (name : String) : Option FieldMeta :=
  table_meta.fields.find? (fun field_meta => decide (field_meta.name = name))

/-- Modelled from the spec: `Table`, a table of the catalog. The alias is
state of the catalog object: `SelectStmt::create` sets it through the pointer it
got from `find_table`; `alias_name` is what `get_alias` reports. -/
structure Table where
  name : String
  table_meta : TableMeta := {}
  has_alias : Bool := false
  alias_name : String := ""
  deriving DecidableEq

/-- Modelled from the spec: `Db`, the catalog. A `Table *` is modelled by the
position of the table in `tables`. -/
structure Db where
  tables : List Table := []
  deriving DecidableEq

/-- Modelled from the spec: `Db::find_table(name)`, the handle of the table of
that name, `none` for a null pointer. -/
def Db.find_table (db : Db) (name : String) : Option Nat :=
  (db.tables.map (fun t => t.name)).indexOf? name

/-- Modelled from the spec: `table->set_has_alias(true)` and
`table->set_alias(alias)` on the catalog object behind the handle `table`. -/
def Db.set_alias (db : Db) (table : Nat) (alias_name : String) : Db :=
  match db.tables[table]? with
  | none => db
  | some t =>
    { tables := db.tables.set table { t with has_alias := true, alias_name := alias_name } }

/-- Modelled from the spec: `Field`, a resolved column reference: table handle
(`none` for the null handle of `Field()`), column metadata (`none` for the null
metadata of a constant), alias (`alias_name`), aggregate tag, function tag and
constant. -/
structure Field where
  table : Option Nat := none
  field : Option FieldMeta := none
  has_alias : Bool := false
  alias_name : String := ""
  aggr_func_type : AggrFuncType := AggrFuncType.NONE
  func_type : FunctionType := FunctionType.NONE_FUNC
  func_info : String := ""
  is_constant_value : Bool := false
  constant_value : Value := Value.undefined
  deriving DecidableEq

/-- A `std::unordered_map<std::string, Table *>`, as the list of its entries
in the order they were inserted. -/
structure TableMap where
  entries : List (String × Nat) := []
  deriving DecidableEq

/-- `unordered_map::find`: the table bound to `key`, if any. -/
def TableMap.find (m : TableMap) (key : String) : Option Nat :=
  (m.entries.find? (fun e => decide (e.1 = key))).map (fun e => e.2)

/-- `unordered_map::count`. -/
def TableMap.count (m : TableMap) (key : String) : Nat :=
  if (m.find key).isSome then 1 else 0

/-- `unordered_map::insert`: a key that is present keeps its binding. -/
def TableMap.insert (m : TableMap) (key : String) (table : Nat) : TableMap :=
  if m.count key > 0 then m else { entries := m.entries ++ [(key, table)] }

/-- A `std::unordered_map<std::string, ExprSqlNode *>`, as the list of its
entries in the order they were inserted. -/
structure AliasMap where
  entries : List (String × ExprSqlNode) := []
  deriving DecidableEq

/-- `unordered_map::count`. -/
def AliasMap.count (m : AliasMap) (key : String) : Nat :=
  if m.entries.any (fun e => decide (e.1 = key)) then 1 else 0

/-- `unordered_map::insert`: a key that is present keeps its binding. -/
def AliasMap.insert (m : AliasMap) (key : String) (node : ExprSqlNode) : AliasMap :=
  if m.count key > 0 then m else { entries := m.entries ++ [(key, node)] }

/-- Modelled from the spec: `common::is_blank`, which holds when the string has
no character other than white space. -/
def is_blank (s : String) : Bool :=
  s.data.all (fun c => decide (c.toNat = 32 ∨ (9 ≤ c.toNat ∧ c.toNat ≤ 13)))

/-- The course of a part of `SelectStmt::create`: it ran to its end with a
result, or `create` returned a code there, or there is no defined behaviour (an
exception or a null pointer). -/
inductive Resolved (α : Type) where
  | ok (a : α)
  | returned (rc : RC)
  | undefined
  deriving DecidableEq

/-- Sequencing: what follows runs only after a part that ran to its end. -/
def Resolved.bind {α β : Type} (x : Resolved α) (f : α → Resolved β) : Resolved β :=
  match x with
  | .ok a => f a
  | .returned rc => .returned rc
  | .undefined => .undefined

/-- A loop over `items` in list order whose body may return from `create`. -/
def Resolved.loop {σ α : Type} (body : α → σ → Resolved σ) : List α → σ → Resolved σ
  | [], st => .ok st
  | item :: rest, st => (body item st).bind (Resolved.loop body rest)

/-- What `SelectStmt::create` has resolved of the scope: the catalog with the
aliases set so far, `tables`, the scope map shared with the enclosing queries,
the map of the names first seen in this query, and `conditions`. -/
structure Scope where
  db : Db := {}
  tables : List Nat := []
  table_map : TableMap := {}
  local_table_map : TableMap := {}
  conditions : List ConditionSqlNode := []
  deriving DecidableEq

/-- What `SelectStmt::create` has resolved of the select list: `query_fields`,
`aggr_query_fields`, `aggr_field_to_query_field_map` (a `std::map<int, int>`),
the aliases of this select list and the aliases shared with the enclosing
queries. -/
structure Projection where
  query_fields : List Field := []
  aggr_query_fields : List Field := []
  aggr_field_to_query_field_map : List (Int × Int) := []
  local_attr_alias : AliasMap := {}
  alias_to_select_attr : AliasMap := {}
  deriving DecidableEq

/-! ## SelectStmt::create -/

/-- Modelled from the spec: `FilterObj`, an operand of a filter unit: a column,
a value or a sub-select. The class is absent and the plan generator only hands
the operand to `to_expression`, so a sub-select is named by a number here. -/
inductive FilterObj where
  | attr (field : Field)
  | value (value : Value)
  | selects (stmt : Nat)
  deriving DecidableEq

/-- Modelled from the spec: `FilterUnit`, one comparison of a filter: the
comparator and the two operands. -/
structure FilterUnit where
  comp : ExprOp := ExprOp.NO_OP
  left : FilterObj := FilterObj.value Value.undefined
  right : FilterObj := FilterObj.value Value.undefined
  deriving DecidableEq

/-- Modelled from the spec: the filter that `FilterStmt::create` (absent)
builds, recorded as the default table and the conditions it was built from,
with its filter units. -/
structure FilterStmt where
  default_table : Option Nat := none
  conditions : List ConditionSqlNode := []
  filter_units : List FilterUnit := []
  deriving DecidableEq

/-- What a call of `FilterStmt::create` leaves behind: its result code, the
objects it was given by pointer and the filter units of the filter it built. -/
structure FilterOutcome where
  rc : RC
  db : Db
  table_map : TableMap
  alias_to_select_attr : AliasMap
  filter_units : List FilterUnit := []

/-- What the sources at hand do not determine about the resolver:
`func_to_str`, `aggr_func_to_str` and `FilterStmt::create`, called with the
catalog, the default table, the scope map, the conditions and the map of select
aliases (`none` when the argument is left out). -/
structure ResolverApi where
  func_to_str : FunctionType → String
  aggr_func_to_str : AggrFuncType → String
  filter_create : Db → Option Nat → TableMap → List ConditionSqlNode → Option AliasMap →
    FilterOutcome

/-- `SelectStmt`, the resolved statement. -/
structure SelectStmt where
  tables : List Nat := []
  query_fields : List Field := []
  aggr_query_fields : List Field := []
  aggr_field_to_query_field_map : List (Int × Int) := []
  order_by_fields : List Field := []
  order_by_directions : List OrderByDirection := []
  group_by_fields : List Field := []
  filter_stmt : FilterStmt := {}
  having_filter_stmt : FilterStmt := {}
  is_sub_select : Bool := false
  deriving DecidableEq

/-- What a successful `SelectStmt::create` leaves behind: the statement, and
the catalog and the two maps it was given by pointer. -/
structure CreateResult where
  stmt : SelectStmt
  db : Db
  table_map : TableMap
  alias_to_select_attr : AliasMap
  deriving DecidableEq

/-- `wildcard_fields(table, field_metas)`: append the columns of the table from
`sys_field_num` on, in metadata order, aliased `alias.column` when the table
has an alias. `none` when the handle points to no table. -/
def wildcard_fields (db : Db) (table : Nat) (field_metas : List Field) : Option (List Field) :=
  match db.tables[table]? with
  | none => none
  | some t =>
    some (field_metas ++
      (t.table_meta.fields.drop t.table_meta.sys_field_num).map (fun field_meta =>
        if t.has_alias then
          { table := some table, field := some field_meta,
            alias_name := t.alias_name ++ "." ++ field_meta.name, has_alias := true }
        else
          { table := some table, field := some field_meta }))

/-- The loop `for (Table *table : tables) wildcard_fields(table, query_fields)`. -/
def wildcard_all (db : Db) : List Nat → List Field → Option (List Field)
  | [], field_metas => some field_metas
  | table :: rest, field_metas =>
    match wildcard_fields db table field_metas with
    | none => none
    | some field_metas1 => wildcard_all db rest field_metas1

/-- The part of the FROM loop that handles one table name of the entry
`relation` (written once for a plain entry and once inside the loop over the
tables of an `INNER JOIN` entry): look the table up, check and record the alias
of the entry, append the table to `tables` and record its name. -/
def add_from_table (relation : RelationSqlNode) (table_name : String) (scope : Scope) :
    Resolved Scope :=
  match scope.db.find_table table_name with
  | none => .returned RC.SCHEMA_TABLE_NOT_EXIST
  | some table =>
    if relation.has_alias then
      if scope.local_table_map.count relation.alias_name > 0 then
        .returned RC.SQL_SYNTAX
      else
        .ok { scope with
          db := scope.db.set_alias table relation.alias_name,
          tables := scope.tables ++ [table],
          table_map := (scope.table_map.insert relation.alias_name table).insert table_name table,
          local_table_map :=
            (scope.local_table_map.insert relation.alias_name table).insert table_name table }
    else
      .ok { scope with
        tables := scope.tables ++ [table],
        table_map := scope.table_map.insert table_name table,
        local_table_map := scope.local_table_map.insert table_name table }

/-- The body of the FROM loop for one entry: a plain entry names one table; an
`INNER JOIN` entry names several and adds its `ON` conditions to
`conditions`. -/
def from_relation (relation : RelationSqlNode) (scope : Scope) : Resolved Scope :=
  if relation.has_inner_join = false then
    add_from_table relation relation.relation scope
  else
    (Resolved.loop (add_from_table relation) relation.inner_join_sql_node.relations scope).bind
      (fun scope1 => .ok { scope1 with
        conditions := scope1.conditions ++ relation.inner_join_sql_node.join_on_conditions })

/-- The table names that the FROM loop looks up for one entry, in the order it
looks them up. -/
def table_names (relation : RelationSqlNode) : List String :=
  if relation.has_inner_join = false then [relation.relation]
  else relation.inner_join_sql_node.relations

/-- The resolution of one column of GROUP BY or ORDER BY (the two loops have
the same body): `*` is rejected, a qualified column is looked up through the
scope map, an unqualified one needs exactly one table. -/
def resolve_column (scope : Scope) (relation_attr : RelAttrSqlNode) : Resolved Field :=
  if is_blank relation_attr.relation_name ∧ relation_attr.attribute_name = "*" then
    .returned RC.INVALID_ARGUMENT
  else if is_blank relation_attr.relation_name = false then
    if relation_attr.relation_name = "*" then
      .returned RC.INVALID_ARGUMENT
    else
      match scope.table_map.find relation_attr.relation_name with
      | none => .returned RC.SCHEMA_FIELD_MISSING
      | some table =>
        if relation_attr.attribute_name = "*" then
          .returned RC.INVALID_ARGUMENT
        else
          match scope.db.tables[table]? with
          | none => .undefined
          | some t =>
            match t.table_meta.field relation_attr.attribute_name with
            | none => .returned RC.SCHEMA_FIELD_MISSING
            | some field_meta => .ok { table := some table, field := some field_meta }
  else
    match scope.tables with
    | [table] =>
      match scope.db.tables[table]? with
      | none => .undefined
      | some t =>
        match t.table_meta.field relation_attr.attribute_name with
        | none => .returned RC.SCHEMA_FIELD_MISSING
        | some field_meta => .ok { table := some table, field := some field_meta }
    | _ => .returned RC.SCHEMA_FIELD_MISSING

/-- The body of the GROUP BY loop. -/
def group_by_step (scope : Scope) (relation_attr : RelAttrSqlNode) (group_by_fields : List Field) :
    Resolved (List Field) :=
  (resolve_column scope relation_attr).bind (fun field => .ok (group_by_fields ++ [field]))

/-- The body of the ORDER BY loop: the direction is recorded before the column
is resolved. -/
def order_by_step (scope : Scope) (node : OrderBySqlNode)
    (acc : List Field × List OrderByDirection) : Resolved (List Field × List OrderByDirection) :=
  (resolve_column scope node.rel_attr).bind
    (fun field => .ok (acc.1 ++ [field], acc.2 ++ [node.direction]))

/-- `aggr_field_to_query_field_map[aggr_query_fields.size() - 1] =
query_fields.size() - 1`, after the two vectors got their new elements:
assignment through `operator[]` of a `std::map<int, int>`. -/
def assign_aggr_index (aggr_query_fields query_fields : List Field) (m : List (Int × Int)) :
    List (Int × Int) :=
  m.filter (fun e => decide (e.1 ≠ (aggr_query_fields.length : Int) - 1)) ++
    [((aggr_query_fields.length : Int) - 1, (query_fields.length : Int) - 1)]

/-- The end of the branches for `rel.attr` and for `attr` of the select-list
loop: append the field to `query_fields` and, if the select list has an
aggregate, append `aggr_field`, the field with the alias of the aggregate
branch, to `aggr_query_fields` and record the pair of positions. -/
def push_field (aggr_func_count : Nat) (field aggr_field : Field) (p : Projection) :
    Projection :=
  if aggr_func_count ≠ 0 then
    { p with
      query_fields := p.query_fields ++ [field],
      aggr_query_fields := p.aggr_query_fields ++ [aggr_field],
      aggr_field_to_query_field_map :=
        assign_aggr_index (p.aggr_query_fields ++ [aggr_field]) (p.query_fields ++ [field])
          p.aggr_field_to_query_field_map }
  else
    { p with query_fields := p.query_fields ++ [field] }

/-- The branch of the select-list loop for `rel.attr` once table and column
are found (`t` is the table behind the handle). -/
def resolve_qualified (api : ResolverApi) (aggr_func_count : Nat) (item : ExprSqlNode)
    (table : Nat) (t : Table) (field_meta : FieldMeta) (p : Projection) : Resolved Projection :=
  let relation_attr := item.left_attr
  let table_name := relation_attr.relation_name
  let field_name := relation_attr.attribute_name
  let field0 : Field :=
    { table := some table, field := some field_meta,
      aggr_func_type := relation_attr.aggr_func_type, func_type := relation_attr.function_type }
  let field1 : Field :=
    if relation_attr.is_constant_value then
      { field0 with is_constant_value := true, constant_value := relation_attr.constant_value }
    else field0
  let field2 : Field :=
    if relation_attr.function_type ≠ FunctionType.NONE_FUNC then
      if t.has_alias then
        { field1 with
          alias_name := t.alias_name ++ "." ++ field_name, has_alias := true,
          func_info := relation_attr.function_meta_info }
      else
        { field1 with
          alias_name := api.func_to_str relation_attr.function_type ++ "(" ++ t.alias_name ++
            "." ++ field_name ++ ")",
          has_alias := true, func_info := relation_attr.function_meta_info }
    else field1
  let aggr_alias (field : Field) : Field :=
    let named : Field :=
      if relation_attr.aggr_func_type ≠ AggrFuncType.NONE then
        { field with
          alias_name := api.aggr_func_to_str relation_attr.aggr_func_type ++ "(" ++ table_name ++
            "." ++ field_name ++ ")",
          has_alias := true }
      else
        { field with alias_name := table_name ++ "." ++ field_name, has_alias := true }
    if relation_attr.has_alias then
      { named with alias_name := relation_attr.alias_name }
    else if t.has_alias then
      { named with
        alias_name := api.aggr_func_to_str relation_attr.aggr_func_type ++ "(" ++ t.alias_name ++
          "." ++ field_name ++ ")" }
    else named
  if relation_attr.has_alias then
    if p.local_attr_alias.count relation_attr.alias_name > 0 then
      .returned RC.SQL_SYNTAX
    else
      let field3 : Field :=
        { field2 with alias_name := relation_attr.alias_name, has_alias := true }
      .ok (push_field aggr_func_count field3 (aggr_alias field3)
        { p with
          local_attr_alias := p.local_attr_alias.insert relation_attr.alias_name item,
          alias_to_select_attr := p.alias_to_select_attr.insert relation_attr.alias_name item })
  else if t.has_alias then
    let field3 : Field :=
      { field2 with alias_name := t.alias_name ++ "." ++ field_name, has_alias := true }
    .ok (push_field aggr_func_count field3 (aggr_alias field3) p)
  else
    .ok (push_field aggr_func_count field2 (aggr_alias field2) p)

/-- The branch of the select-list loop for `attr` without a table name, once
the only table is known (`t` is the table behind the handle). -/
def resolve_unqualified (api : ResolverApi) (aggr_func_count : Nat) (item : ExprSqlNode)
    (table : Nat) (t : Table) (p : Projection) : Resolved Projection :=
  let relation_attr := item.left_attr
  let field_meta := t.table_meta.field relation_attr.attribute_name
  if field_meta = none ∧ relation_attr.is_constant_value = false then
    .returned RC.SCHEMA_FIELD_MISSING
  else
    let field0 : Field :=
      { table := some table, field := field_meta,
        aggr_func_type := relation_attr.aggr_func_type,
        func_type := relation_attr.function_type }
    let field1 : Option Field :=
      if relation_attr.is_constant_value then
        some { field0 with
          is_constant_value := true, constant_value := relation_attr.constant_value,
          alias_name := "constant", has_alias := true }
      else if relation_attr.function_type ≠ FunctionType.NONE_FUNC then
        match field_meta with
        | none => none
        | some fm =>
          some { field0 with
            alias_name := api.func_to_str relation_attr.function_type ++ "(" ++ fm.name ++ ")",
            has_alias := true, func_info := relation_attr.function_meta_info }
      else some field0
    let aggr_alias (field : Field) : Option Field :=
      if aggr_func_count ≠ 0 then
        match field_meta with
        | none => none
        | some fm =>
          let named : Field :=
            if relation_attr.aggr_func_type ≠ AggrFuncType.NONE then
              { field with
                alias_name :=
                  api.aggr_func_to_str relation_attr.aggr_func_type ++ "(" ++ fm.name ++ ")",
                func_info := relation_attr.function_meta_info, has_alias := true }
            else
              { field with alias_name := fm.name, has_alias := true }
          if relation_attr.has_alias then
            some { named with alias_name := relation_attr.alias_name }
          else some named
      else some field
    match field1 with
    | none => .undefined
    | some field1 =>
      if relation_attr.has_alias then
        if p.local_attr_alias.count relation_attr.alias_name > 0 then
          .returned RC.SQL_SYNTAX
        else
          let field2 : Field :=
            { field1 with alias_name := relation_attr.alias_name, has_alias := true }
          match aggr_alias field2 with
          | none => .undefined
          | some aggr_field =>
            .ok (push_field aggr_func_count field2 aggr_field
              { p with
                local_attr_alias := p.local_attr_alias.insert relation_attr.alias_name item,
                alias_to_select_attr :=
                  p.alias_to_select_attr.insert relation_attr.alias_name item })
      else
        match aggr_alias field1 with
        | none => .undefined
        | some aggr_field => .ok (push_field aggr_func_count field1 aggr_field p)

/-- The body of the select-list loop of `SelectStmt::create` for one item. -/
def resolve_attribute (api : ResolverApi) (aggr_func_count : Nat) (scope : Scope)
    (item : ExprSqlNode) (p : Projection) : Resolved Projection :=
  let relation_attr := item.left_attr
  if relation_attr.is_syntax_error then
    .returned RC.SQL_SYNTAX
  else if is_blank relation_attr.relation_name ∧ relation_attr.attribute_name = "*" then
    -- the item is `*`
    match wildcard_all scope.db scope.tables p.query_fields with
    | none => .undefined
    | some query_fields =>
      if relation_attr.aggr_func_type ≠ AggrFuncType.NONE then
        if relation_attr.aggr_func_type = AggrFuncType.CNT then
          let count_field : Field :=
            { aggr_func_type := AggrFuncType.CNT,
              alias_name := if relation_attr.has_alias then relation_attr.alias_name
                else "COUNT(*)" }
          .ok { p with
            query_fields := query_fields,
            aggr_query_fields := p.aggr_query_fields ++ [count_field],
            aggr_field_to_query_field_map :=
              assign_aggr_index (p.aggr_query_fields ++ [count_field]) query_fields
                p.aggr_field_to_query_field_map }
        else
          .returned RC.AGGR_FUNC_NOT_VALID
      else
        .ok { p with query_fields := query_fields }
  else if is_blank relation_attr.relation_name = false then
    if relation_attr.relation_name = "*" then
      if relation_attr.attribute_name ≠ "*" then
        .returned RC.SCHEMA_FIELD_MISSING
      else
        -- the item is `*.*`
        match wildcard_all scope.db scope.tables p.query_fields with
        | none => .undefined
        | some query_fields =>
          if relation_attr.aggr_func_type ≠ AggrFuncType.NONE then
            .returned RC.AGGR_FUNC_NOT_VALID
          else
            .ok { p with query_fields := query_fields }
    else
      match scope.table_map.find relation_attr.relation_name with
      | none => .returned RC.SCHEMA_FIELD_MISSING
      | some table =>
        if relation_attr.attribute_name = "*" then
          -- the item is `rel.*`
          match wildcard_fields scope.db table p.query_fields with
          | none => .undefined
          | some query_fields =>
            if relation_attr.aggr_func_type ≠ AggrFuncType.NONE then
              .returned RC.AGGR_FUNC_NOT_VALID
            else
              .ok { p with query_fields := query_fields }
        else
          -- the item is `rel.attr`
          match scope.db.tables[table]? with
          | none => .undefined
          | some t =>
            match t.table_meta.field relation_attr.attribute_name with
            | none => .returned RC.SCHEMA_FIELD_MISSING
            | some field_meta =>
              resolve_qualified api aggr_func_count item table t field_meta p
  else
    -- the item is `attr`
    match scope.tables with
    | [table] =>
      match scope.db.tables[table]? with
      | none => .undefined
      | some t => resolve_unqualified api aggr_func_count item table t p
    | _ => .returned RC.SCHEMA_FIELD_MISSING

/-- One operand of a condition in the loop that `SelectStmt::create` runs for a
sub-select: an attribute named like a recorded select alias is rejected; a
qualified attribute whose table name was not first seen in this query gets its
table from the scope map (`at` throws when it is not there) appended to
`tables`. -/
def outer_reference (alias_to_select_attr : AliasMap) (type : ExpressType)
    (attr : RelAttrSqlNode) (scope : Scope) : Resolved Scope :=
  if type = ExpressType.ATTR_T then
    if alias_to_select_attr.count attr.attribute_name > 0 then
      .returned RC.SQL_SYNTAX
    else if attr.relation_name ≠ "" ∧ scope.local_table_map.count attr.relation_name = 0 then
      match scope.table_map.find attr.relation_name with
      | none => .undefined
      | some table => .ok { scope with tables := scope.tables ++ [table] }
    else
      .ok scope
  else
    .ok scope

/-- The body of that loop for one condition: left operand, then right
operand. -/
def outer_references (alias_to_select_attr : AliasMap) (condition : ConditionSqlNode)
    (scope : Scope) : Resolved Scope :=
  (outer_reference alias_to_select_attr condition.left_type condition.left_attr scope).bind
    (outer_reference alias_to_select_attr condition.right_type condition.right_attr)

/-- The state in which `SelectStmt::create` enters the FROM loop: no tables
yet, the maps given by the caller (fresh ones for null pointers), the WHERE
conditions. -/
def initial_scope (db : Db) (select_sql : SelectSqlNode) (table_map : Option TableMap) : Scope :=
  { db := db, tables := [], table_map := table_map.getD {}, local_table_map := {},
    conditions := select_sql.conditions }

/-- The FROM loop of `SelectStmt::create`. -/
def from_stage (select_sql : SelectSqlNode) (scope : Scope) : Resolved Scope :=
  Resolved.loop from_relation select_sql.relations scope

/-- The GROUP BY loop of `SelectStmt::create`, from the last item to the
first. -/
def group_by_stage (select_sql : SelectSqlNode) (scope : Scope) : Resolved (List Field) :=
  Resolved.loop (group_by_step scope) select_sql.group_by_attributes.reverse []

/-- The select-list loop of `SelectStmt::create` over `items`, which are taken
from the last to the first. -/
def select_list_loop (api : ResolverApi) (aggr_func_count : Nat) (scope : Scope)
    (items : List ExprSqlNode) (p : Projection) : Resolved Projection :=
  Resolved.loop (resolve_attribute api aggr_func_count scope) items.reverse p

/-- The scope in which `SelectStmt::create` resolves the ORDER BY columns:
`scope1`, the scope behind the conditions of a sub-select, with the catalog and
the scope map as the creation of the WHERE filter leaves them. `scope` is the
scope behind the FROM loop, whose `tables` give the default table of the
filter, and `p` the projection behind the select list. -/
def order_by_scope (api : ResolverApi) (scope scope1 : Scope) (p : Projection) : Scope :=
  let default_table : Option Nat :=
    match scope.tables with
    | [table] => some table
    | _ => none
  let filter := api.filter_create scope1.db default_table scope1.table_map scope1.conditions
    (some p.alias_to_select_attr)
  { scope1 with db := filter.db, table_map := filter.table_map }

/-- `SelectStmt::create` behind the rule on aggregates: the select-list loop
and everything after it, with the scope and the GROUP BY fields resolved. -/
def create_after_mixing_rule (api : ResolverApi) (select_sql : SelectSqlNode)
    (is_sub_select : Bool) (alias_to_select_attr : Option AliasMap) (scope : Scope)
    (group_by_fields : List Field) : Resolved CreateResult :=
  (select_list_loop api (aggr_func_count select_sql.attributes) scope select_sql.attributes
    { alias_to_select_attr := alias_to_select_attr.getD {} }).bind (fun p =>
  let default_table : Option Nat :=
    match scope.tables with
    | [table] => some table
    | _ => none
  (if is_sub_select then
    Resolved.loop (outer_references p.alias_to_select_attr) scope.conditions scope
  else .ok scope).bind (fun scope1 =>
  let filter := api.filter_create scope1.db default_table scope1.table_map scope1.conditions
    (some p.alias_to_select_attr)
  if filter.rc ≠ RC.SUCCESS then
    .returned filter.rc
  else
    let scope2 : Scope := { scope1 with db := filter.db, table_map := filter.table_map }
    (Resolved.loop (order_by_step scope2) select_sql.order_by_sql_nodes.reverse ([], [])).bind
      (fun order_by =>
    let having := api.filter_create scope2.db default_table scope2.table_map
      select_sql.having_conditions none
    if having.rc ≠ RC.SUCCESS then
      .returned having.rc
    else
      .ok {
        stmt := {
          tables := scope2.tables,
          query_fields := p.query_fields,
          aggr_query_fields := p.aggr_query_fields,
          aggr_field_to_query_field_map := p.aggr_field_to_query_field_map,
          order_by_fields := order_by.1,
          order_by_directions := order_by.2,
          group_by_fields := group_by_fields,
          filter_stmt :=
            { default_table := default_table, conditions := scope1.conditions,
              filter_units := filter.filter_units },
          having_filter_stmt :=
            { default_table := default_table, conditions := select_sql.having_conditions,
              filter_units := having.filter_units },
          is_sub_select := is_sub_select },
        db := having.db,
        table_map := having.table_map,
        alias_to_select_attr := filter.alias_to_select_attr })))

/-- `SelectStmt::create` from the rule on aggregates on, with the scope and
the GROUP BY fields resolved. -/
def create_from_select_list (api : ResolverApi) (select_sql : SelectSqlNode)
    (is_sub_select : Bool) (alias_to_select_attr : Option AliasMap) (scope : Scope)
    (group_by_fields : List Field) : Resolved CreateResult :=
  match SelectStmt.aggr_mixing_check select_sql.attributes group_by_fields.length with
  | some rc => .returned rc
  | none =>
    create_after_mixing_rule api select_sql is_sub_select alias_to_select_attr scope
      group_by_fields

/-- `SelectStmt::create(db, select_sql, stmt, is_sub_select, table_map,
alias_to_select_attr)`; `none` stands for a null pointer argument. -/
def SelectStmt.create (api : ResolverApi) (db : Option Db) (select_sql : SelectSqlNode)
    (is_sub_select : Bool) (table_map : Option TableMap)
    (alias_to_select_attr : Option AliasMap) : Resolved CreateResult :=
  match db with
  | none => .returned RC.INVALID_ARGUMENT
  | some db =>
    (from_stage select_sql (initial_scope db select_sql table_map)).bind (fun scope =>
    (group_by_stage select_sql scope).bind (fun group_by_fields =>
    create_from_select_list api select_sql is_sub_select alias_to_select_attr scope
      group_by_fields))

/-- The select-list loop of `SelectStmt::create` reaches `item`, which stands
between `before` and `after` in the select list, with the scope `scope`, the
GROUP BY fields `group_by_fields` and the projection `p`: the FROM loop and the
GROUP BY loop ran to their ends, the rule on aggregates passed, and the items
behind `item`, which the loop takes first, were resolved. -/
def reaches_item (api : ResolverApi) (db : Db) (select_sql : SelectSqlNode)
    (table_map : Option TableMap) (alias_to_select_attr : Option AliasMap)
    (before : List ExprSqlNode) (item : ExprSqlNode) (after : List ExprSqlNode)
    (scope : Scope) (group_by_fields : List Field) (p : Projection) : Prop :=
  select_sql.attributes = before ++ item :: after ∧
  from_stage select_sql (initial_scope db select_sql table_map) = .ok scope ∧
  group_by_stage select_sql scope = .ok group_by_fields ∧
  SelectStmt.aggr_mixing_check select_sql.attributes group_by_fields.length = none ∧
  select_list_loop api (aggr_func_count select_sql.attributes) scope after
    { alias_to_select_attr := alias_to_select_attr.getD {} } = .ok p

/-- The metadata of the table behind a handle; no columns for a handle that
points to no table. -/
def Db.table_meta (db : Db) (table : Nat) : TableMeta :=
  match db.tables[table]? with
  | some t => t.table_meta
  | none => {}

/-- The non-system columns of a table in metadata order, in the words of the
specification: the columns at the positions from `sys_field_num` on. -/
def TableMeta.non_system_columns (table_meta : TableMeta) : List FieldMeta :=
  (List.range table_meta.field_num).filterMap (fun i =>
    if table_meta.sys_field_num ≤ i then table_meta.fields[i]? else none)

/-- The WHERE stage of `SelectStmt::create` is reached with the scope `scope`,
the GROUP BY fields `group_by_fields` and the projection `p`: the FROM loop and
the GROUP BY loop ran to their ends, the rule on aggregates passed, and the
select list was resolved. -/
def reaches_where (api : ResolverApi) (db : Db) (select_sql : SelectSqlNode)
    (table_map : Option TableMap) (alias_to_select_attr : Option AliasMap)
    (scope : Scope) (group_by_fields : List Field) (p : Projection) : Prop :=
  from_stage select_sql (initial_scope db select_sql table_map) = .ok scope ∧
  group_by_stage select_sql scope = .ok group_by_fields ∧
  SelectStmt.aggr_mixing_check select_sql.attributes group_by_fields.length = none ∧
  select_list_loop api (aggr_func_count select_sql.attributes) scope select_sql.attributes
    { alias_to_select_attr := alias_to_select_attr.getD {} } = .ok p

/-- An operand of a condition is an attribute named like an alias recorded in
`aliases`. -/
@[reducible] def names_alias (aliases : AliasMap) (type : ExpressType) (attr : RelAttrSqlNode) :
    Prop :=
  type = ExpressType.ATTR_T ∧ aliases.count attr.attribute_name > 0

/-- An operand of a condition is an attribute qualified by a table name that
was not first seen in this query. -/
@[reducible] def is_outer_reference (scope : Scope) (type : ExpressType)
    (attr : RelAttrSqlNode) : Prop :=
  type = ExpressType.ATTR_T ∧ attr.relation_name ≠ "" ∧
    scope.local_table_map.count attr.relation_name = 0

/-- An operand of a condition that refers to an outer table names a table that
the scope map binds. -/
@[reducible] def operand_bound (scope : Scope) (type : ExpressType) (attr : RelAttrSqlNode) :
    Prop :=
  is_outer_reference scope type attr → (scope.table_map.find attr.relation_name).isSome

/-- The outer table handle of one operand of a condition, in the words of the
specification: the table that the scope map binds to the qualifier, for an
operand that refers to an outer table. -/
def outer_table_of (scope : Scope) (type : ExpressType) (attr : RelAttrSqlNode) : List Nat :=
  if is_outer_reference scope type attr then (scope.table_map.find attr.relation_name).toList
  else []

/-- The outer table handles of the conditions, one for every operand that
refers to an outer table, condition after condition and left operand before
right operand. -/
def outer_tables (scope : Scope) (conditions : List ConditionSqlNode) : List Nat :=
  conditions.flatMap (fun c =>
    outer_table_of scope c.left_type c.left_attr ++ outer_table_of scope c.right_type c.right_attr)

/-- An operand of a condition as an operand of a filter unit, for the worked
examples: an attribute by its name, anything else by its value. -/
def example_filter_obj (type : ExpressType) (attr : RelAttrSqlNode) (value : Value) :
    FilterObj :=
  if type = ExpressType.ATTR_T then
    FilterObj.attr { field := some { name := attr.attribute_name } }
  else
    FilterObj.value value

/-- A resolver layer for the worked examples: aggregate and function names as
SQL writes them, and a `FilterStmt::create` that accepts every condition, makes
one filter unit of it and leaves catalog and maps alone. -/
def example_resolver : ResolverApi where
  func_to_str := fun function_type =>
    match function_type with
    | .NONE_FUNC => ""
    | .FUNC 0 => "LENGTH"
    | .FUNC 1 => "ROUND"
    | .FUNC _ => "DATE_FORMAT"
  aggr_func_to_str := fun aggr_func_type =>
    match aggr_func_type with
    | .NONE => ""
    | .CNT => "COUNT"
    | .SUM => "SUM"
    | .AVG => "AVG"
    | .MIN => "MIN"
    | .MAX => "MAX"
  filter_create := fun db _ table_map conditions alias_to_select_attr =>
    { rc := RC.SUCCESS, db := db, table_map := table_map,
      alias_to_select_attr := alias_to_select_attr.getD {},
      filter_units := conditions.map (fun c =>
        { comp := c.comp,
          left := example_filter_obj c.left_type c.left_attr c.left_value,
          right := example_filter_obj c.right_type c.right_attr c.right_value }) }

/-- A catalog for the worked examples: `t(a, b)` and `u(a, c)`, each with one
system column in front. -/
def example_db : Db :=
  { tables :=
      [{ name := "t",
         table_meta := { fields := [{ name := "__trx" }, { name := "a" }, { name := "b" }],
                         sys_field_num := 1 } },
       { name := "u",
         table_meta := { fields := [{ name := "__trx" }, { name := "a" }, { name := "c" }],
                         sys_field_num := 1 } }] }

/-- The statement `SELECT a FROM t WHERE u.a = t.a` for the worked examples;
`u` is no table of its FROM clause. -/
def example_sub_select : SelectSqlNode :=
  { relations := [{ relation := "t" }],
    attributes := [{ type := ExpressType.ATTR_T, left_attr := { attribute_name := "a" } }],
    conditions :=
      [{ left_type := ExpressType.ATTR_T,
         left_attr := { relation_name := "u", attribute_name := "a" },
         comp := ExprOp.EQUAL_TO,
         right_type := ExpressType.ATTR_T,
         right_attr := { relation_name := "t", attribute_name := "a" } }] }

/-- The logical operators that `LogicalPlanGenerator` builds for SELECT and
UPDATE: `TableGetLogicalOperator`, `JoinLogicalOperator` (with
`is_right_sub_link` and `right_link`; `none` for a null link),
`PredicateLogicalOperator`, `ProjectLogicalOperator`, `GroupByLogicalOperator`,
`OrderByLogicalOperator`, `AggregationLogicalOperator` and
`UpdateLogicalOperator`, each with the children of `LogicalOperator`. A
`LogicalOperator *` that does not own its target (`right_link`, and the values
of the sharing map) is modelled by the operator it points to: the targets are
`TableGet` operators, which the generator does not change once they are built. -/
inductive LogicalOperator where
  | table_get (table : Nat) (fields : List Field) (readonly : Bool)
      (children : List LogicalOperator)
  | join (is_right_sub_link : Bool) (right_link : Option LogicalOperator)
      (children : List LogicalOperator)
  | predicate (expression : Expr) (children : List LogicalOperator)
  | project (fields : List Field) (children : List LogicalOperator)
  | group_by (fields : List Field) (children : List LogicalOperator)
  | order_by (fields : List Field) (directions : List OrderByDirection)
      (children : List LogicalOperator)
  | aggregation (fields : List Field) (aggr_field_to_query_field_map : List (Int × Int))
      (expressions : List Expr) (children : List LogicalOperator)
  | update (table : Nat) (attribute_names : List String) (values : List Value)
      (set_selects_attr_name : List String) (set_selects_opers : List LogicalOperator)
      (children : List LogicalOperator)

/-- `LogicalOperator::add_child`. -/
def LogicalOperator.add_child (oper child : LogicalOperator) : LogicalOperator :=
  match oper with
  | .table_get table fields readonly children =>
    .table_get table fields readonly (children ++ [child])
  | .join is_right_sub_link right_link children =>
    .join is_right_sub_link right_link (children ++ [child])
  | .predicate expression children => .predicate expression (children ++ [child])
  | .project fields children => .project fields (children ++ [child])
  | .group_by fields children => .group_by fields (children ++ [child])
  | .order_by fields directions children => .order_by fields directions (children ++ [child])
  | .aggregation fields m expressions children =>
    .aggregation fields m expressions (children ++ [child])
  | .update table attribute_names values set_selects_attr_name set_selects_opers children =>
    .update table attribute_names values set_selects_attr_name set_selects_opers
      (children ++ [child])

mutual
/-- The number of `TableGet` operators in a plan: the operator itself, its
children and the sub-select plans of an `Update`; a `right_link` is a pointer
into another part of the plan and is not followed. -/
def LogicalOperator.table_get_count : LogicalOperator → Nat
  | .table_get _ _ _ children => 1 + LogicalOperator.table_get_count_list children
  | .join _ _ children => LogicalOperator.table_get_count_list children
  | .predicate _ children => LogicalOperator.table_get_count_list children
  | .project _ children => LogicalOperator.table_get_count_list children
  | .group_by _ children => LogicalOperator.table_get_count_list children
  | .order_by _ _ children => LogicalOperator.table_get_count_list children
  | .aggregation _ _ _ children => LogicalOperator.table_get_count_list children
  | .update _ _ _ _ set_selects_opers children =>
    LogicalOperator.table_get_count_list set_selects_opers +
      LogicalOperator.table_get_count_list children
/-- The number of `TableGet` operators in a list of plans. -/
def LogicalOperator.table_get_count_list : List LogicalOperator → Nat
  | [] => 0
  | oper :: rest =>
    LogicalOperator.table_get_count oper + LogicalOperator.table_get_count_list rest
end

mutual
/-- The number of `Join` operators in a plan, counted like the `TableGet`
operators. -/
def LogicalOperator.join_count : LogicalOperator → Nat
  | .table_get _ _ _ children => LogicalOperator.join_count_list children
  | .join _ _ children => 1 + LogicalOperator.join_count_list children
  | .predicate _ children => LogicalOperator.join_count_list children
  | .project _ children => LogicalOperator.join_count_list children
  | .group_by _ children => LogicalOperator.join_count_list children
  | .order_by _ _ children => LogicalOperator.join_count_list children
  | .aggregation _ _ _ children => LogicalOperator.join_count_list children
  | .update _ _ _ _ set_selects_opers children =>
    LogicalOperator.join_count_list set_selects_opers +
      LogicalOperator.join_count_list children
/-- The number of `Join` operators in a list of plans. -/
def LogicalOperator.join_count_list : List LogicalOperator → Nat
  | [] => 0
  | oper :: rest => LogicalOperator.join_count oper + LogicalOperator.join_count_list rest
end

/-- The sharing map, a `std::map<std::string, LogicalOperator *>`, as the list
of its entries; the generator looks keys up and does not iterate. -/
structure OperatorMap where
  entries : List (String × LogicalOperator) := []

/-- `map::find`, which is what `map::at` answers for a key that is present. -/
def OperatorMap.find (m : OperatorMap) (key : String) : Option LogicalOperator :=
  (m.entries.find? (fun e => decide (e.1 = key))).map (fun e => e.2)

/-- `map::count`. -/
def OperatorMap.count (m : OperatorMap) (key : String) : Nat :=
  if (m.find key).isSome then 1 else 0

/-- `map::insert`: a key that is present keeps its binding. -/
def OperatorMap.insert (m : OperatorMap) (key : String) (oper : LogicalOperator) :
    OperatorMap :=
  if m.count key > 0 then m else { entries := m.entries ++ [(key, oper)] }

/-- Modelled from the spec: `table->name()` behind a handle; `none` when the
handle points to no table. -/
def Db.table_name (db : Db) (table : Nat) : Option String :=
  (db.tables[table]?).map (fun t => t.name)

/-- Modelled from the spec: `Field::table_name`, the name of the table of the
field; `none` for a field without table, on which the call has no defined
result. -/
def Field.table_name (db : Db) (field : Field) : Option String :=
  match field.table with
  | none => none
  | some table => db.table_name table

/-- The inner loop of the fold over the tables: the fields of `all_fields`
whose table has the name `table_name`, in the order of `all_fields`. -/
def fields_of_table (db : Db) (table_name : String) : List Field → Option (List Field)
  | [] => some []
  | field :: rest =>
    match field.table_name db with
    | none => none
    | some name =>
      match fields_of_table db table_name rest with
      | none => none
      | some fields => some (if name = table_name then field :: fields else fields)

/-- What the fold over the tables has built: `table_oper` (`none` while it is
null) and the sharing map. -/
structure SourceTree where
  table_oper : Option LogicalOperator := none
  map : OperatorMap := {}

/-- The body of the loop `for (Table *table : tables)` of
`create_plan(SelectStmt *)`. A table whose name is a key of the sharing map
gets no `TableGet`: with a `table_oper` at hand, that becomes the only child of
a `Join` flagged `is_right_sub_link` whose `right_link` is the operator of the
map; with none at hand nothing is done. Any other table gets a readonly
`TableGet`, which is entered into the map and becomes `table_oper` or the second
child of a `Join` over `table_oper`. -/
def add_table_to_source (db : Db) (all_fields : List Field) (table : Nat) (st : SourceTree) :
    Option SourceTree :=
  match db.table_name table with
  | none => none
  | some name =>
    match fields_of_table db name all_fields with
    | none => none
    | some fields =>
      if st.map.count name > 0 then
        match st.table_oper with
        | none => some st
        | some table_oper =>
          some { st with
            table_oper :=
              some ((LogicalOperator.join true (st.map.find name) []).add_child table_oper) }
      else
        let table_get_oper := LogicalOperator.table_get table fields true []
        some {
          table_oper :=
            match st.table_oper with
            | none => some table_get_oper
            | some table_oper =>
              some (((LogicalOperator.join false none []).add_child table_oper).add_child
                table_get_oper),
          map := st.map.insert name table_get_oper }

/-- The loop `for (Table *table : tables)` of `create_plan(SelectStmt *)`. -/
def source_tree (db : Db) (all_fields : List Field) : List Nat → SourceTree → Option SourceTree
  | [], st => some st
  | table :: rest, st =>
    match add_table_to_source db all_fields table st with
    | none => none
    | some st1 => source_tree db all_fields rest st1

/-- The `TableGet` that the fold builds for a table, in the words of the
specification: readonly, over the projection fields whose table has the name of
the table, in projection order. -/
def table_get_of (db : Db) (all_fields : List Field) (table : Nat) : LogicalOperator :=
  LogicalOperator.table_get table
    (all_fields.filter (fun field => decide (field.table_name db = db.table_name table)))
    true []

/-- The left-deep tree over `first` and the operators of `rest`, in the words
of the specification: `first` alone, or the plain `Join` of the tree so far
with the next operator. -/
def left_deep_join : LogicalOperator → List LogicalOperator → LogicalOperator
  | first, [] => first
  | first, second :: rest =>
    left_deep_join (LogicalOperator.join false none [first, second]) rest

/-- The number of `TableGet` operators below `table_oper`, none for a null
pointer. -/
def source_table_get_count (table_oper : Option LogicalOperator) : Nat :=
  match table_oper with
  | none => 0
  | some oper => oper.table_get_count

/-- What the fold over the tables keeps true of its state when it starts with
an empty sharing map and has gone through the tables `processed`: there are as
many `TableGet` operators below `table_oper` as the map has keys, no key is
there twice, the keys are the names of the tables gone through, and every key
is bound to the `TableGet` of a table of that name. -/
def source_invariant (db : Db) (all_fields : List Field) (processed : List Nat)
    (st : SourceTree) : Prop :=
  source_table_get_count st.table_oper = st.map.entries.length ∧
  (st.map.entries.map (fun e => e.1)).Nodup ∧
  (∀ key, key ∈ st.map.entries.map (fun e => e.1) ↔
    some key ∈ processed.map db.table_name) ∧
  (∀ e ∈ st.map.entries,
    ∃ t ∈ processed, db.table_name t = some e.1 ∧ e.2 = table_get_of db all_fields t)

/-- What the sources at hand do not determine about the plan generator:
`FilterObj::to_expression(map)`, which may build a sub-select plan and enter its
tables into the sharing map, and the same call with a null map. -/
structure PlanApi where
  to_expression : FilterObj → OperatorMap → Expr × OperatorMap
  to_expression_null : FilterObj → Expr

/-- `FilterObj::to_expression(map)` for a map that may be null. -/
def PlanApi.to_expression_opt (api : PlanApi) (obj : FilterObj) :
    Option OperatorMap → Expr × Option OperatorMap
  | none => (api.to_expression_null obj, none)
  | some map => ((api.to_expression obj map).1, some (api.to_expression obj map).2)

/-- The body of the loop over the filter units in `create_plan(FilterStmt *)`:
the left operand, then the right operand, then the comparison of the two. -/
def filter_unit_expression (api : PlanApi) (filter_unit : FilterUnit)
    (map : Option OperatorMap) : Expr × Option OperatorMap :=
  let left := api.to_expression_opt filter_unit.left map
  let right := api.to_expression_opt filter_unit.right left.2
  (Expr.comparison filter_unit.comp left.1 right.1, right.2)

/-- The loop over the filter units in `create_plan(FilterStmt *)`: `cmp_exprs`
and the sharing map as the operands leave it. -/
def filter_units_expressions (api : PlanApi) :
    List FilterUnit → Option OperatorMap → List Expr × Option OperatorMap
  | [], map => ([], map)
  | filter_unit :: rest, map =>
    let cmp_expr := filter_unit_expression api filter_unit map
    let more := filter_units_expressions api rest cmp_expr.2
    (cmp_expr.1 :: more.1, more.2)

/-- `LogicalPlanGenerator::create_plan(FilterStmt *, ...)`: the result code,
`logical_operator` (`none` for a null pointer) and the sharing map. -/
def FilterStmt.create_plan (api : PlanApi) (filter_stmt : FilterStmt)
    (map : Option OperatorMap) : RC × Option LogicalOperator × Option OperatorMap :=
  let cmp_exprs := filter_units_expressions api filter_stmt.filter_units map
  if cmp_exprs.1.isEmpty = false then
    (RC.SUCCESS,
      some (LogicalOperator.predicate (Expr.conjunction ConjunctionType.AND cmp_exprs.1) []),
      cmp_exprs.2)
  else
    (RC.SUCCESS, none, cmp_exprs.2)

/-- The loop over the filter units of HAVING in `create_plan(SelectStmt *)`:
one comparison for every unit, the operands made with a null map. -/
def having_expressions (api : PlanApi) (filter_units : List FilterUnit) : List Expr :=
  filter_units.map (fun filter_unit =>
    Expr.comparison filter_unit.comp (api.to_expression_null filter_unit.left)
      (api.to_expression_null filter_unit.right))

/-- The projection part of `create_plan(SelectStmt *)`: the `Project` over
`all_fields`; the predicate operator, if there is one, becomes its child, with
`table_oper`, if there is one, as the child of the predicate operator; without
a predicate operator `table_oper`, if there is one, becomes the child of the
`Project`. -/
def project_plan (all_fields : List Field) (predicate_oper table_oper : Option LogicalOperator) :
    LogicalOperator :=
  let project_oper := LogicalOperator.project all_fields []
  match predicate_oper with
  | some predicate_oper =>
    project_oper.add_child
      (match table_oper with
       | some table_oper => predicate_oper.add_child table_oper
       | none => predicate_oper)
  | none =>
    match table_oper with
    | some table_oper => project_oper.add_child table_oper
    | none => project_oper

/-- The part of `create_plan(SelectStmt *)` above the projection: a `GroupBy`
over the root when `group_by_fields` is not empty, then an `OrderBy` over the
root when `order_by_fields` is not empty, then an `Aggregation` with the
comparisons of HAVING over the root when `aggr_query_fields` is not empty. -/
def wrap_operators (api : PlanApi) (select_stmt : SelectStmt) (project_oper : LogicalOperator) :
    LogicalOperator :=
  let root1 :=
    if select_stmt.group_by_fields.isEmpty = false then
      (LogicalOperator.group_by select_stmt.group_by_fields []).add_child project_oper
    else project_oper
  let root2 :=
    if select_stmt.order_by_fields.isEmpty = false then
      (LogicalOperator.order_by select_stmt.order_by_fields
        select_stmt.order_by_directions []).add_child root1
    else root1
  if select_stmt.aggr_query_fields.isEmpty = false then
    (LogicalOperator.aggregation select_stmt.aggr_query_fields
      select_stmt.aggr_field_to_query_field_map
      (having_expressions api select_stmt.having_filter_stmt.filter_units)
      []).add_child root2
  else root2

/-- `LogicalPlanGenerator::create_plan(SelectStmt *, logical_operator, map)`:
the result code, `logical_operator` (`none` when it is not set) and the sharing
map as the call leaves it (the map of the caller, or the one made for a null
pointer). A result of `none` means that the source has no defined behaviour (a
handle or a field without table). -/
def SelectStmt.create_plan (api : PlanApi) (db : Db) (select_stmt : SelectStmt)
    (map : Option OperatorMap) : Option (RC × Option LogicalOperator × OperatorMap) :=
  match source_tree db select_stmt.query_fields select_stmt.tables
      { table_oper := none, map := map.getD {} } with
  | none => none
  | some source =>
    let filter := FilterStmt.create_plan api select_stmt.filter_stmt (some source.map)
    if filter.1 ≠ RC.SUCCESS then
      some (filter.1, none, filter.2.2.getD source.map)
    else
      some (RC.SUCCESS,
        some (wrap_operators api select_stmt
          (project_plan select_stmt.query_fields filter.2.1 source.table_oper)),
        filter.2.2.getD source.map)

/-- Modelled from the spec: `UpdateStmt`, the resolved UPDATE statement;
`col_name_to_selects`, a `std::map<std::string, SelectStmt *>`, is the list of
its entries in the order of iteration. -/
structure UpdateStmt where
  table : Nat := 0
  attribute_names : List String := []
  values : List Value := []
  col_name_to_selects : List (String × SelectStmt) := []
  filter_stmt : FilterStmt := {}
  deriving DecidableEq

/-- The loop over `col_name_to_selects` in `create_plan(UpdateStmt *)`: the
plan of every sub-select, made with a null sharing map, in the order of
iteration; a code other than `SUCCESS` ends the loop. -/
def set_selects_plans (api : PlanApi) (db : Db) :
    List (String × SelectStmt) → Option (RC × List LogicalOperator)
  | [] => some (RC.SUCCESS, [])
  | entry :: rest =>
    match SelectStmt.create_plan api db entry.2 none with
    | none => none
    | some (rc, tmp_logical_oper, _) =>
      if rc ≠ RC.SUCCESS then
        some (rc, [])
      else
        match tmp_logical_oper with
        | none => none
        | some oper =>
          match set_selects_plans api db rest with
          | none => none
          | some (rc1, opers) => some (rc1, if rc1 ≠ RC.SUCCESS then [] else oper :: opers)

/-- `LogicalPlanGenerator::create_plan(UpdateStmt *, logical_operator)`: the
result code and `logical_operator` (`none` when it is not set). The calls of
`create_plan` for the filter and for the sub-selects leave the sharing map out,
which is read as a null map. A result of `none` means that the source has no
defined behaviour. -/
def UpdateStmt.create_plan (api : PlanApi) (db : Db) (update_stmt : UpdateStmt) :
    Option (RC × Option LogicalOperator) :=
  match db.tables[update_stmt.table]? with
  | none => none
  | some t =>
    let fields : List Field :=
      (t.table_meta.fields.drop t.table_meta.sys_field_num).map (fun field_meta =>
        { table := some update_stmt.table, field := some field_meta })
    let table_get_oper := LogicalOperator.table_get update_stmt.table fields false []
    let filter := FilterStmt.create_plan api update_stmt.filter_stmt none
    if filter.1 ≠ RC.SUCCESS then
      some (filter.1, none)
    else
      let set_selects_attr_name := update_stmt.col_name_to_selects.map (fun entry => entry.1)
      match set_selects_plans api db update_stmt.col_name_to_selects with
      | none => none
      | some (rc, opers) =>
        if rc ≠ RC.SUCCESS then
          some (rc, none)
        else
          let update_oper := LogicalOperator.update update_stmt.table
            update_stmt.attribute_names update_stmt.values set_selects_attr_name opers []
          match filter.2.1 with
          | some predicate_oper =>
            some (rc, some (update_oper.add_child (predicate_oper.add_child table_get_oper)))
          | none => some (rc, some (update_oper.add_child table_get_oper))

/-- A plan layer for the worked examples: a column operand becomes a
`FieldExpr` of its column name, a value a `ValueExpr`, a sub-select a
`SelectExpr` of its number; the sharing map is left alone. -/
def example_plan_api : PlanApi where
  to_expression := fun obj map =>
    (match obj with
     | .attr field => Expr.field "" ((field.field.map (fun m => m.name)).getD "")
     | .value value => Expr.value value
     | .selects stmt => Expr.select stmt, map)
  to_expression_null := fun obj =>
    match obj with
    | .attr field => Expr.field "" ((field.field.map (fun m => m.name)).getD "")
    | .value value => Expr.value value
    | .selects stmt => Expr.select stmt

/-- The column `a` of the table `t` of the example catalog as a query field. -/
def example_field_a : Field :=
  { table := some 0, field := some { name := "a" } }

/-- The sharing map that the plan of `SELECT a FROM t ...` leaves to its
sub-selects: the name `t` bound to the `TableGet` of that plan. -/
def example_parent_map : OperatorMap :=
  { entries := [("t", LogicalOperator.table_get 0 [example_field_a] true [])] }

/-- The resolved sub-select `SELECT a FROM t WHERE b = 1` for the worked
examples. -/
def example_inner_select : SelectStmt :=
  { tables := [0],
    query_fields := [example_field_a],
    filter_stmt :=
      { default_table := some 0,
        filter_units :=
          [{ comp := ExprOp.EQUAL_TO,
             left := FilterObj.attr { table := some 0, field := some { name := "b" } },
             right := FilterObj.value (Value.int 1) }] },
    is_sub_select := true }

/-- The resolved statement
`SELECT COUNT(a), b FROM t GROUP BY b HAVING COUNT(a) > 1 ORDER BY b` for the
worked examples. -/
def example_grouped_select : SelectStmt :=
  { tables := [0],
    query_fields :=
      [{ table := some 0, field := some { name := "b" } },
       { table := some 0, field := some { name := "a" }, aggr_func_type := AggrFuncType.CNT }],
    aggr_query_fields :=
      [{ table := some 0, field := some { name := "b" }, has_alias := true, alias_name := "b" },
       { table := some 0, field := some { name := "a" }, aggr_func_type := AggrFuncType.CNT,
         has_alias := true, alias_name := "COUNT(a)" }],
    aggr_field_to_query_field_map := [(0, 0), (1, 1)],
    order_by_fields := [{ table := some 0, field := some { name := "b" } }],
    order_by_directions := [OrderByDirection.ASC],
    group_by_fields := [{ table := some 0, field := some { name := "b" } }],
    having_filter_stmt :=
      { default_table := some 0,
        filter_units :=
          [{ comp := ExprOp.GREAT_THAN,
             left := FilterObj.attr
               { table := some 0, field := some { name := "a" },
                 aggr_func_type := AggrFuncType.CNT },
             right := FilterObj.value (Value.int 1) }] } }

/-- The resolved statement
`UPDATE t SET a = (SELECT a FROM t, t), b = 2 WHERE b = 1` for the worked
examples. -/
def example_update : UpdateStmt :=
  { table := 0,
    attribute_names := ["a", "b"],
    values := [Value.undefined, Value.int 2],
    col_name_to_selects := [("a", { tables := [0, 0], query_fields := [example_field_a] })],
    filter_stmt := example_inner_select.filter_stmt }

/-! ## Unfolding lemmas -/

/-- An empty conjunction takes the guard at the head of
`ConjunctionExpr::get_value`. -/
theorem get_value_conjunction_nil (api : ValueApi) (tuple : Tuple) (ty : ConjunctionType)
    (value : Value) (σ : Store) :
    get_value api tuple (.conjunction ty []) value σ = some (RC.SUCCESS, Value.bool true, σ) :=
  rfl

/-- A non-empty conjunction runs the loop over its children, starting from a
default-constructed `tmp_value`. -/
theorem get_value_conjunction_cons (api : ValueApi) (tuple : Tuple) (ty : ConjunctionType)
    (c : Expr) (cs : List Expr) (value : Value) (σ : Store) :
    get_value api tuple (.conjunction ty (c :: cs)) value σ =
      conjunction_loop api tuple ty (c :: cs) Value.undefined value σ :=
  rfl

/-- One iteration of the loop of `ConjunctionExpr::get_value`. -/
theorem conjunction_loop_cons (api : ValueApi) (tuple : Tuple) (ty : ConjunctionType)
    (c : Expr) (cs : List Expr) (tmp_value value : Value) (σ : Store) :
    conjunction_loop api tuple ty (c :: cs) tmp_value value σ =
      match get_value api tuple c tmp_value σ with
      | none => none
      | some (rc, tmp_value1, σ1) =>
        if rc ≠ RC.SUCCESS then
          some (rc, value, σ1)
        else if (ty = ConjunctionType.AND ∧ api.get_boolean tmp_value1 = false) ∨
            (ty = ConjunctionType.OR ∧ api.get_boolean tmp_value1 = true) then
          some (rc, value.set_boolean (api.get_boolean tmp_value1), σ1)
        else
          conjunction_loop api tuple ty cs tmp_value1 value σ1 :=
  rfl

/-- `ComparisonExpr::get_value` for an operator other than `IN` and `NOT IN`:
left operand, right operand, then `compare_value`. -/
theorem get_value_comparison_scalar (api : ValueApi) (tuple : Tuple) (comp : ExprOp)
    (left right : Expr) (value : Value) (σ : Store)
    (h1 : comp ≠ ExprOp.IN_COMP) (h2 : comp ≠ ExprOp.NOT_IN_COMP) :
    get_value api tuple (.comparison comp left right) value σ =
      match operand_value api tuple left σ with
      | none => none
      | some (rc, left_value, σ1) =>
        if rc ≠ RC.SUCCESS then
          some (rc, value, σ1)
        else
          match operand_value api tuple right σ1 with
          | none => none
          | some (rc1, right_value, σ2) =>
            if rc1 ≠ RC.SUCCESS then
              some (rc1, value, σ2)
            else if (compare_value api comp left_value right_value).1 = RC.SUCCESS then
              some (RC.SUCCESS,
                value.set_boolean (compare_value api comp left_value right_value).2, σ2)
            else
              some ((compare_value api comp left_value right_value).1, value, σ2) := by
  cases comp <;>
    first
    | exact absurd rfl h1
    | exact absurd rfl h2
    | (cases left <;> cases right <;> rfl)

/-- `ComparisonExpr::get_value` for `IN` with a list on the right. -/
theorem get_value_in_list (api : ValueApi) (tuple : Tuple) (left : Expr)
    (expr_list : List Expr) (value : Value) (σ : Store) :
    get_value api tuple (.comparison ExprOp.IN_COMP left (.list expr_list)) value σ =
      match get_value api tuple left Value.undefined σ with
      | none => none
      | some (rc, left_value, σ1) =>
        if rc ≠ RC.SUCCESS then
          some (rc, value, σ1)
        else
          match ListExpression.get_value_list api tuple expr_list [] σ1 with
          | none => none
          | some (rc1, tmp_value_set, σ2) =>
            if rc1 ≠ RC.SUCCESS then
              some (rc1, value, σ2)
            else
              some ((in_list_loop api ExprOp.IN_COMP left_value tmp_value_set value).1,
                (in_list_loop api ExprOp.IN_COMP left_value tmp_value_set value).2, σ2) := by
  cases expr_list <;> rfl

/-- None of the six ordering operators is `IN` or `NOT IN`. -/
theorem six_comparators_scalar {comp : ExprOp} (h : comp ∈ six_comparators) :
    comp ≠ ExprOp.IN_COMP ∧ comp ≠ ExprOp.NOT_IN_COMP := by
  simp [six_comparators] at h
  rcases h with h | h | h | h | h | h <;> subst h <;> simp

/-! ## Fetch loops over a sub-query -/

/-- Reading back the operator just written to a store. -/
theorem store_get_set (σ0 : Store) (root : Nat) (op : PhysicalOperator) (h : root < σ0.length) :
    (σ0.set root op)[root]? = some op := by
  simp [h]

/-- `SelectExpr::get_value` when the next answer of the operator is a one-cell
row: success with the cell. -/
theorem SelectExpr_get_value_row (root : Nat) (tmp v : Value) (rest : List Fetch)
    (op : PhysicalOperator) (σ0 : Store) (h : root < σ0.length)
    (hp : op.pending = Fetch.row [v] :: rest) :
    SelectExpr.get_value root tmp (σ0.set root op) =
      some (RC.SUCCESS, v, σ0.set root { op with pending := rest, current := [v] }) := by
  unfold SelectExpr.get_value
  rw [store_get_set σ0 root op h]
  simp [PhysicalOperator.next, hp, cell_at]

/-- `SelectExpr::get_value` on an exhausted operator: `RECORD_EOF`, nothing
written. -/
theorem SelectExpr_get_value_eof (root : Nat) (tmp : Value)
    (op : PhysicalOperator) (σ0 : Store) (h : root < σ0.length)
    (hp : op.pending = []) :
    SelectExpr.get_value root tmp (σ0.set root op) =
      some (RC.RECORD_EOF, tmp, σ0.set root op) := by
  unfold SelectExpr.get_value
  rw [store_get_set σ0 root op h]
  simp [PhysicalOperator.next, hp]

/-- One iteration of the collecting loop of a scalar sub-query operand. -/
theorem select_collect_loop_succ (root fuel : Nat) (tmp : Value) (value_set : List Value)
    (σ : Store) :
    select_collect_loop root (fuel + 1) tmp value_set σ =
      match SelectExpr.get_value root tmp σ with
      | none => none
      | some (rc, tmp_value1, σ1) =>
        if rc ≠ RC.SUCCESS then
          some (rc, value_set, σ1)
        else
          select_collect_loop root fuel tmp_value1 (value_set ++ [tmp_value1]) σ1 :=
  rfl

/-- Over pending one-cell rows `vs` the collecting loop ends with `RECORD_EOF`
and has appended exactly `vs`. -/
theorem select_collect_loop_rows (root : Nat) (σ0 : Store) (h : root < σ0.length) :
    ∀ (vs : List Value) (tmp : Value) (value_set : List Value) (op : PhysicalOperator),
      op.pending = one_cell_rows vs →
      ∃ op', fetched_from op op' ∧
        select_collect_loop root (vs.length + 1) tmp value_set (σ0.set root op) =
          some (RC.RECORD_EOF, value_set ++ vs, σ0.set root op') := by
  intro vs
  induction vs with
  | nil =>
    intro tmp value_set op hp
    refine ⟨op, ⟨rfl, rfl, rfl, rfl, rfl⟩, ?_⟩
    rw [List.length_nil, select_collect_loop_succ, SelectExpr_get_value_eof root tmp op σ0 h hp]
    simp
  | cons v vs ih =>
    intro tmp value_set op hp
    have hstep := SelectExpr_get_value_row root tmp v (one_cell_rows vs) op σ0 h hp
    obtain ⟨op', hf, hloop⟩ :=
      ih v (value_set ++ [v]) { op with pending := one_cell_rows vs, current := [v] } rfl
    refine ⟨op', hf, ?_⟩
    rw [List.length_cons, select_collect_loop_succ, hstep]
    simp only [ne_eq, not_true_eq_false, if_false, hloop, List.append_assoc, List.singleton_append]

/-- A scalar sub-query operand with a number of rows other than one is
rejected. -/
theorem select_operand_rows_not_one (root : Nat) (operand : Value) (σ : Store)
    (op : PhysicalOperator) (vs : List Value) (hget : σ[root]? = some op)
    (hopen : op.open_rc = RC.SUCCESS) (hscript : op.script = one_cell_rows vs)
    (hlen : vs.length ≠ 1) :
    ∃ σ', select_operand root operand σ =
      some (RC.SELECT_EXPR_INVALID_ARGUMENT, operand, σ') := by
  have hlt : root < σ.length := by
    rcases Nat.lt_or_ge root σ.length with h | h
    · exact h
    · rw [List.getElem?_eq_none h] at hget
      exact absurd hget (by simp)
  have hop : SelectExpr.open root σ =
      some (RC.SUCCESS, σ.set root { op with pending := one_cell_rows vs, opens := op.opens + 1 }) := by
    simp [SelectExpr.open, hget, PhysicalOperator.open, hopen, hscript]
  obtain ⟨op', _, hloop⟩ := select_collect_loop_rows root σ hlt vs (Value.int 0) []
    { op with pending := one_cell_rows vs, opens := op.opens + 1 } rfl
  have hfuel : loop_fuel root
      (σ.set root { op with pending := one_cell_rows vs, opens := op.opens + 1 }) =
      vs.length + 1 := by
    simp [loop_fuel, hlt, one_cell_rows]
  refine ⟨σ.set root op', ?_⟩
  unfold select_operand
  rw [hop]
  simp only [hfuel, hloop, ne_eq, not_true_eq_false, if_false, List.nil_append]
  match vs, hlen with
  | [], _ => rfl
  | [_], h => exact absurd rfl h
  | _ :: _ :: _, _ => rfl

/-- A scalar sub-query operand with exactly one row has that row as its
value. -/
theorem select_operand_rows_one (root : Nat) (operand : Value) (σ : Store)
    (op : PhysicalOperator) (v : Value) (hget : σ[root]? = some op)
    (hopen : op.open_rc = RC.SUCCESS) (hscript : op.script = one_cell_rows [v])
    (hclose : op.close_rc = RC.SUCCESS) :
    ∃ σ', select_operand root operand σ = some (RC.SUCCESS, v, σ') := by
  have hlt : root < σ.length := by
    rcases Nat.lt_or_ge root σ.length with h | h
    · exact h
    · rw [List.getElem?_eq_none h] at hget
      exact absurd hget (by simp)
  have hop : SelectExpr.open root σ =
      some (RC.SUCCESS, σ.set root { op with pending := one_cell_rows [v], opens := op.opens + 1 }) := by
    simp [SelectExpr.open, hget, PhysicalOperator.open, hopen, hscript]
  obtain ⟨op', hf, hloop⟩ := select_collect_loop_rows root σ hlt [v] (Value.int 0) []
    { op with pending := one_cell_rows [v], opens := op.opens + 1 } rfl
  have hfuel : loop_fuel root
      (σ.set root { op with pending := one_cell_rows [v], opens := op.opens + 1 }) =
      [v].length + 1 := by
    simp [loop_fuel, hlt, one_cell_rows]
  have hcl : SelectExpr.close root (σ.set root op') =
      some (RC.SUCCESS, σ.set root { op' with closes := op'.closes + 1 }) := by
    have : op'.close_rc = RC.SUCCESS := by rw [hf.2.1]; exact hclose
    simp [SelectExpr.close, hlt, PhysicalOperator.close, this]
  refine ⟨σ.set root { op' with closes := op'.closes + 1 }, ?_⟩
  unfold select_operand
  rw [hop]
  simp only [hfuel, hloop, ne_eq, not_true_eq_false, if_false, List.nil_append, hcl,
    Value.set_value]

/-- With both operands evaluated, the comparison ends in
`comparison_outcome`. -/
theorem get_value_comparison_outcome (api : ValueApi) (tuple : Tuple) (comp : ExprOp)
    (left right : Expr) (value l r : Value) (σ σ1 σ2 : Store)
    (h1 : comp ≠ ExprOp.IN_COMP) (h2 : comp ≠ ExprOp.NOT_IN_COMP)
    (hl : operand_value api tuple left σ = some (RC.SUCCESS, l, σ1))
    (hr : operand_value api tuple right σ1 = some (RC.SUCCESS, r, σ2)) :
    get_value api tuple (.comparison comp left right) value σ =
      comparison_outcome api comp l r value σ2 := by
  rw [get_value_comparison_scalar api tuple comp left right value σ h1 h2, hl]
  simp only [ne_eq, not_true_eq_false, if_false, hr]
  rfl

/-- A failure of the left operand is returned at once. -/
theorem get_value_comparison_left_fails (api : ValueApi) (tuple : Tuple) (comp : ExprOp)
    (left right : Expr) (value l : Value) (rc : RC) (σ σ1 : Store)
    (h1 : comp ≠ ExprOp.IN_COMP) (h2 : comp ≠ ExprOp.NOT_IN_COMP)
    (hl : operand_value api tuple left σ = some (rc, l, σ1)) (hrc : rc ≠ RC.SUCCESS) :
    get_value api tuple (.comparison comp left right) value σ = some (rc, value, σ1) := by
  rw [get_value_comparison_scalar api tuple comp left right value σ h1 h2, hl]
  simp only [ne_eq, hrc, not_false_eq_true, if_true]

/-- A failure of the right operand is returned once the left operand has
succeeded. -/
theorem get_value_comparison_right_fails (api : ValueApi) (tuple : Tuple) (comp : ExprOp)
    (left right : Expr) (value l r : Value) (rc : RC) (σ σ1 σ2 : Store)
    (h1 : comp ≠ ExprOp.IN_COMP) (h2 : comp ≠ ExprOp.NOT_IN_COMP)
    (hl : operand_value api tuple left σ = some (RC.SUCCESS, l, σ1))
    (hr : operand_value api tuple right σ1 = some (rc, r, σ2)) (hrc : rc ≠ RC.SUCCESS) :
    get_value api tuple (.comparison comp left right) value σ = some (rc, value, σ2) := by
  rw [get_value_comparison_scalar api tuple comp left right value σ h1 h2, hl]
  simp only [ne_eq, not_true_eq_false, if_false, hr, hrc, not_false_eq_true, if_true]

/-! ## compare_value: IS and IS NOT -/

/-- Claim C4. For every pair of values `(l, r)`, `compare_value` under `IS`
returns success, and its result is TRUE exactly when both `l` and `r` have type
NULL, whatever `Value::compare` reports; so `NULL IS NULL` is TRUE while
`0 IS NULL` and `NULL IS 0` are FALSE. -/
theorem compare_value_is_both_null (api : ValueApi) (l r : Value) :
    compare_value api ExprOp.IS_EQUAL l r =
        (RC.SUCCESS, decide (l.attr_type = AttrType.NULL_ATTR ∧ r.attr_type = AttrType.NULL_ATTR))
      ∧ compare_value api ExprOp.IS_EQUAL Value.null Value.null = (RC.SUCCESS, true)
      ∧ compare_value api ExprOp.IS_EQUAL (Value.int 0) Value.null = (RC.SUCCESS, false)
      ∧ compare_value api ExprOp.IS_EQUAL Value.null (Value.int 0) = (RC.SUCCESS, false) := by
  refine ⟨?_, ?_, ?_, ?_⟩
  · unfold compare_value
    by_cases h : l.attr_type = AttrType.NULL_ATTR ∧ r.attr_type = AttrType.NULL_ATTR
    · simp [h]
    · simp only [h, if_false, decide_False]
  · simp [compare_value, Value.attr_type]
  · simp [compare_value, Value.attr_type]
  · simp [compare_value, Value.attr_type]

/-- Claim C5. For every pair of values, `compare_value` under `IS NOT` returns
success with the negation of the result under `IS`, which returns success
too. -/
theorem compare_value_is_not_negates_is (api : ValueApi) (l r : Value) :
    (compare_value api ExprOp.IS_NOT_EQUAL l r).1 = RC.SUCCESS
      ∧ (compare_value api ExprOp.IS_EQUAL l r).1 = RC.SUCCESS
      ∧ (compare_value api ExprOp.IS_NOT_EQUAL l r).2 =
          !(compare_value api ExprOp.IS_EQUAL l r).2 := by
  unfold compare_value
  by_cases h : l.attr_type = AttrType.NULL_ATTR ∧ r.attr_type = AttrType.NULL_ATTR
  · simp [h]
  · simp only [h, if_false, not_false_eq_true, if_true, Bool.not_false, and_self]

/-! ## ConjunctionExpr::get_value -/

/-- The loop of a conjunction stops at the first child whose truth value decides
the result, after a prefix of children with the other truth value. -/
theorem conjunction_loop_short_circuit (api : ValueApi) (tuple : Tuple) (ty : ConjunctionType)
    (b : Bool) (hb : (ty = ConjunctionType.AND ∧ b = true) ∨ (ty = ConjunctionType.OR ∧ b = false))
    (ck : Expr) (post : List Expr) (value tmp2 : Value) (σ2 : Store) :
    ∀ (pre : List Expr) (tmp tmp1 : Value) (σ σ1 : Store),
      run_children api tuple b pre tmp σ = some (tmp1, σ1) →
      get_value api tuple ck tmp1 σ1 = some (RC.SUCCESS, tmp2, σ2) →
      api.get_boolean tmp2 = !b →
      conjunction_loop api tuple ty (pre ++ ck :: post) tmp value σ =
        some (RC.SUCCESS, Value.bool (!b), σ2) := by
  intro pre
  induction pre with
  | nil =>
    intro tmp tmp1 σ σ1 hrun hck hval
    simp only [run_children, Option.some.injEq, Prod.mk.injEq] at hrun
    obtain ⟨rfl, rfl⟩ := hrun
    rw [List.nil_append, conjunction_loop_cons, hck]
    rcases hb with ⟨rfl, rfl⟩ | ⟨rfl, rfl⟩ <;> simp_all [Value.set_boolean]
  | cons c cs ih =>
    intro tmp tmp1 σ σ1 hrun hck hval
    rw [List.cons_append, conjunction_loop_cons]
    simp only [run_children] at hrun
    cases hc : get_value api tuple c tmp σ with
    | none => simp [hc] at hrun
    | some r =>
      obtain ⟨rc, tmpc, σc⟩ := r
      simp only [hc] at hrun
      by_cases hok : rc = RC.SUCCESS ∧ api.get_boolean tmpc = b
      · rw [if_pos hok] at hrun
        have := ih tmpc tmp1 σc σ1 hrun hck hval
        obtain ⟨hrc, hbv⟩ := hok
        rcases hb with ⟨rfl, rfl⟩ | ⟨rfl, rfl⟩ <;> simp_all
      · rw [if_neg hok] at hrun
        exact absurd hrun (by simp)

/-- Claim C2. Short circuit of a conjunction: when the children before `ck`
evaluate successfully to TRUE and `ck` evaluates successfully to FALSE, an AND
conjunction returns success with FALSE, in the store left by `ck`, whatever
children follow; when the children before `ck` evaluate to FALSE and `ck` to
TRUE, an OR conjunction returns success with TRUE in the same way. -/
theorem conjunction_short_circuit (api : ValueApi) (tuple : Tuple) (pre : List Expr) (ck : Expr)
    (post : List Expr) (value tmp1 tmp2 : Value) (σ σ1 σ2 : Store) :
    (run_children api tuple true pre Value.undefined σ = some (tmp1, σ1) →
      get_value api tuple ck tmp1 σ1 = some (RC.SUCCESS, tmp2, σ2) →
      api.get_boolean tmp2 = false →
      get_value api tuple (.conjunction ConjunctionType.AND (pre ++ ck :: post)) value σ =
        some (RC.SUCCESS, Value.bool false, σ2))
    ∧ (run_children api tuple false pre Value.undefined σ = some (tmp1, σ1) →
      get_value api tuple ck tmp1 σ1 = some (RC.SUCCESS, tmp2, σ2) →
      api.get_boolean tmp2 = true →
      get_value api tuple (.conjunction ConjunctionType.OR (pre ++ ck :: post)) value σ =
        some (RC.SUCCESS, Value.bool true, σ2)) := by
  have hne : ∀ ty, get_value api tuple (.conjunction ty (pre ++ ck :: post)) value σ =
      conjunction_loop api tuple ty (pre ++ ck :: post) Value.undefined value σ := by
    intro ty
    cases pre with
    | nil => exact get_value_conjunction_cons api tuple ty ck post value σ
    | cons c cs => exact get_value_conjunction_cons api tuple ty c (cs ++ ck :: post) value σ
  constructor
  · intro hrun hck hval
    rw [hne]
    exact conjunction_loop_short_circuit api tuple ConjunctionType.AND true (Or.inl ⟨rfl, rfl⟩)
      ck post value tmp2 σ2 pre Value.undefined tmp1 σ σ1 hrun hck (by simpa using hval)
  · intro hrun hck hval
    rw [hne]
    exact conjunction_loop_short_circuit api tuple ConjunctionType.OR false (Or.inr ⟨rfl, rfl⟩)
      ck post value tmp2 σ2 pre Value.undefined tmp1 σ σ1 hrun hck (by simpa using hval)

/-- Witness of C2: `AND(TRUE, FALSE, t.a)` and `OR(FALSE, TRUE, t.a)` over a
tuple without the column `t.a`, whose lookup fails. -/
theorem conjunction_short_circuit_witness :
    get_value example_api ⟨[]⟩
        (.conjunction ConjunctionType.AND
          ([.value (Value.bool true)] ++ .value (Value.bool false) :: [.field "t" "a"]))
        Value.undefined [] = some (RC.SUCCESS, Value.bool false, [])
    ∧ get_value example_api ⟨[]⟩
        (.conjunction ConjunctionType.OR
          ([.value (Value.bool false)] ++ .value (Value.bool true) :: [.field "t" "a"]))
        Value.undefined [] = some (RC.SUCCESS, Value.bool true, [])
    ∧ get_value example_api ⟨[]⟩ (.field "t" "a") Value.undefined [] =
        some (RC.NOTFOUND, Value.undefined, []) :=
  ⟨(conjunction_short_circuit example_api ⟨[]⟩ [.value (Value.bool true)]
      (.value (Value.bool false)) [.field "t" "a"] Value.undefined (Value.bool true)
      (Value.bool false) [] [] []).1 rfl rfl rfl,
    (conjunction_short_circuit example_api ⟨[]⟩ [.value (Value.bool false)]
      (.value (Value.bool true)) [.field "t" "a"] Value.undefined (Value.bool false)
      (Value.bool true) [] [] []).2 rfl rfl rfl,
    rfl⟩

/-- Claim C3, as amended. For a conjunction with an empty child list,
`ConjunctionExpr::get_value` returns success with TRUE, for the kind AND and
for the kind OR alike. -/
theorem conjunction_empty_true (api : ValueApi) (tuple : Tuple) (ty : ConjunctionType)
    (value : Value) (σ : Store) :
    get_value api tuple (.conjunction ty []) value σ = some (RC.SUCCESS, Value.bool true, σ) :=
  get_value_conjunction_nil api tuple ty value σ

/-- Counterexample to C3 as stated: the empty OR conjunction evaluates to TRUE,
not to FALSE. -/
theorem conjunction_empty_or_not_false :
    get_value example_api ⟨[]⟩ (.conjunction ConjunctionType.OR []) Value.undefined [] =
        some (RC.SUCCESS, Value.bool true, [])
    ∧ get_value example_api ⟨[]⟩ (.conjunction ConjunctionType.OR []) Value.undefined [] ≠
        some (RC.SUCCESS, Value.bool false, []) := by
  constructor
  · rfl
  · decide

/-! ## ComparisonExpr::get_value: the six ordering operators -/

/-- Claim C6, as amended. For each of the six operators `=, ≠, <, ≤, >, ≥` and
operand values `l`, `r` for which `Value::compare` reports a code other than
success, `compare_value` returns that code, and `ComparisonExpr::get_value`
returns it too and leaves the caller's value unwritten. -/
theorem comparison_returns_compare_failure (api : ValueApi) (tuple : Tuple) (comp : ExprOp)
    (left right : Expr) (value l r : Value) (σ σ1 σ2 : Store)
    (hcomp : comp ∈ six_comparators)
    (hl : operand_value api tuple left σ = some (RC.SUCCESS, l, σ1))
    (hr : operand_value api tuple right σ1 = some (RC.SUCCESS, r, σ2))
    (hfail : (api.compare l r).1 ≠ RC.SUCCESS) :
    (compare_value api comp l r).1 = (api.compare l r).1
      ∧ get_value api tuple (.comparison comp left right) value σ =
          some ((api.compare l r).1, value, σ2) := by
  have hrc : (compare_value api comp l r).1 = (api.compare l r).1 := by
    simp only [six_comparators, List.mem_cons, List.mem_singleton, List.not_mem_nil,
      or_false] at hcomp
    rcases hcomp with h | h | h | h | h | h <;> subst h <;> rfl
  refine ⟨hrc, ?_⟩
  obtain ⟨h1, h2⟩ := six_comparators_scalar hcomp
  rw [get_value_comparison_outcome api tuple comp left right value l r σ σ1 σ2 h1 h2 hl hr]
  unfold comparison_outcome
  rw [hrc, if_neg hfail]

/-- Witness of C6 as amended: `1 < NULL` returns the code of the failed
comparison and writes nothing. -/
theorem comparison_returns_compare_failure_witness :
    (example_api.compare (Value.int 1) Value.null).1 ≠ RC.SUCCESS
      ∧ (compare_value example_api ExprOp.LESS_THAN (Value.int 1) Value.null).1 =
          RC.INVALID_ARGUMENT
      ∧ get_value example_api ⟨[]⟩
          (.comparison ExprOp.LESS_THAN (.value (Value.int 1)) (.value Value.null))
          Value.undefined [] = some (RC.INVALID_ARGUMENT, Value.undefined, []) :=
  ⟨by decide,
    comparison_returns_compare_failure example_api ⟨[]⟩ ExprOp.LESS_THAN
      (.value (Value.int 1)) (.value Value.null) Value.undefined (Value.int 1) Value.null
      [] [] [] (by decide) rfl rfl (by decide)⟩

/-- Counterexample to C6 as stated: `NULL = NULL`, for which the comparison of
the values reports `INVALID_ARGUMENT`, does not evaluate to success with FALSE
but returns `INVALID_ARGUMENT`; and under `≠` the flag computed by
`compare_value` for the same operands is TRUE. -/
theorem null_equals_null_returns_error :
    (example_api.compare Value.null Value.null).1 ≠ RC.SUCCESS
      ∧ get_value example_api ⟨[]⟩
          (.comparison ExprOp.EQUAL_TO (.value Value.null) (.value Value.null))
          Value.undefined [] = some (RC.INVALID_ARGUMENT, Value.undefined, [])
      ∧ get_value example_api ⟨[]⟩
          (.comparison ExprOp.EQUAL_TO (.value Value.null) (.value Value.null))
          Value.undefined [] ≠ some (RC.SUCCESS, Value.bool false, [])
      ∧ compare_value example_api ExprOp.NOT_EQUAL Value.null Value.null =
          (RC.INVALID_ARGUMENT, true) := by
  refine ⟨by decide, rfl, by decide, rfl⟩

/-! ## ComparisonExpr::get_value: IN and NOT IN -/

/-- Claim C1, the code at the failing input. `1 IN (2)`: the comparison
returns success and leaves the caller's value as it was, so a value that held
TRUE still holds TRUE; evaluated as the second child of a conjunction, after
`1 IN (1)` wrote TRUE into the shared value, it makes
`1 IN (1) AND 1 IN (2)` evaluate to TRUE, although `1 = 2` is FALSE. -/
theorem in_list_without_match_writes_nothing :
    get_value example_api ⟨[]⟩
        (.comparison ExprOp.IN_COMP (.value (Value.int 1)) (.list [.value (Value.int 2)]))
        (Value.bool true) [] = some (RC.SUCCESS, Value.bool true, [])
      ∧ get_value example_api ⟨[]⟩
        (.comparison ExprOp.IN_COMP (.value (Value.int 1)) (.list [.value (Value.int 2)]))
        Value.undefined [] = some (RC.SUCCESS, Value.undefined, [])
      ∧ get_value example_api ⟨[]⟩
        (.conjunction ConjunctionType.AND
          [.comparison ExprOp.IN_COMP (.value (Value.int 1)) (.list [.value (Value.int 1)]),
            .comparison ExprOp.IN_COMP (.value (Value.int 1)) (.list [.value (Value.int 2)])])
        Value.undefined [] = some (RC.SUCCESS, Value.bool true, [])
      ∧ get_value example_api ⟨[]⟩
        (.comparison ExprOp.EQUAL_TO (.value (Value.int 1)) (.value (Value.int 2)))
        Value.undefined [] = some (RC.SUCCESS, Value.bool false, []) := by
  refine ⟨rfl, rfl, rfl, rfl⟩

/-- Claim C10. Let the sub-query at `root` open successfully and yield the
one-cell rows `vs`, and let the operator be one of `=, ≠, <, ≤, >, ≥`. If the
number of rows is not 1, `get_value` fails with `SELECT_EXPR_INVALID_ARGUMENT`,
whether the sub-query is the left operand or the right operand of a comparison
whose left operand was evaluated. If there is exactly one row `v` (and the
sub-query closes successfully), `v` is the operand value: the comparison is
decided by `compare_value` on `v` and the value of the other operand. -/
theorem scalar_subquery_operand (api : ValueApi) (tuple : Tuple) (comp : ExprOp) (root : Nat)
    (value : Value) (σ : Store) (op : PhysicalOperator) (vs : List Value)
    (hcomp : comp ∈ six_comparators) (hget : σ[root]? = some op)
    (hopen : op.open_rc = RC.SUCCESS) (hscript : op.script = one_cell_rows vs) :
    (vs.length ≠ 1 →
      (∀ right, ∃ σ',
        get_value api tuple (.comparison comp (.select root) right) value σ =
          some (RC.SELECT_EXPR_INVALID_ARGUMENT, value, σ'))
      ∧ (∀ left σ0 x, operand_value api tuple left σ0 = some (RC.SUCCESS, x, σ) →
        ∃ σ', get_value api tuple (.comparison comp left (.select root)) value σ0 =
          some (RC.SELECT_EXPR_INVALID_ARGUMENT, value, σ')))
    ∧ (∀ v, vs = [v] → op.close_rc = RC.SUCCESS →
      (∃ σ1, operand_value api tuple (.select root) σ = some (RC.SUCCESS, v, σ1)
        ∧ ∀ right y σ2, operand_value api tuple right σ1 = some (RC.SUCCESS, y, σ2) →
          get_value api tuple (.comparison comp (.select root) right) value σ =
            comparison_outcome api comp v y value σ2)
      ∧ (∀ left σ0 x, operand_value api tuple left σ0 = some (RC.SUCCESS, x, σ) →
        ∃ σ2, get_value api tuple (.comparison comp left (.select root)) value σ0 =
          comparison_outcome api comp x v value σ2)) := by
  obtain ⟨h1, h2⟩ := six_comparators_scalar hcomp
  constructor
  · intro hlen
    obtain ⟨σ', hsel⟩ := select_operand_rows_not_one root Value.undefined σ op vs hget hopen
      hscript hlen
    constructor
    · intro right
      exact ⟨σ', get_value_comparison_left_fails api tuple comp (.select root) right value
        Value.undefined RC.SELECT_EXPR_INVALID_ARGUMENT σ σ' h1 h2 hsel (by decide)⟩
    · intro left σ0 x hl
      exact ⟨σ', get_value_comparison_right_fails api tuple comp left (.select root) value x
        Value.undefined RC.SELECT_EXPR_INVALID_ARGUMENT σ0 σ σ' h1 h2 hl hsel (by decide)⟩
  · intro v hv hclose
    subst hv
    obtain ⟨σ1, hsel⟩ := select_operand_rows_one root Value.undefined σ op v hget hopen
      hscript hclose
    constructor
    · refine ⟨σ1, hsel, ?_⟩
      intro right y σ2 hr
      exact get_value_comparison_outcome api tuple comp (.select root) right value v y σ σ1 σ2
        h1 h2 hsel hr
    · intro left σ0 x hl
      exact ⟨σ1, get_value_comparison_outcome api tuple comp left (.select root) value x v
        σ0 σ σ1 h1 h2 hl hsel⟩

/-- Witness of C10: `(sub-query yielding 1, 2) = 1` and `1 = (sub-query
yielding nothing)` fail with `SELECT_EXPR_INVALID_ARGUMENT`, and
`1 < (sub-query yielding 2)` is decided by comparing 1 with 2. -/
theorem scalar_subquery_operand_witness :
    (∃ σ', get_value example_api ⟨[]⟩
        (.comparison ExprOp.EQUAL_TO (.select 0) (.value (Value.int 1))) Value.undefined
        [fresh_operator (one_cell_rows [Value.int 1, Value.int 2])] =
        some (RC.SELECT_EXPR_INVALID_ARGUMENT, Value.undefined, σ'))
    ∧ (∃ σ', get_value example_api ⟨[]⟩
        (.comparison ExprOp.EQUAL_TO (.value (Value.int 1)) (.select 0)) Value.undefined
        [fresh_operator (one_cell_rows [])] =
        some (RC.SELECT_EXPR_INVALID_ARGUMENT, Value.undefined, σ'))
    ∧ (∃ σ2, get_value example_api ⟨[]⟩
        (.comparison ExprOp.LESS_THAN (.value (Value.int 1)) (.select 0)) Value.undefined
        [fresh_operator (one_cell_rows [Value.int 2])] =
        comparison_outcome example_api ExprOp.LESS_THAN (Value.int 1) (Value.int 2)
          Value.undefined σ2) :=
  ⟨((scalar_subquery_operand example_api ⟨[]⟩ ExprOp.EQUAL_TO 0 Value.undefined
      [fresh_operator (one_cell_rows [Value.int 1, Value.int 2])]
      (fresh_operator (one_cell_rows [Value.int 1, Value.int 2])) [Value.int 1, Value.int 2]
      (by decide) rfl rfl rfl).1 (by decide)).1 (.value (Value.int 1)),
    ((scalar_subquery_operand example_api ⟨[]⟩ ExprOp.EQUAL_TO 0 Value.undefined
      [fresh_operator (one_cell_rows [])] (fresh_operator (one_cell_rows [])) []
      (by decide) rfl rfl rfl).1 (by decide)).2 (.value (Value.int 1))
      [fresh_operator (one_cell_rows [])] (Value.int 1) rfl,
    ((scalar_subquery_operand example_api ⟨[]⟩ ExprOp.LESS_THAN 0 Value.undefined
      [fresh_operator (one_cell_rows [Value.int 2])]
      (fresh_operator (one_cell_rows [Value.int 2])) [Value.int 2]
      (by decide) rfl rfl rfl).2 (Value.int 2) rfl rfl).2 (.value (Value.int 1))
      [fresh_operator (one_cell_rows [Value.int 2])] (Value.int 1) rfl⟩

/-- Claim C9, the code at failing inputs. A sub-query operator that was never
opened ends with one `open` call and no `close` call when `IN` finds a match on
the first row, when a scalar comparison gets two rows, when a scalar comparison
gets no row, and when a fetch of `NOT IN` fails; the calls pair up only when
`IN` runs to exhaustion. -/
theorem subquery_left_open_on_early_return :
    get_value example_api ⟨[]⟩
        (.comparison ExprOp.IN_COMP (.value (Value.int 1)) (.select 0)) Value.undefined
        [fresh_operator (one_cell_rows [Value.int 1])] =
        some (RC.SUCCESS, Value.bool true,
          [{ fresh_operator (one_cell_rows [Value.int 1]) with
              current := [Value.int 1], opens := 1, closes := 0 }])
    ∧ get_value example_api ⟨[]⟩
        (.comparison ExprOp.EQUAL_TO (.value (Value.int 1)) (.select 0)) Value.undefined
        [fresh_operator (one_cell_rows [Value.int 1, Value.int 2])] =
        some (RC.SELECT_EXPR_INVALID_ARGUMENT, Value.undefined,
          [{ fresh_operator (one_cell_rows [Value.int 1, Value.int 2]) with
              current := [Value.int 2], opens := 1, closes := 0 }])
    ∧ get_value example_api ⟨[]⟩
        (.comparison ExprOp.EQUAL_TO (.select 0) (.value (Value.int 1))) Value.undefined
        [fresh_operator []] =
        some (RC.SELECT_EXPR_INVALID_ARGUMENT, Value.undefined,
          [{ fresh_operator [] with opens := 1, closes := 0 }])
    ∧ get_value example_api ⟨[]⟩
        (.comparison ExprOp.NOT_IN_COMP (.value (Value.int 1)) (.select 0)) Value.undefined
        [fresh_operator [Fetch.fail RC.INTERNAL]] =
        some (RC.INTERNAL, Value.undefined,
          [{ fresh_operator [Fetch.fail RC.INTERNAL] with opens := 1, closes := 0 }])
    ∧ get_value example_api ⟨[]⟩
        (.comparison ExprOp.IN_COMP (.value (Value.int 1)) (.select 0)) Value.undefined
        [fresh_operator (one_cell_rows [Value.int 2])] =
        some (RC.SUCCESS, Value.bool false,
          [{ fresh_operator (one_cell_rows [Value.int 2]) with
              current := [Value.int 2], opens := 1, closes := 1 }]) := by
  refine ⟨rfl, rfl, rfl, rfl, rfl⟩

/-! ## SelectExpr::get_value and the cell count -/

/-- Claim C11, as amended. When the physical root produces a row,
`SelectExpr::get_value` fails with `SELECT_EXPR_INVALID_ARGUMENT` if the row
has two or more cells and succeeds with the cell if it has exactly one; a row
without cells passes the check `cell_num() > 1`, and the code returned is the
one that the row reports from `cell_at(0, value)`, whatever that code is. So
the call succeeds exactly for one cell, or for no cell when that lookup
reports `SUCCESS`, and it fails with `SELECT_EXPR_INVALID_ARGUMENT` exactly
for two or more cells, or for no cell when that lookup reports this code. -/
theorem select_get_value_by_cell_count (root : Nat) (value : Value) (σ : Store)
    (op : PhysicalOperator) (cells : List Value) (rest : List Fetch)
    (hget : σ[root]? = some op) (hp : op.pending = Fetch.row cells :: rest) :
    (2 ≤ cells.length →
      SelectExpr.get_value root value σ =
        some (RC.SELECT_EXPR_INVALID_ARGUMENT, value,
          σ.set root { op with pending := rest, current := cells }))
    ∧ (∀ v, cells = [v] →
      SelectExpr.get_value root value σ =
        some (RC.SUCCESS, v, σ.set root { op with pending := rest, current := cells }))
    ∧ (cells = [] →
      ∃ v, SelectExpr.get_value root value σ =
        some (op.missing_cell_rc, v, σ.set root { op with pending := rest, current := cells }))
    ∧ ((∃ v σ1, SelectExpr.get_value root value σ = some (RC.SUCCESS, v, σ1)) ↔
      (cells.length = 1 ∨ (cells = [] ∧ op.missing_cell_rc = RC.SUCCESS)))
    ∧ ((∃ v σ1, SelectExpr.get_value root value σ =
          some (RC.SELECT_EXPR_INVALID_ARGUMENT, v, σ1)) ↔
      (2 ≤ cells.length ∨
        (cells = [] ∧ op.missing_cell_rc = RC.SELECT_EXPR_INVALID_ARGUMENT))) := by
  have hnext : op.next = (RC.SUCCESS, { op with pending := rest, current := cells }) := by
    simp [PhysicalOperator.next, hp]
  have hmany : 2 ≤ cells.length →
      SelectExpr.get_value root value σ =
        some (RC.SELECT_EXPR_INVALID_ARGUMENT, value,
          σ.set root { op with pending := rest, current := cells }) := by
    intro hlen
    have : cells.length > 1 := hlen
    simp [SelectExpr.get_value, hget, hnext, this]
  have hone : ∀ v, cells = [v] →
      SelectExpr.get_value root value σ =
        some (RC.SUCCESS, v, σ.set root { op with pending := rest, current := cells }) := by
    intro v hv
    subst hv
    simp [SelectExpr.get_value, hget, hnext, cell_at]
  have hzero : cells = [] →
      SelectExpr.get_value root value σ =
        some (op.missing_cell_rc, value,
          σ.set root { op with pending := rest, current := cells }) := by
    intro hv
    subst hv
    simp [SelectExpr.get_value, hget, hnext, cell_at]
  refine ⟨hmany, hone, fun h => ⟨value, hzero h⟩, ?_, ?_⟩
  · constructor
    · rintro ⟨v, σ1, h⟩
      match cells, hmany, hzero with
      | [], _, hz =>
        rw [hz rfl] at h
        simp only [Option.some.injEq, Prod.mk.injEq] at h
        exact Or.inr ⟨rfl, h.1⟩
      | [_], _, _ => exact Or.inl rfl
      | _ :: _ :: _, hm, _ =>
        rw [hm (by simp)] at h
        simp at h
    · rintro (hlen | ⟨hnil, hrc⟩)
      · match cells, hone, hlen with
        | [v], ho, _ => exact ⟨v, _, ho v rfl⟩
      · exact ⟨value, _, by rw [hzero hnil, hrc]⟩
  · constructor
    · rintro ⟨v, σ1, h⟩
      match cells, hone, hzero with
      | [], _, hz =>
        rw [hz rfl] at h
        simp only [Option.some.injEq, Prod.mk.injEq] at h
        exact Or.inr ⟨rfl, h.1⟩
      | [w], ho, _ =>
        rw [ho w rfl] at h
        simp at h
      | _ :: _ :: _, _, _ => exact Or.inl (by simp)
    · rintro (hlen | ⟨hnil, hrc⟩)
      · exact ⟨value, _, hmany hlen⟩
      · exact ⟨value, _, by rw [hzero hnil, hrc]⟩

/-- Witness of C11 as amended: rows of two cells, of one cell and of no cell,
the last from an operator whose rows report `NOTFOUND` for a missing cell. -/
theorem select_get_value_by_cell_count_witness :
    SelectExpr.get_value 0 Value.undefined
        [{ fresh_operator [] with pending := [Fetch.row [Value.int 1, Value.int 2]] }] =
        some (RC.SELECT_EXPR_INVALID_ARGUMENT, Value.undefined,
          [{ fresh_operator [] with current := [Value.int 1, Value.int 2] }])
    ∧ SelectExpr.get_value 0 Value.undefined
        [{ fresh_operator [] with pending := [Fetch.row [Value.int 1]] }] =
        some (RC.SUCCESS, Value.int 1, [{ fresh_operator [] with current := [Value.int 1] }])
    ∧ ∃ v, SelectExpr.get_value 0 Value.undefined
        [{ fresh_operator [] with pending := [Fetch.row []], missing_cell_rc := RC.NOTFOUND }] =
        some (RC.NOTFOUND, v, [{ fresh_operator [] with missing_cell_rc := RC.NOTFOUND }]) :=
  ⟨(select_get_value_by_cell_count 0 Value.undefined
      [{ fresh_operator [] with pending := [Fetch.row [Value.int 1, Value.int 2]] }]
      { fresh_operator [] with pending := [Fetch.row [Value.int 1, Value.int 2]] }
      [Value.int 1, Value.int 2] [] rfl rfl).1 (by decide),
    (select_get_value_by_cell_count 0 Value.undefined
      [{ fresh_operator [] with pending := [Fetch.row [Value.int 1]] }]
      { fresh_operator [] with pending := [Fetch.row [Value.int 1]] }
      [Value.int 1] [] rfl rfl).2.1 (Value.int 1) rfl,
    (select_get_value_by_cell_count 0 Value.undefined
      [{ fresh_operator [] with pending := [Fetch.row []], missing_cell_rc := RC.NOTFOUND }]
      { fresh_operator [] with pending := [Fetch.row []], missing_cell_rc := RC.NOTFOUND }
      [] [] rfl rfl).2.2.1 rfl⟩

/-- Counterexample to C11 as stated: a row without cells is not answered with
`SELECT_EXPR_INVALID_ARGUMENT` by the cell-count check. The code returned is
the one its `cell_at(0, value)` reports: `NOTFOUND` from a row that reports
`NOTFOUND`, `INVALID_ARGUMENT` from one that reports `INVALID_ARGUMENT`, and
`SUCCESS` from one that would report `SUCCESS`. -/
theorem select_get_value_zero_cells_other_code :
    (SelectExpr.get_value 0 Value.undefined
        [{ fresh_operator [] with
            pending := [Fetch.row []], missing_cell_rc := RC.NOTFOUND }]).map (fun res => res.1) =
        some RC.NOTFOUND
    ∧ (SelectExpr.get_value 0 Value.undefined
        [{ fresh_operator [] with
            pending := [Fetch.row []],
            missing_cell_rc := RC.INVALID_ARGUMENT }]).map (fun res => res.1) =
        some RC.INVALID_ARGUMENT
    ∧ (SelectExpr.get_value 0 Value.undefined
        [{ fresh_operator [] with
            pending := [Fetch.row []], missing_cell_rc := RC.SUCCESS }]).map (fun res => res.1) =
        some RC.SUCCESS := by
  refine ⟨rfl, rfl, rfl⟩

/-! ## ArithmeticExpr -/

/-- `ArithmeticExpr::get_value` with both children present. -/
theorem get_value_arithmetic_binary (api : ValueApi) (tuple : Tuple)
    (arithmetic_type : ArithmeticType) (left right : Expr) (value : Value) (σ : Store) :
    get_value api tuple (.arithmetic arithmetic_type left (some right)) value σ =
      match get_value api tuple left Value.undefined σ with
      | none => none
      | some (rc, left_value, σ1) =>
        if rc ≠ RC.SUCCESS then
          some (rc, value, σ1)
        else
          match get_value api tuple right Value.undefined σ1 with
          | none => none
          | some (rc1, right_value, σ2) =>
            if rc1 ≠ RC.SUCCESS then
              some (rc1, value, σ2)
            else
              some ((ArithmeticExpr.calc_value api arithmetic_type
                  (value_type api (.arithmetic arithmetic_type left (some right)))
                  left_value right_value value).1,
                (ArithmeticExpr.calc_value api arithmetic_type
                  (value_type api (.arithmetic arithmetic_type left (some right)))
                  left_value right_value value).2, σ2) := by
  delta get_value
  rfl

/-- `ArithmeticExpr::get_value` when `right_` is null: once the left child has
succeeded, the call through the null `right_` has no defined result. -/
theorem get_value_arithmetic_unary (api : ValueApi) (tuple : Tuple)
    (arithmetic_type : ArithmeticType) (left : Expr) (value : Value) (σ : Store) :
    get_value api tuple (.arithmetic arithmetic_type left none) value σ =
      match get_value api tuple left Value.undefined σ with
      | none => none
      | some (rc, _, σ1) =>
        if rc ≠ RC.SUCCESS then
          some (rc, value, σ1)
        else
          none := by
  delta get_value
  rfl

/-- The type of a two-child arithmetic expression, from the types of its
children. -/
theorem value_type_arithmetic_binary (api : ValueApi) (arithmetic_type : ArithmeticType)
    (left right : Expr) :
    value_type api (.arithmetic arithmetic_type left (some right)) =
      ArithmeticExpr.value_type arithmetic_type (value_type api left)
        (some (value_type api right)) :=
  rfl

/-- The type of a division with two children is never `INTS`. -/
theorem value_type_div_ne_ints (left_type right_type : AttrType) :
    ArithmeticExpr.value_type ArithmeticType.DIV left_type (some right_type) ≠ AttrType.INTS := by
  simp only [ArithmeticExpr.value_type]
  split_ifs <;> simp_all

/-- A division whose target type is not `INTS` and whose right value passes the
zero test yields NULL. -/
theorem calc_value_div_zero (api : ValueApi) (target_type : AttrType)
    (left_value right_value value : Value) (htype : target_type ≠ AttrType.INTS)
    (hzero : right_value.get_float api > -api.EPSILON ∧ right_value.get_float api < api.EPSILON) :
    ArithmeticExpr.calc_value api ArithmeticType.DIV target_type left_value right_value value =
      (RC.SUCCESS, Value.null) := by
  unfold ArithmeticExpr.calc_value
  by_cases hnull : target_type = AttrType.NULL_ATTR
  · simp [hnull, Value.set_null]
  · simp only [hnull, if_false, htype, hzero, and_self, if_true, Value.set_null]

/-- Claim C12. For a division whose left operand evaluates successfully and
whose right operand evaluates to the integer 0, or to a float `x` with
`|x| < ε`, evaluation succeeds and yields NULL (`ε` being positive). -/
theorem division_by_zero_yields_null (api : ValueApi) (tuple : Tuple) (left right : Expr)
    (value left_value right_value : Value) (σ σ1 σ2 : Store) (heps : 0 < api.EPSILON)
    (hl : get_value api tuple left Value.undefined σ = some (RC.SUCCESS, left_value, σ1))
    (hr : get_value api tuple right Value.undefined σ1 = some (RC.SUCCESS, right_value, σ2))
    (hzero : right_value = Value.int 0 ∨ ∃ x, right_value = Value.float x ∧ |x| < api.EPSILON) :
    get_value api tuple (.arithmetic ArithmeticType.DIV left (some right)) value σ =
      some (RC.SUCCESS, Value.null, σ2) := by
  have htest : right_value.get_float api > -api.EPSILON ∧
      right_value.get_float api < api.EPSILON := by
    rcases hzero with rfl | ⟨x, rfl, hx⟩
    · simp only [Value.get_float, Int.cast_zero]
      constructor
      · linarith
      · exact heps
    · exact abs_lt.mp hx
  rw [get_value_arithmetic_binary, hl]
  simp only [ne_eq, not_true_eq_false, if_false, hr]
  rw [value_type_arithmetic_binary,
    calc_value_div_zero api _ left_value right_value value (value_type_div_ne_ints _ _) htest]

/-- Witness of C12: `a / b` on the row `(1, 0)` is NULL. -/
theorem division_by_zero_yields_null_witness :
    get_value example_api
        ⟨[(⟨"t", "a"⟩, Value.int 1), (⟨"t", "b"⟩, Value.int 0)]⟩
        (.arithmetic ArithmeticType.DIV (.field "t" "a") (some (.field "t" "b")))
        Value.undefined [] = some (RC.SUCCESS, Value.null, []) :=
  division_by_zero_yields_null example_api
    ⟨[(⟨"t", "a"⟩, Value.int 1), (⟨"t", "b"⟩, Value.int 0)]⟩ (.field "t" "a") (.field "t" "b")
    Value.undefined (Value.int 1) (Value.int 0) [] [] [] (by norm_num [example_api])
    (by decide) (by decide) (Or.inl rfl)

/-- Claim C13, the code at the failing input. The column `t.a` is declared
`INTS` and its cell in the tuple is NULL: `t.a + 1` evaluates to an integer, not
to NULL, because `calc_value` looks for NULL in the types that `value_type`
reports and not in the operand values. With the literal NULL, whose reported
type is NULL, `NULL + 1` does evaluate to NULL. -/
theorem arithmetic_on_null_cell_is_not_null :
    example_api.field_type "t" "a" = AttrType.INTS
    ∧ get_value example_api ⟨[(⟨"t", "a"⟩, Value.null)]⟩ (.field "t" "a") Value.undefined [] =
        some (RC.SUCCESS, Value.null, [])
    ∧ get_value example_api ⟨[(⟨"t", "a"⟩, Value.null)]⟩
        (.arithmetic ArithmeticType.ADD (.field "t" "a") (some (.value (Value.int 1))))
        Value.undefined [] = some (RC.SUCCESS, Value.int 1, [])
    ∧ get_value example_api ⟨[(⟨"t", "a"⟩, Value.null)]⟩
        (.arithmetic ArithmeticType.MUL (.value (Value.int 2)) (some (.field "t" "a")))
        Value.undefined [] = some (RC.SUCCESS, Value.int 0, [])
    ∧ get_value example_api ⟨[(⟨"t", "a"⟩, Value.null)]⟩
        (.arithmetic ArithmeticType.ADD (.value Value.null) (some (.value (Value.int 1))))
        Value.undefined [] = some (RC.SUCCESS, Value.null, []) := by
  refine ⟨rfl, ?_, ?_, ?_, ?_⟩ <;> decide

/-- The type that a two-child arithmetic expression reports is one of NULL,
`INTS` and `FLOATS`. -/
theorem value_type_binary_cases (arithmetic_type : ArithmeticType)
    (left_type right_type : AttrType) :
    ArithmeticExpr.value_type arithmetic_type left_type (some right_type) = AttrType.NULL_ATTR
      ∨ ArithmeticExpr.value_type arithmetic_type left_type (some right_type) = AttrType.INTS
      ∨ ArithmeticExpr.value_type arithmetic_type left_type (some right_type) =
          AttrType.FLOATS := by
  simp only [ArithmeticExpr.value_type]
  split_ifs <;> simp

/-- With a target type among NULL, `INTS` and `FLOATS`, `calc_value` succeeds
with NULL or with a value of the target type. -/
theorem calc_value_has_target_type (api : ValueApi) (arithmetic_type : ArithmeticType)
    (target_type : AttrType) (left_value right_value value : Value)
    (htype : target_type = AttrType.NULL_ATTR ∨ target_type = AttrType.INTS ∨
      target_type = AttrType.FLOATS) :
    (ArithmeticExpr.calc_value api arithmetic_type target_type left_value right_value value).1 =
        RC.SUCCESS
      ∧ ((ArithmeticExpr.calc_value api arithmetic_type target_type left_value right_value
            value).2 = Value.null
        ∨ (ArithmeticExpr.calc_value api arithmetic_type target_type left_value right_value
            value).2.attr_type = target_type) := by
  rcases htype with rfl | rfl | rfl <;> cases arithmetic_type <;>
    simp only [ArithmeticExpr.calc_value, reduceCtorEq, if_false, if_true, Value.set_int,
      Value.set_float, Value.set_null] <;>
    (try split_ifs) <;> simp [Value.attr_type]

/-- Claim C14. For an arithmetic expression with two children, `value_type` is
NULL exactly when the type of a child is NULL, `INTS` exactly when both child
types are `INTS` and the operator is not `DIV`, and `FLOATS` exactly in the
remaining cases; and `calc_value` run with that type succeeds with a value that
is NULL or has that type. -/
theorem arithmetic_value_type_rule (api : ValueApi) (arithmetic_type : ArithmeticType)
    (left right : Expr) (left_value right_value value : Value) :
    (value_type api (.arithmetic arithmetic_type left (some right)) = AttrType.NULL_ATTR ↔
        (value_type api left = AttrType.NULL_ATTR ∨ value_type api right = AttrType.NULL_ATTR))
    ∧ (value_type api (.arithmetic arithmetic_type left (some right)) = AttrType.INTS ↔
        (value_type api left = AttrType.INTS ∧ value_type api right = AttrType.INTS ∧
          arithmetic_type ≠ ArithmeticType.DIV))
    ∧ (value_type api (.arithmetic arithmetic_type left (some right)) = AttrType.FLOATS ↔
        (¬ (value_type api left = AttrType.NULL_ATTR ∨
            value_type api right = AttrType.NULL_ATTR) ∧
          ¬ (value_type api left = AttrType.INTS ∧ value_type api right = AttrType.INTS ∧
            arithmetic_type ≠ ArithmeticType.DIV)))
    ∧ (ArithmeticExpr.calc_value api arithmetic_type
          (value_type api (.arithmetic arithmetic_type left (some right)))
          left_value right_value value).1 = RC.SUCCESS
    ∧ ((ArithmeticExpr.calc_value api arithmetic_type
          (value_type api (.arithmetic arithmetic_type left (some right)))
          left_value right_value value).2 = Value.null
      ∨ (ArithmeticExpr.calc_value api arithmetic_type
          (value_type api (.arithmetic arithmetic_type left (some right)))
          left_value right_value value).2.attr_type =
        value_type api (.arithmetic arithmetic_type left (some right))) := by
  have hvt := value_type_arithmetic_binary api arithmetic_type left right
  have hcalc := calc_value_has_target_type api arithmetic_type _ left_value right_value value
    (value_type_binary_cases arithmetic_type (value_type api left) (value_type api right))
  rw [hvt]
  refine ⟨?_, ?_, ?_, hcalc.1, hcalc.2⟩
  · simp only [ArithmeticExpr.value_type]
    split_ifs with h1 h2 <;> simp_all
  · simp only [ArithmeticExpr.value_type]
    split_ifs with h1 h2
    · constructor
      · intro h
        exact absurd h (by decide)
      · rintro ⟨hl, hr, _⟩
        rcases h1 with h | h
        · rw [hl] at h
          exact absurd h (by decide)
        · rw [hr] at h
          exact absurd h (by decide)
    · simp_all
    · simp_all
  · simp only [ArithmeticExpr.value_type]
    split_ifs with h1 h2 <;> simp_all

/-- `CastExpr::get_value`: the child writes into the caller's value, which is
then cast in place. -/
theorem get_value_cast (api : ValueApi) (tuple : Tuple) (child : Expr) (cast_type : AttrType)
    (cell : Value) (σ : Store) :
    get_value api tuple (.cast child cast_type) cell σ =
      match get_value api tuple child cell σ with
      | none => none
      | some (rc, cell1, σ1) =>
        if rc ≠ RC.SUCCESS then
          some (rc, cell1, σ1)
        else
          some ((CastExpr.cast api cast_type cell1 cell1).1,
            (CastExpr.cast api cast_type cell1 cell1).2, σ1) := by
  delta get_value
  rfl

/-- `ValueExpr::get_value`. -/
theorem get_value_value (api : ValueApi) (tuple : Tuple) (c value : Value) (σ : Store) :
    get_value api tuple (.value c) value σ = some (RC.SUCCESS, c, σ) := by
  delta get_value
  rfl

/-- On expressions built from values, casts, comparisons other than `IN` and
`NOT IN`, and arithmetic nodes with both children present, a successful
`try_get_value` is matched by `get_value`: it succeeds with the same value and
leaves the store alone. -/
theorem try_get_value_agrees (api : ValueApi) (tuple : Tuple) :
    ∀ (e : Expr) (value v : Value) (σ : Store), both_children_present e = true →
      try_get_value api e value = (RC.SUCCESS, v) →
      get_value api tuple e value σ = some (RC.SUCCESS, v, σ)
  | .value c, value, v, σ, _, h => by
    simp only [try_get_value, Prod.mk.injEq, true_and] at h
    rw [get_value_value, h]
  | .cast child cast_type, value, v, σ, hf, h => by
    simp only [both_children_present] at hf
    simp only [try_get_value] at h
    by_cases hc : (try_get_value api child value).1 = RC.SUCCESS
    · have ih := try_get_value_agrees api tuple child value (try_get_value api child value).2 σ hf
        (Prod.ext hc rfl)
      rw [if_neg (by simpa using hc)] at h
      rw [get_value_cast, ih]
      simp only [ne_eq, not_true_eq_false, if_false, h]
    · rw [if_pos hc] at h
      rw [h] at hc
      exact absurd rfl hc
  | .comparison comp left right, value, v, σ, hf, h => by
    simp only [both_children_present, decide_eq_true_eq] at hf
    match left, right, h with
    | .value l, .value r, h =>
      simp only [try_get_value] at h
      by_cases hc : (compare_value api comp l r).1 = RC.SUCCESS
      · rw [if_neg (by simpa using hc)] at h
        rw [get_value_comparison_outcome api tuple comp (.value l) (.value r) value l r σ σ σ
          hf.1 hf.2 (get_value_value api tuple l Value.undefined σ)
          (get_value_value api tuple r Value.undefined σ)]
        unfold comparison_outcome
        rw [if_pos hc]
        simp only [Prod.mk.injEq, true_and] at h
        rw [h]
      · rw [if_pos hc] at h
        simp only [Prod.mk.injEq] at h
        exact absurd h.1 hc
    | .value _, .field _ _, h => simp [try_get_value] at h
    | .value _, .comparison _ _ _, h => simp [try_get_value] at h
    | .value _, .conjunction _ _, h => simp [try_get_value] at h
    | .value _, .select _, h => simp [try_get_value] at h
    | .value _, .list _, h => simp [try_get_value] at h
    | .value _, .cast _ _, h => simp [try_get_value] at h
    | .value _, .arithmetic _ _ _, h => simp [try_get_value] at h
    | .field _ _, _, h => simp [try_get_value] at h
    | .comparison _ _ _, _, h => simp [try_get_value] at h
    | .conjunction _ _, _, h => simp [try_get_value] at h
    | .select _, _, h => simp [try_get_value] at h
    | .list _, _, h => simp [try_get_value] at h
    | .cast _ _, _, h => simp [try_get_value] at h
    | .arithmetic _ _ _, _, h => simp [try_get_value] at h
  | .arithmetic arithmetic_type left (some right), value, v, σ, hf, h => by
    simp only [both_children_present, Bool.and_eq_true] at hf
    simp only [try_get_value] at h
    by_cases hl : (try_get_value api left Value.undefined).1 = RC.SUCCESS
    · by_cases hr : (try_get_value api right Value.undefined).1 = RC.SUCCESS
      · have ihl := try_get_value_agrees api tuple left Value.undefined
          (try_get_value api left Value.undefined).2 σ hf.1 (Prod.ext hl rfl)
        have ihr := try_get_value_agrees api tuple right Value.undefined
          (try_get_value api right Value.undefined).2 σ hf.2 (Prod.ext hr rfl)
        rw [if_neg (by simpa using hl), if_neg (by simpa using hr)] at h
        rw [get_value_arithmetic_binary, ihl]
        simp only [ne_eq, not_true_eq_false, if_false, ihr, h]
      · rw [if_neg (by simpa using hl), if_pos hr] at h
        simp only [Prod.mk.injEq] at h
        exact absurd h.1 hr
    · rw [if_pos hl] at h
      simp only [Prod.mk.injEq] at h
      exact absurd h.1 hl
  | .arithmetic _ _ none, _, _, _, hf, _ => by simp [both_children_present] at hf
  | .field _ _, _, _, _, hf, _ => by simp [both_children_present] at hf
  | .conjunction _ _, _, _, _, hf, _ => by simp [both_children_present] at hf
  | .select _, _, _, _, hf, _ => by simp [both_children_present] at hf
  | .list _, _, _, _, hf, _ => by simp [both_children_present] at hf

/-- Claim C15, the code at the failing input. For the unary minus
`NEGATIVE(5)`, whose `right_` is null, `ArithmeticExpr::get_value` has no
defined result: after the left child it calls `get_value` through the null
`right_`. `try_get_value`, which tests `right_` first, returns `-5` of type
`INTS`, the type that `value_type` reports for the expression. -/
theorem unary_minus_get_value_undefined :
    get_value example_api ⟨[]⟩
        (.arithmetic ArithmeticType.NEGATIVE (.value (Value.int 5)) none) Value.undefined [] =
        none
    ∧ get_value example_api ⟨[(⟨"t", "a"⟩, Value.int 5)]⟩
        (.arithmetic ArithmeticType.NEGATIVE (.field "t" "a") none) Value.undefined [] = none
    ∧ try_get_value example_api
        (.arithmetic ArithmeticType.NEGATIVE (.value (Value.int 5)) none) Value.undefined =
        (RC.SUCCESS, Value.int (-5))
    ∧ value_type example_api
        (.arithmetic ArithmeticType.NEGATIVE (.value (Value.int 5)) none) = AttrType.INTS := by
  refine ⟨?_, ?_, ?_, rfl⟩ <;> decide

/-- Claim C16, the code at the failing input. For the constant expressions
`-5` and `CAST(-5 AS INTS)`, built from a value, a unary minus and a cast,
`try_get_value` succeeds with `-5` while `get_value` has no defined result. With
both children present, as in `2 + 3`, the two agree. -/
theorem try_get_value_succeeds_where_get_value_does_not :
    try_get_value example_api
        (.arithmetic ArithmeticType.NEGATIVE (.value (Value.int 5)) none) Value.undefined =
        (RC.SUCCESS, Value.int (-5))
    ∧ get_value example_api ⟨[]⟩
        (.arithmetic ArithmeticType.NEGATIVE (.value (Value.int 5)) none) Value.undefined [] =
        none
    ∧ try_get_value example_api
        (.cast (.arithmetic ArithmeticType.NEGATIVE (.value (Value.int 5)) none) AttrType.INTS)
        Value.undefined = (RC.SUCCESS, Value.int (-5))
    ∧ get_value example_api ⟨[]⟩
        (.cast (.arithmetic ArithmeticType.NEGATIVE (.value (Value.int 5)) none) AttrType.INTS)
        Value.undefined [] = none
    ∧ try_get_value example_api
        (.arithmetic ArithmeticType.ADD (.value (Value.int 2)) (some (.value (Value.int 3))))
        Value.undefined = (RC.SUCCESS, Value.int 5)
    ∧ get_value example_api ⟨[]⟩
        (.arithmetic ArithmeticType.ADD (.value (Value.int 2)) (some (.value (Value.int 3))))
        Value.undefined [] = some (RC.SUCCESS, Value.int 5, []) := by
  refine ⟨?_, ?_, ?_, ?_, ?_, ?_⟩ <;> decide

/-! ## IN and NOT IN over a list -/

/-- The loop of `IN` over the values of a list writes TRUE at the first value
that compares equal, when the comparisons before it succeed without a match;
the values after it are not looked at. -/
theorem in_list_loop_first_match (api : ValueApi) (x a value : Value) (post : List Value)
    (ha : api.compare x a = (RC.SUCCESS, 0)) :
    ∀ pre : List Value,
      (∀ v ∈ pre, (api.compare x v).1 = RC.SUCCESS ∧ (api.compare x v).2 ≠ 0) →
      in_list_loop api ExprOp.IN_COMP x (pre ++ a :: post) value =
        (RC.SUCCESS, Value.bool true) := by
  intro pre
  induction pre with
  | nil =>
    intro _
    simp [in_list_loop, compare_value, ha, Value.set_boolean]
  | cons v vs ih =>
    intro hpre
    have hv := hpre v (List.mem_cons_self v vs)
    have hne : ¬ (0 = (api.compare x v).2) := fun h => hv.2 h.symm
    rw [List.cons_append, in_list_loop]
    simp only [compare_value, hv.1, ne_eq, not_true_eq_false, if_false, hne, decide_False,
      Bool.false_eq_true]
    exact ih (fun w hw => hpre w (List.mem_cons_of_mem v hw))

/-- Claim C17, as amended. When the left operand evaluates to `x` and every
element of the list evaluates successfully, giving the values
`pre ++ a :: post` in list order, where `a` compares equal to `x` and each
value of `pre` is compared successfully without being equal, `IN` returns
success with TRUE whatever the values `post` after the first match are. -/
theorem in_list_stops_at_first_match (api : ValueApi) (tuple : Tuple) (left : Expr)
    (expr_list : List Expr) (value x a : Value) (pre post : List Value) (σ σ1 σ2 : Store)
    (hleft : get_value api tuple left Value.undefined σ = some (RC.SUCCESS, x, σ1))
    (hlist : ListExpression.get_value_list api tuple expr_list [] σ1 =
      some (RC.SUCCESS, pre ++ a :: post, σ2))
    (hpre : ∀ v ∈ pre, (api.compare x v).1 = RC.SUCCESS ∧ (api.compare x v).2 ≠ 0)
    (ha : api.compare x a = (RC.SUCCESS, 0)) :
    get_value api tuple (.comparison ExprOp.IN_COMP left (.list expr_list)) value σ =
      some (RC.SUCCESS, Value.bool true, σ2) := by
  rw [get_value_in_list, hleft]
  simp only [ne_eq, not_true_eq_false, if_false, hlist]
  rw [in_list_loop_first_match api x a value post ha pre hpre]

/-- Witness of C17 as amended: `1 IN (2, 1, NULL)`; the comparison of 1 with
NULL, which would fail, is never made. -/
theorem in_list_stops_at_first_match_witness :
    get_value example_api ⟨[]⟩
        (.comparison ExprOp.IN_COMP (.value (Value.int 1))
          (.list [.value (Value.int 2), .value (Value.int 1), .value Value.null]))
        Value.undefined [] = some (RC.SUCCESS, Value.bool true, [])
    ∧ (example_api.compare (Value.int 1) Value.null).1 ≠ RC.SUCCESS :=
  ⟨in_list_stops_at_first_match example_api ⟨[]⟩ (.value (Value.int 1))
      [.value (Value.int 2), .value (Value.int 1), .value Value.null] Value.undefined
      (Value.int 1) (Value.int 1) [Value.int 2] [Value.null] [] [] [] rfl rfl
      (by decide) rfl,
    by decide⟩

/-- Counterexample to C17 as stated: in `1 IN (1, t.a)` the first element
matches, but every element is evaluated before any comparison is made, and the
failed lookup of `t.a` is returned instead of TRUE. -/
theorem in_list_evaluates_all_elements_first :
    get_value example_api ⟨[]⟩
        (.comparison ExprOp.IN_COMP (.value (Value.int 1))
          (.list [.value (Value.int 1), .field "t" "a"]))
        Value.undefined [] = some (RC.NOTFOUND, Value.undefined, [])
    ∧ get_value example_api ⟨[]⟩
        (.comparison ExprOp.IN_COMP (.value (Value.int 1))
          (.list [.value (Value.int 1), .field "t" "a"]))
        Value.undefined [] ≠ some (RC.SUCCESS, Value.bool true, [])
    ∧ get_value example_api ⟨[]⟩
        (.comparison ExprOp.EQUAL_TO (.value (Value.int 1)) (.value (Value.int 1)))
        Value.undefined [] = some (RC.SUCCESS, Value.bool true, []) := by
  refine ⟨?_, ?_, ?_⟩ <;> decide

/-- Claim C18, the code at the failing input. `1 NOT IN (2)` and
`1 NOT IN (1)` with a list on the right have no defined result: the `NOT IN`
branch has no case for a list and treats the operand as a sub-query. The `IN`
branch, which has the case, evaluates `1 IN (1)` to TRUE. -/
theorem not_in_list_undefined :
    get_value example_api ⟨[]⟩
        (.comparison ExprOp.NOT_IN_COMP (.value (Value.int 1)) (.list [.value (Value.int 2)]))
        Value.undefined [] = none
    ∧ get_value example_api ⟨[]⟩
        (.comparison ExprOp.NOT_IN_COMP (.value (Value.int 1)) (.list [.value (Value.int 1)]))
        Value.undefined [] = none
    ∧ get_value example_api ⟨[]⟩
        (.comparison ExprOp.IN_COMP (.value (Value.int 1)) (.list [.value (Value.int 1)]))
        Value.undefined [] = some (RC.SUCCESS, Value.bool true, []) := by
  refine ⟨?_, ?_, ?_⟩ <;> decide

/-! ## compare_value: LIKE and NOT LIKE -/

/-- Two different elements never get the ordering "equal". -/
theorem ordering_result_ne_zero {α : Type} [LT α] [DecidableRel (fun a b : α => a < b)]
    [DecidableEq α] (a b : α) (h : a ≠ b) : ordering_result a b ≠ 0 := by
  unfold ordering_result
  split_ifs <;> simp

/-- Claim C19, as amended. For every pair of values, `LIKE` returns the code
and the result of `=` on them, TRUE exactly when `Value::compare` leaves the
ordering "equal", and `NOT LIKE` returns the same code with the negated
result; `%` and `_` are not interpreted. -/
theorem like_is_equality_of_compare (api : ValueApi) (s p : Value) :
    compare_value api ExprOp.LIKE s p = compare_value api ExprOp.EQUAL_TO s p
    ∧ ((compare_value api ExprOp.LIKE s p).2 = true ↔ compares_equal api s p)
    ∧ compare_value api ExprOp.NOT_LIKE s p =
        ((compare_value api ExprOp.LIKE s p).1, !(compare_value api ExprOp.LIKE s p).2) := by
  refine ⟨rfl, ?_, ?_⟩
  · simp [compare_value, compares_equal, eq_comm]
  · simp [compare_value]

/-- Counterexample to C19 as stated: `abc` matches the pattern `a%` (and the
pattern `a_c`), yet `'abc' LIKE 'a%'` is FALSE and `'abc' NOT LIKE 'a%'` is
TRUE, since the two strings do not compare equal. -/
theorem like_ignores_wildcards :
    like_match ['a', '%'] ['a', 'b', 'c'] = true
    ∧ like_match ['a', '_', 'c'] ['a', 'b', 'c'] = true
    ∧ compare_value example_api ExprOp.LIKE (Value.chars "abc") (Value.chars "a%") =
        (RC.SUCCESS, false)
    ∧ compare_value example_api ExprOp.NOT_LIKE (Value.chars "abc") (Value.chars "a%") =
        (RC.SUCCESS, true) := by
  have hne : ordering_result "abc" "a%" ≠ 0 := ordering_result_ne_zero _ _ (by decide)
  have hne' : ¬ (0 = ordering_result "abc" "a%") := fun h => hne h.symm
  refine ⟨by decide, by decide, ?_, ?_⟩
  · simp only [compare_value, example_api, hne', decide_False]
  · simp only [compare_value, example_api, ne_eq, hne', not_false_eq_true, decide_True]

/-! ## SelectStmt::create: the rule on mixing aggregates and plain columns -/

/-- The counting loop, which walks the select list backwards, counts the items
that are column references wrapped in an aggregate function. -/
theorem aggr_func_count_eq_countP (attributes : List ExprSqlNode) :
    aggr_func_count attributes = attributes.countP is_aggr_attribute := by
  have hfold : ∀ (l : List ExprSqlNode) (n : Nat),
      l.foldl (fun count item => if is_aggr_attribute item then count + 1 else count) n =
        n + l.countP is_aggr_attribute := by
    intro l
    induction l with
    | nil => intro n; simp
    | cons a l ih =>
      intro n
      rw [List.foldl_cons, ih, List.countP_cons]
      by_cases h : is_aggr_attribute a = true
      · simp [h]; omega
      · simp [h]
  unfold aggr_func_count
  rw [hfold, Nat.zero_add, List.countP_reverse]

/-- The rule on mixing aggregates with plain columns answers
`AGGR_FUNC_NOT_VALID` exactly when the number of aggregate-wrapped items is
positive and, added to the number of group-by fields, differs from the number
of select-list items; it answers nothing in all other cases. -/
theorem aggr_mixing_check_iff (attributes : List ExprSqlNode) (group_by_fields_size : Nat) :
    (SelectStmt.aggr_mixing_check attributes group_by_fields_size =
        some RC.AGGR_FUNC_NOT_VALID ↔
      (0 < attributes.countP is_aggr_attribute ∧
        attributes.countP is_aggr_attribute + group_by_fields_size ≠ attributes.length))
    ∧ (SelectStmt.aggr_mixing_check attributes group_by_fields_size = none ↔
      (attributes.countP is_aggr_attribute = 0 ∨
        attributes.countP is_aggr_attribute + group_by_fields_size = attributes.length)) := by
  unfold SelectStmt.aggr_mixing_check
  rw [aggr_func_count_eq_countP]
  constructor
  · split_ifs with h
    · simp only [true_iff]
      exact ⟨Nat.pos_of_ne_zero h.1, h.2⟩
    · simp only [reduceCtorEq, false_iff]
      rintro ⟨h1, h2⟩
      exact h ⟨Nat.pos_iff_ne_zero.mp h1, h2⟩
  · split_ifs with h
    · simp only [reduceCtorEq, false_iff]
      rintro (h1 | h2)
      · exact h.1 h1
      · exact h.2 h2
    · simp only [true_iff]
      by_cases h0 : attributes.countP is_aggr_attribute = 0
      · exact Or.inl h0
      · right
        by_contra h2
        exact h ⟨h0, h2⟩

/-- The GROUP BY loop appends one field for every item it is given. -/
theorem group_by_loop_length {scope : Scope} (items : List RelAttrSqlNode)
    {acc res : List Field}
    (h : Resolved.loop (group_by_step scope) items acc = .ok res) :
    res.length = acc.length + items.length := by
  induction items generalizing acc with
  | nil => cases h; simp
  | cons item rest ih =>
    simp only [Resolved.loop, group_by_step] at h
    cases hcol : resolve_column scope item with
    | ok field =>
      rw [hcol] at h
      simp only [Resolved.bind] at h
      rw [ih h]
      simp
      omega
    | returned rc => rw [hcol] at h; simp [Resolved.bind] at h
    | undefined => rw [hcol] at h; simp [Resolved.bind] at h

/-- Claim C20. Let the FROM clause of a SELECT resolve to `scope` and its
GROUP BY clause to `group_by_fields`, one field for each GROUP BY column, and
let `A` be the number of aggregate-wrapped select-list items, `G` the number
of group-by fields and `N` the number of select-list items. If `A > 0` and
`A + G ≠ N`, `SelectStmt::create` fails with `AGGR_FUNC_NOT_VALID`. If `A = 0`
or `A + G = N`, the mixing rule raises no error: `create` goes on with the
select-list loop, and its result is that of the rest of the function. -/
theorem aggr_mixing_rule (api : ResolverApi) (db : Db) (select_sql : SelectSqlNode)
    (is_sub_select : Bool) (table_map : Option TableMap)
    (alias_to_select_attr : Option AliasMap) (scope : Scope) (group_by_fields : List Field)
    (hfrom : from_stage select_sql (initial_scope db select_sql table_map) = .ok scope)
    (hgroup : group_by_stage select_sql scope = .ok group_by_fields) :
    group_by_fields.length = select_sql.group_by_attributes.length
    ∧ (0 < select_sql.attributes.countP is_aggr_attribute ∧
        select_sql.attributes.countP is_aggr_attribute + group_by_fields.length ≠
          select_sql.attributes.length →
      SelectStmt.create api (some db) select_sql is_sub_select table_map
        alias_to_select_attr = .returned RC.AGGR_FUNC_NOT_VALID)
    ∧ (select_sql.attributes.countP is_aggr_attribute = 0 ∨
        select_sql.attributes.countP is_aggr_attribute + group_by_fields.length =
          select_sql.attributes.length →
      SelectStmt.aggr_mixing_check select_sql.attributes group_by_fields.length = none ∧
      SelectStmt.create api (some db) select_sql is_sub_select table_map
          alias_to_select_attr =
        create_after_mixing_rule api select_sql is_sub_select alias_to_select_attr scope
          group_by_fields) := by
  have hcreate : SelectStmt.create api (some db) select_sql is_sub_select table_map
      alias_to_select_attr =
      create_from_select_list api select_sql is_sub_select alias_to_select_attr scope
        group_by_fields := by
    simp only [SelectStmt.create, hfrom, hgroup, Resolved.bind]
  have hrule := aggr_mixing_check_iff select_sql.attributes group_by_fields.length
  refine ⟨?_, ?_, ?_⟩
  · have hlen := group_by_loop_length _ hgroup
    simpa using hlen
  · intro hbad
    rw [hcreate]
    simp only [create_from_select_list, hrule.1.mpr hbad]
  · intro hgood
    refine ⟨hrule.2.mpr hgood, ?_⟩
    rw [hcreate]
    simp only [create_from_select_list, hrule.2.mpr hgood]

/-- Witness of C20 over the example catalog: `SELECT COUNT(a), b FROM t` has one
aggregate and no group-by field for two items and fails with
`AGGR_FUNC_NOT_VALID`; `SELECT COUNT(a), b FROM t GROUP BY b` passes the rule
and is resolved. -/
theorem aggr_mixing_rule_witness :
    SelectStmt.create example_resolver (some example_db)
        { relations := [{ relation := "t" }],
          attributes :=
            [{ type := ExpressType.ATTR_T,
               left_attr := { attribute_name := "a", aggr_func_type := AggrFuncType.CNT } },
             { type := ExpressType.ATTR_T, left_attr := { attribute_name := "b" } }] }
        false none none = .returned RC.AGGR_FUNC_NOT_VALID
    ∧ ∃ r, SelectStmt.create example_resolver (some example_db)
        { relations := [{ relation := "t" }],
          attributes :=
            [{ type := ExpressType.ATTR_T,
               left_attr := { attribute_name := "a", aggr_func_type := AggrFuncType.CNT } },
             { type := ExpressType.ATTR_T, left_attr := { attribute_name := "b" } }],
          group_by_attributes := [{ attribute_name := "b" }] }
        false none none = .ok r ∧ r.stmt.group_by_fields.length = 1 := by
  constructor
  · exact (aggr_mixing_rule example_resolver example_db
      { relations := [{ relation := "t" }],
        attributes :=
          [{ type := ExpressType.ATTR_T,
             left_attr := { attribute_name := "a", aggr_func_type := AggrFuncType.CNT } },
           { type := ExpressType.ATTR_T, left_attr := { attribute_name := "b" } }] }
      false none none _ [] rfl rfl).2.1 (by decide)
  · have h := (aggr_mixing_rule example_resolver example_db
      { relations := [{ relation := "t" }],
        attributes :=
          [{ type := ExpressType.ATTR_T,
             left_attr := { attribute_name := "a", aggr_func_type := AggrFuncType.CNT } },
           { type := ExpressType.ATTR_T, left_attr := { attribute_name := "b" } }],
        group_by_attributes := [{ attribute_name := "b" }] }
      false none none _ _ rfl rfl).2.2 (by decide)
    exact ⟨_, h.2.trans rfl, rfl⟩

/-! ## SelectStmt::create: sequencing lemmas -/

theorem Resolved.bind_eq_ok {α β : Type} {x : Resolved α} {f : α → Resolved β} {b : β} :
    x.bind f = .ok b ↔ ∃ a, x = .ok a ∧ f a = .ok b := by
  cases x <;> simp [Resolved.bind]

theorem Resolved.bind_returned {α β : Type} {x : Resolved α} {f : α → Resolved β} {rc : RC}
    (h : x = .returned rc) : x.bind f = .returned rc := by
  subst h; rfl

theorem Resolved.bind_ok {α β : Type} {x : Resolved α} {f : α → Resolved β} {a : α}
    (h : x = .ok a) : x.bind f = f a := by
  subst h; rfl

theorem Resolved.loop_append {σ α : Type} (body : α → σ → Resolved σ) (xs ys : List α) (st : σ) :
    Resolved.loop body (xs ++ ys) st = (Resolved.loop body xs st).bind (Resolved.loop body ys) := by
  induction xs generalizing st with
  | nil => rfl
  | cons x xs ih =>
    simp only [List.cons_append, Resolved.loop]
    cases body x st with
    | ok a => simpa [Resolved.bind] using ih a
    | returned rc => rfl
    | undefined => rfl

/-- The select-list loop reaches the item at position `before.length` after
the items behind it, and goes on with the items in front of it. -/
theorem select_list_loop_split (api : ResolverApi) (k : Nat) (scope : Scope)
    (before after : List ExprSqlNode) (item : ExprSqlNode) (p : Projection) :
    select_list_loop api k scope (before ++ item :: after) p =
      (select_list_loop api k scope after p).bind (fun p1 =>
        (resolve_attribute api k scope item p1).bind (select_list_loop api k scope before)) := by
  unfold select_list_loop
  rw [List.reverse_append, List.reverse_cons, Resolved.loop_append, Resolved.loop_append]
  cases Resolved.loop (resolve_attribute api k scope) after.reverse p with
  | ok a =>
    simp only [Resolved.bind, Resolved.loop]
    cases resolve_attribute api k scope item a <;> rfl
  | returned rc => rfl
  | undefined => rfl

/-- What a successful `SelectStmt::create` went through: each stage ran to its
end, and the statement holds what the stages resolved. -/
theorem create_ok_stages {api : ResolverApi} {db : Db} {select_sql : SelectSqlNode}
    {is_sub_select : Bool} {table_map : Option TableMap} {alias_to_select_attr : Option AliasMap}
    {r : CreateResult}
    (h : SelectStmt.create api (some db) select_sql is_sub_select table_map
      alias_to_select_attr = .ok r) :
    ∃ scope group_by_fields p scope1,
      from_stage select_sql (initial_scope db select_sql table_map) = .ok scope ∧
      group_by_stage select_sql scope = .ok group_by_fields ∧
      SelectStmt.aggr_mixing_check select_sql.attributes group_by_fields.length = none ∧
      select_list_loop api (aggr_func_count select_sql.attributes) scope select_sql.attributes
        { alias_to_select_attr := alias_to_select_attr.getD {} } = .ok p ∧
      (if is_sub_select then
        Resolved.loop (outer_references p.alias_to_select_attr) scope.conditions scope
       else .ok scope) = .ok scope1 ∧
      r.stmt.tables = scope1.tables ∧
      r.stmt.group_by_fields = group_by_fields ∧
      r.stmt.query_fields = p.query_fields ∧
      r.stmt.aggr_query_fields = p.aggr_query_fields := by
  simp only [SelectStmt.create] at h
  obtain ⟨scope, hscope, h⟩ := Resolved.bind_eq_ok.mp h
  obtain ⟨gb, hgb, h⟩ := Resolved.bind_eq_ok.mp h
  simp only [create_from_select_list, create_after_mixing_rule] at h
  split at h
  · exact absurd h (by simp)
  · rename_i hmix
    obtain ⟨p, hp, h⟩ := Resolved.bind_eq_ok.mp h
    obtain ⟨scope1, hscope1, h⟩ := Resolved.bind_eq_ok.mp h
    split at h
    · exact absurd h (by simp)
    · obtain ⟨ob, hob, h⟩ := Resolved.bind_eq_ok.mp h
      split at h
      · exact absurd h (by simp)
      · cases h
        exact ⟨scope, gb, p, scope1, hscope, hgb, hmix, hp, hscope1, rfl, rfl, rfl, rfl⟩

/-! ## SelectStmt::create: what one select-list item does -/

theorem push_field_query_fields (k : Nat) (f g : Field) (p : Projection) :
    (push_field k f g p).query_fields = p.query_fields ++ [f] := by
  unfold push_field; split_ifs <;> rfl

theorem push_field_aggr_query_fields (k : Nat) (f g : Field) (p : Projection) (hk : k ≠ 0) :
    (push_field k f g p).aggr_query_fields = p.aggr_query_fields ++ [g] := by
  unfold push_field; rw [if_pos hk]

theorem push_field_alias_to_select_attr (k : Nat) (f g : Field) (p : Projection) :
    (push_field k f g p).alias_to_select_attr = p.alias_to_select_attr := by
  unfold push_field; split_ifs <;> rfl

theorem AliasMap.count_insert_of_pos (m : AliasMap) (key key1 : String) (node : ExprSqlNode)
    (h : m.count key > 0) : (m.insert key1 node).count key > 0 := by
  unfold AliasMap.insert
  split_ifs
  · exact h
  · unfold AliasMap.count at h ⊢
    split_ifs at h with hany
    · simp only [List.any_append, hany, Bool.true_or, if_true]; decide
    · exact absurd h (by decide)

/-- The shape of what the branch for `rel.attr` leaves behind: one more query
field, and the explicit alias, if any, recorded in both alias maps. -/
theorem resolve_qualified_ok {api : ResolverApi} {k : Nat} {item : ExprSqlNode} {table : Nat}
    {t : Table} {field_meta : FieldMeta} {p p1 : Projection}
    (h : resolve_qualified api k item table t field_meta p = .ok p1) :
    ∃ f g, p1 = push_field k f g p ∨
      p1 = push_field k f g { p with
        local_attr_alias := p.local_attr_alias.insert item.left_attr.alias_name item,
        alias_to_select_attr := p.alias_to_select_attr.insert item.left_attr.alias_name item } := by
  simp only [resolve_qualified] at h
  split_ifs at h
  all_goals first
    | exact ⟨_, _, Or.inl (Resolved.ok.inj h).symm⟩
    | exact ⟨_, _, Or.inr (Resolved.ok.inj h).symm⟩

/-- The shape of what the branch for `attr` leaves behind. -/
theorem resolve_unqualified_ok {api : ResolverApi} {k : Nat} {item : ExprSqlNode} {table : Nat}
    {t : Table} {p p1 : Projection}
    (h : resolve_unqualified api k item table t p = .ok p1) :
    ∃ f g, p1 = push_field k f g p ∨
      p1 = push_field k f g { p with
        local_attr_alias := p.local_attr_alias.insert item.left_attr.alias_name item,
        alias_to_select_attr := p.alias_to_select_attr.insert item.left_attr.alias_name item } := by
  simp only [resolve_unqualified] at h
  split at h
  · exact absurd h (by simp)
  · split at h
    · exact absurd h (by simp)
    · split at h
      · split at h
        · exact absurd h (by simp)
        · split at h
          · exact absurd h (by simp)
          · exact ⟨_, _, Or.inr (Resolved.ok.inj h).symm⟩
      · split at h
        · exact absurd h (by simp)
        · exact ⟨_, _, Or.inl (Resolved.ok.inj h).symm⟩

/-- The select-list loop on an item flagged by the parser. -/
theorem resolve_attribute_syntax_error (api : ResolverApi) (k : Nat) (scope : Scope)
    (item : ExprSqlNode) (p : Projection) (hsyn : item.left_attr.is_syntax_error = true) :
    resolve_attribute api k scope item p = .returned RC.SQL_SYNTAX := by
  simp [resolve_attribute, hsyn]

/-- The select-list loop on the item `*`. -/
theorem resolve_attribute_star (api : ResolverApi) (k : Nat) (scope : Scope)
    (item : ExprSqlNode) (p : Projection) (hsyn : item.left_attr.is_syntax_error = false)
    (hblank : is_blank item.left_attr.relation_name = true)
    (hstar : item.left_attr.attribute_name = "*") :
    resolve_attribute api k scope item p =
      match wildcard_all scope.db scope.tables p.query_fields with
      | none => .undefined
      | some query_fields =>
        if item.left_attr.aggr_func_type ≠ AggrFuncType.NONE then
          if item.left_attr.aggr_func_type = AggrFuncType.CNT then
            .ok { p with
              query_fields := query_fields,
              aggr_query_fields := p.aggr_query_fields ++
                [{ aggr_func_type := AggrFuncType.CNT,
                   alias_name := if item.left_attr.has_alias then item.left_attr.alias_name
                     else "COUNT(*)" }],
              aggr_field_to_query_field_map :=
                assign_aggr_index (p.aggr_query_fields ++
                  [{ aggr_func_type := AggrFuncType.CNT,
                     alias_name := if item.left_attr.has_alias then item.left_attr.alias_name
                       else "COUNT(*)" }]) query_fields
                  p.aggr_field_to_query_field_map }
          else
            .returned RC.AGGR_FUNC_NOT_VALID
        else
          .ok { p with query_fields := query_fields } := by
  simp only [resolve_attribute, hsyn, hblank, hstar, and_self, if_true, Bool.false_eq_true,
    if_false]

/-- The select-list loop on an item `*.attr` or `*.*`. -/
theorem resolve_attribute_star_table (api : ResolverApi) (k : Nat) (scope : Scope)
    (item : ExprSqlNode) (p : Projection) (hsyn : item.left_attr.is_syntax_error = false)
    (hrel : item.left_attr.relation_name = "*") :
    resolve_attribute api k scope item p =
      if item.left_attr.attribute_name ≠ "*" then
        .returned RC.SCHEMA_FIELD_MISSING
      else
        match wildcard_all scope.db scope.tables p.query_fields with
        | none => .undefined
        | some query_fields =>
          if item.left_attr.aggr_func_type ≠ AggrFuncType.NONE then
            .returned RC.AGGR_FUNC_NOT_VALID
          else
            .ok { p with query_fields := query_fields } := by
  have hblank : is_blank "*" = false := by decide
  simp only [resolve_attribute, hsyn, hrel, hblank, Bool.false_eq_true, false_and, if_true,
    if_false]

/-- The select-list loop on an item `rel.attr` or `rel.*`. -/
theorem resolve_attribute_qualified (api : ResolverApi) (k : Nat) (scope : Scope)
    (item : ExprSqlNode) (p : Projection) (hsyn : item.left_attr.is_syntax_error = false)
    (hblank : is_blank item.left_attr.relation_name = false)
    (hrel : item.left_attr.relation_name ≠ "*") :
    resolve_attribute api k scope item p =
      match scope.table_map.find item.left_attr.relation_name with
      | none => .returned RC.SCHEMA_FIELD_MISSING
      | some table =>
        if item.left_attr.attribute_name = "*" then
          match wildcard_fields scope.db table p.query_fields with
          | none => .undefined
          | some query_fields =>
            if item.left_attr.aggr_func_type ≠ AggrFuncType.NONE then
              .returned RC.AGGR_FUNC_NOT_VALID
            else
              .ok { p with query_fields := query_fields }
        else
          match scope.db.tables[table]? with
          | none => .undefined
          | some t =>
            match t.table_meta.field item.left_attr.attribute_name with
            | none => .returned RC.SCHEMA_FIELD_MISSING
            | some field_meta => resolve_qualified api k item table t field_meta p := by
  simp only [resolve_attribute, hsyn, hblank, hrel, Bool.false_eq_true, false_and, if_true,
    if_false]

/-- The select-list loop on an item `attr` without a table name. -/
theorem resolve_attribute_unqualified (api : ResolverApi) (k : Nat) (scope : Scope)
    (item : ExprSqlNode) (p : Projection) (hsyn : item.left_attr.is_syntax_error = false)
    (hblank : is_blank item.left_attr.relation_name = true)
    (hcol : item.left_attr.attribute_name ≠ "*") :
    resolve_attribute api k scope item p =
      match scope.tables with
      | [table] =>
        match scope.db.tables[table]? with
        | none => .undefined
        | some t => resolve_unqualified api k item table t p
      | _ => .returned RC.SCHEMA_FIELD_MISSING := by
  simp only [resolve_attribute, hsyn, hblank, hcol, Bool.false_eq_true, and_false, if_true,
    if_false, Bool.true_eq_false]

/-- A select-list item that is not a wildcard and is resolved goes through one
of the two column branches. -/
theorem resolve_attribute_column_ok {api : ResolverApi} {k : Nat} {scope : Scope}
    {item : ExprSqlNode} {p p1 : Projection}
    (hcol : item.left_attr.attribute_name ≠ "*")
    (h : resolve_attribute api k scope item p = .ok p1) :
    ∃ f g, p1 = push_field k f g p ∨
      p1 = push_field k f g { p with
        local_attr_alias := p.local_attr_alias.insert item.left_attr.alias_name item,
        alias_to_select_attr := p.alias_to_select_attr.insert item.left_attr.alias_name item } := by
  cases hsyn : item.left_attr.is_syntax_error with
  | true => rw [resolve_attribute_syntax_error _ _ _ _ _ hsyn] at h; exact absurd h (by simp)
  | false =>
    cases hblank : is_blank item.left_attr.relation_name with
    | true =>
      rw [resolve_attribute_unqualified _ _ _ _ _ hsyn hblank hcol] at h
      split at h
      · split at h
        · exact absurd h (by simp)
        · exact resolve_unqualified_ok h
      · exact absurd h (by simp)
    | false =>
      by_cases hrel : item.left_attr.relation_name = "*"
      · rw [resolve_attribute_star_table _ _ _ _ _ hsyn hrel, if_pos hcol] at h
        exact absurd h (by simp)
      · rw [resolve_attribute_qualified _ _ _ _ _ hsyn hblank hrel] at h
        split at h
        · exact absurd h (by simp)
        · rw [if_neg hcol] at h
          split at h
          · exact absurd h (by simp)
          · split at h
            · exact absurd h (by simp)
            · exact resolve_qualified_ok h

/-- An alias recorded for the enclosing queries stays recorded when a
select-list item is resolved. -/
theorem resolve_attribute_keeps_alias {api : ResolverApi} {k : Nat} {scope : Scope}
    {item : ExprSqlNode} {p p1 : Projection} {key : String}
    (h : resolve_attribute api k scope item p = .ok p1)
    (hkey : p.alias_to_select_attr.count key > 0) :
    p1.alias_to_select_attr.count key > 0 := by
  by_cases hcol : item.left_attr.attribute_name = "*"
  · cases hsyn : item.left_attr.is_syntax_error with
    | true => rw [resolve_attribute_syntax_error _ _ _ _ _ hsyn] at h; exact absurd h (by simp)
    | false =>
      cases hblank : is_blank item.left_attr.relation_name with
      | true =>
        rw [resolve_attribute_star _ _ _ _ _ hsyn hblank hcol] at h
        split at h
        · exact absurd h (by simp)
        · split_ifs at h <;> cases h <;> exact hkey
      | false =>
        by_cases hrel : item.left_attr.relation_name = "*"
        · rw [resolve_attribute_star_table _ _ _ _ _ hsyn hrel, if_neg (not_not.mpr hcol)] at h
          split at h
          · exact absurd h (by simp)
          · split_ifs at h; cases h; exact hkey
        · rw [resolve_attribute_qualified _ _ _ _ _ hsyn hblank hrel] at h
          split at h
          · exact absurd h (by simp)
          · rw [if_pos hcol] at h
            split at h
            · exact absurd h (by simp)
            · split_ifs at h; cases h; exact hkey
  · obtain ⟨f, g, hp | hp⟩ := resolve_attribute_column_ok hcol h
    · rw [hp, push_field_alias_to_select_attr]; exact hkey
    · rw [hp, push_field_alias_to_select_attr]
      exact AliasMap.count_insert_of_pos _ _ _ _ hkey

/-- An alias recorded for the enclosing queries stays recorded through the
select-list loop. -/
theorem select_list_loop_keeps_alias {api : ResolverApi} {k : Nat} {scope : Scope}
    {key : String} (items : List ExprSqlNode) {p p1 : Projection}
    (h : select_list_loop api k scope items p = .ok p1)
    (hkey : p.alias_to_select_attr.count key > 0) :
    p1.alias_to_select_attr.count key > 0 := by
  unfold select_list_loop at h
  generalize items.reverse = l at h
  induction l generalizing p with
  | nil => cases h; exact hkey
  | cons item rest ih =>
    simp only [Resolved.loop] at h
    obtain ⟨p2, h2, h⟩ := Resolved.bind_eq_ok.mp h
    exact ih (resolve_attribute_keeps_alias h2 hkey) h

/-- With an aggregate in the select list and no wildcard item, the select-list
loop appends one field to `query_fields` and one to `aggr_query_fields` for
every item. -/
theorem select_list_loop_lengths {api : ResolverApi} {k : Nat} {scope : Scope}
    (items : List ExprSqlNode) {p p1 : Projection} (hk : k ≠ 0)
    (hcol : ∀ item ∈ items, item.left_attr.attribute_name ≠ "*")
    (h : select_list_loop api k scope items p = .ok p1) :
    p1.query_fields.length = p.query_fields.length + items.length ∧
      p1.aggr_query_fields.length = p.aggr_query_fields.length + items.length := by
  unfold select_list_loop at h
  have hcol1 : ∀ item ∈ items.reverse, item.left_attr.attribute_name ≠ "*" :=
    fun item hitem => hcol item (List.mem_reverse.mp hitem)
  rw [← List.length_reverse items]
  generalize items.reverse = l at h hcol1
  induction l generalizing p with
  | nil => cases h; simp
  | cons item rest ih =>
    simp only [Resolved.loop] at h
    obtain ⟨p2, h2, h⟩ := Resolved.bind_eq_ok.mp h
    have hrest := ih h (fun i hi => hcol1 i (List.mem_cons_of_mem _ hi))
    obtain ⟨f, g, hp | hp⟩ := resolve_attribute_column_ok (hcol1 item (List.mem_cons_self _ _)) h2
    all_goals
      rw [hp, push_field_query_fields, push_field_aggr_query_fields _ _ _ _ hk] at hrest
      simp only [List.length_append, List.length_cons, List.length_nil] at hrest ⊢
      omega

/-! ## SelectStmt::create: the FROM loop -/

theorem TableMap.count_pos_iff (m : TableMap) (key : String) :
    m.count key > 0 ↔ ∃ v, m.find key = some v := by
  unfold TableMap.count
  cases h : m.find key <;> simp

theorem TableMap.count_eq_zero_iff (m : TableMap) (key : String) :
    m.count key = 0 ↔ m.find key = none := by
  unfold TableMap.count
  cases h : m.find key <;> simp

/-- `insert` followed by `find`: a key that was bound keeps its binding, a key
that was not bound gets the new one. -/
theorem TableMap.find_insert (m : TableMap) (key key1 : String) (v1 : Nat) :
    (m.insert key1 v1).find key =
      match m.find key with
      | some v => some v
      | none => if key1 = key then some v1 else none := by
  unfold TableMap.insert
  by_cases hc : m.count key1 > 0
  · rw [if_pos hc]
    obtain ⟨w, hw⟩ := (TableMap.count_pos_iff _ _).mp hc
    cases hk : m.find key with
    | some v => rfl
    | none =>
      have hne : key1 ≠ key := by
        intro heq; subst heq; rw [hw] at hk; exact absurd hk (by simp)
      simp [hne]
  · rw [if_neg hc]
    have hnone : m.find key1 = none :=
      (TableMap.count_eq_zero_iff _ _).mp (Nat.eq_zero_of_not_pos hc)
    unfold TableMap.find at hnone ⊢
    simp only [List.find?_append]
    cases hk : List.find? (fun e => decide (e.1 = key)) m.entries with
    | some e => simp
    | none =>
      by_cases heq : key1 = key
      · simp [heq]
      · simp [heq]

theorem Db.find_table_lt {db : Db} {name : String} {table : Nat}
    (h : db.find_table name = some table) : table < db.tables.length := by
  unfold Db.find_table List.indexOf? at h
  obtain ⟨hlt, _⟩ := List.findIdx?_eq_some_iff_getElem.mp h
  simpa using hlt

theorem Db.set_alias_names (db : Db) (table : Nat) (alias_name : String) :
    (db.set_alias table alias_name).tables.map (fun t => t.name) =
      db.tables.map (fun t => t.name) := by
  unfold Db.set_alias
  cases h : db.tables[table]? with
  | none => rfl
  | some t =>
    simp only
    apply List.ext_getElem?
    intro i
    simp only [List.getElem?_map, List.getElem?_set]
    by_cases hi : table = i
    · subst hi
      simp only [if_true]
      split_ifs with hlt
      · simp [h]
      · have := List.getElem?_eq_none (Nat.le_of_not_lt hlt)
        rw [this] at h; exact absurd h (by simp)
    · simp [hi]

theorem Db.find_table_of_names {db db1 : Db}
    (h : db1.tables.map (fun t => t.name) = db.tables.map (fun t => t.name)) (name : String) :
    db1.find_table name = db.find_table name := by
  unfold Db.find_table; rw [h]

theorem Db.length_of_names {db db1 : Db}
    (h : db1.tables.map (fun t => t.name) = db.tables.map (fun t => t.name)) :
    db1.tables.length = db.tables.length := by
  have := congrArg List.length h
  simpa using this

/-- What one table name of a FROM entry does when it is accepted. -/
theorem add_from_table_ok {relation : RelationSqlNode} {table_name : String} {s s1 : Scope}
    (h : add_from_table relation table_name s = .ok s1) :
    ∃ table, s.db.find_table table_name = some table ∧
      s1.tables = s.tables ++ [table] ∧
      s1.db.tables.map (fun t => t.name) = s.db.tables.map (fun t => t.name) ∧
      s1.conditions = s.conditions ∧
      (relation.has_alias = true → s.local_table_map.count relation.alias_name = 0) ∧
      s1.local_table_map =
        (if relation.has_alias then
          (s.local_table_map.insert relation.alias_name table).insert table_name table
        else s.local_table_map.insert table_name table) ∧
      s1.table_map =
        (if relation.has_alias then
          (s.table_map.insert relation.alias_name table).insert table_name table
        else s.table_map.insert table_name table) := by
  unfold add_from_table at h
  cases hfind : s.db.find_table table_name with
  | none => rw [hfind] at h; exact absurd h (by simp)
  | some table =>
    rw [hfind] at h
    simp only at h
    refine ⟨table, rfl, ?_⟩
    cases halias : relation.has_alias with
    | true =>
      rw [halias] at h
      simp only [if_true] at h
      split_ifs at h with hc
      cases h
      exact ⟨rfl, Db.set_alias_names _ _ _, rfl, fun _ => Nat.eq_zero_of_not_pos hc, rfl, rfl⟩
    | false =>
      rw [halias] at h
      simp only [Bool.false_eq_true, if_false] at h
      cases h
      exact ⟨rfl, rfl, rfl, fun hf => absurd hf (by simp), rfl, rfl⟩

/-- When the table exists, one table name of a FROM entry is accepted or is
rejected for its alias. -/
theorem add_from_table_outcome (relation : RelationSqlNode) (table_name : String) (s : Scope)
    (hfind : (s.db.find_table table_name).isSome) :
    add_from_table relation table_name s = .returned RC.SQL_SYNTAX ∨
      ∃ s1, add_from_table relation table_name s = .ok s1 := by
  unfold add_from_table
  cases h : s.db.find_table table_name with
  | none => rw [h] at hfind; exact absurd hfind (by simp)
  | some table =>
    simp only
    split_ifs
    · exact Or.inl rfl
    · exact Or.inr ⟨_, rfl⟩
    · exact Or.inr ⟨_, rfl⟩

/-- An aliased FROM entry whose alias is taken is rejected at its first table
name, when that table exists. -/
theorem add_from_table_alias_taken (relation : RelationSqlNode) (table_name : String) (s : Scope)
    (hfind : (s.db.find_table table_name).isSome) (halias : relation.has_alias = true)
    (htaken : s.local_table_map.count relation.alias_name > 0) :
    add_from_table relation table_name s = .returned RC.SQL_SYNTAX := by
  unfold add_from_table
  cases h : s.db.find_table table_name with
  | none => rw [h] at hfind; exact absurd hfind (by simp)
  | some table => simp [halias, htaken]

theorem TableMap.find_insert_of_find {m : TableMap} {key : String} {v : Nat}
    (h : m.find key = some v) (key1 : String) (v1 : Nat) :
    (m.insert key1 v1).find key = some v := by
  rw [TableMap.find_insert, h]

theorem TableMap.find_insert_origin {m : TableMap} {key key1 : String} {v v1 : Nat}
    (h : (m.insert key1 v1).find key = some v) :
    m.find key = some v ∨ (key1 = key ∧ v1 = v) := by
  rw [TableMap.find_insert] at h
  cases hk : m.find key with
  | some w => rw [hk] at h; exact Or.inl h
  | none =>
    rw [hk] at h
    simp only at h
    split_ifs at h with heq
    exact Or.inr ⟨heq, Option.some.inj h⟩

theorem TableMap.find_insert_self {m : TableMap} {key : String} (v : Nat)
    (h : m.count key = 0) : (m.insert key v).find key = some v := by
  rw [TableMap.find_insert, (TableMap.count_eq_zero_iff _ _).mp h]
  simp

theorem TableMap.count_insert_self (m : TableMap) (key : String) (v : Nat) :
    (m.insert key v).count key > 0 := by
  rw [TableMap.count_pos_iff, TableMap.find_insert]
  cases m.find key with
  | some w => exact ⟨w, rfl⟩
  | none => exact ⟨v, by simp⟩

/-- The FROM loop written over the table names of the entry. -/
theorem from_relation_eq (relation : RelationSqlNode) (s : Scope) :
    from_relation relation s =
      (Resolved.loop (add_from_table relation) (table_names relation) s).bind (fun s1 =>
        .ok (if relation.has_inner_join = false then s1
          else { s1 with
            conditions := s1.conditions ++ relation.inner_join_sql_node.join_on_conditions })) := by
  unfold from_relation table_names
  cases hj : relation.has_inner_join with
  | false =>
    simp only [if_true, Resolved.loop]
    cases add_from_table relation relation.relation s <;> rfl
  | true => simp

/-- What the lookup of one table name keeps: the table names of the catalog,
the bindings of the local map and the validity of the handles in `tables`; and
where a binding of the local map comes from. -/
theorem add_from_table_keeps {relation : RelationSqlNode} {table_name : String} {s s1 : Scope}
    (h : add_from_table relation table_name s = .ok s1) :
    s1.db.tables.map (fun t => t.name) = s.db.tables.map (fun t => t.name) ∧
      (∀ key v, s.local_table_map.find key = some v → s1.local_table_map.find key = some v) ∧
      ((∀ t ∈ s.tables, t < s.db.tables.length) → ∀ t ∈ s1.tables, t < s1.db.tables.length) ∧
      (∀ key v, s1.local_table_map.find key = some v →
        s.local_table_map.find key = some v ∨
          (relation.has_alias = true ∧ relation.alias_name = key) ∨
          s.db.find_table key = some v) := by
  obtain ⟨table, hfind, htables, hnames, -, -, hlocal, -⟩ := add_from_table_ok h
  refine ⟨hnames, ?_, ?_, ?_⟩
  · intro key v hkey
    rw [hlocal]
    split_ifs
    · exact TableMap.find_insert_of_find (TableMap.find_insert_of_find hkey _ _) _ _
    · exact TableMap.find_insert_of_find hkey _ _
  · intro hvalid t ht
    rw [Db.length_of_names hnames]
    rw [htables] at ht
    rcases List.mem_append.mp ht with ht | ht
    · exact hvalid t ht
    · rw [List.mem_singleton] at ht
      subst ht
      exact Db.find_table_lt hfind
  · intro key v hkey
    rw [hlocal] at hkey
    split_ifs at hkey with halias
    · rcases TableMap.find_insert_origin hkey with hkey | ⟨hk, hv⟩
      · rcases TableMap.find_insert_origin hkey with hkey | ⟨hk, hv⟩
        · exact Or.inl hkey
        · exact Or.inr (Or.inl ⟨halias, hk⟩)
      · subst hk; subst hv; exact Or.inr (Or.inr hfind)
    · rcases TableMap.find_insert_origin hkey with hkey | ⟨hk, hv⟩
      · exact Or.inl hkey
      · subst hk; subst hv; exact Or.inr (Or.inr hfind)

/-- The same for all table names of one FROM entry. -/
theorem table_names_loop_keeps {relation : RelationSqlNode} (names : List String)
    {s s1 : Scope} (h : Resolved.loop (add_from_table relation) names s = .ok s1) :
    s1.db.tables.map (fun t => t.name) = s.db.tables.map (fun t => t.name) ∧
      (∀ key v, s.local_table_map.find key = some v → s1.local_table_map.find key = some v) ∧
      ((∀ t ∈ s.tables, t < s.db.tables.length) → ∀ t ∈ s1.tables, t < s1.db.tables.length) ∧
      (∀ key v, s1.local_table_map.find key = some v →
        s.local_table_map.find key = some v ∨
          (relation.has_alias = true ∧ relation.alias_name = key) ∨
          s.db.find_table key = some v) := by
  induction names generalizing s with
  | nil =>
    cases h
    exact ⟨rfl, fun _ _ hk => hk, fun hv => hv, fun _ _ hk => Or.inl hk⟩
  | cons name rest ih =>
    simp only [Resolved.loop] at h
    obtain ⟨s2, h2, h⟩ := Resolved.bind_eq_ok.mp h
    obtain ⟨n1, m1, v1, o1⟩ := add_from_table_keeps h2
    obtain ⟨n2, m2, v2, o2⟩ := ih h
    refine ⟨n2.trans n1, fun key v hk => m2 key v (m1 key v hk), fun hv => v2 (v1 hv), ?_⟩
    intro key v hk
    rcases o2 key v hk with hk | hk | hk
    · exact o1 key v hk
    · exact Or.inr (Or.inl hk)
    · rw [Db.find_table_of_names n1] at hk
      exact Or.inr (Or.inr hk)

/-- The same for one FROM entry. -/
theorem from_relation_keeps {relation : RelationSqlNode} {s s1 : Scope}
    (h : from_relation relation s = .ok s1) :
    s1.db.tables.map (fun t => t.name) = s.db.tables.map (fun t => t.name) ∧
      (∀ key v, s.local_table_map.find key = some v → s1.local_table_map.find key = some v) ∧
      ((∀ t ∈ s.tables, t < s.db.tables.length) → ∀ t ∈ s1.tables, t < s1.db.tables.length) ∧
      (∀ key v, s1.local_table_map.find key = some v →
        s.local_table_map.find key = some v ∨
          (relation.has_alias = true ∧ relation.alias_name = key) ∨
          s.db.find_table key = some v) := by
  rw [from_relation_eq] at h
  obtain ⟨s2, h2, h⟩ := Resolved.bind_eq_ok.mp h
  have hk := table_names_loop_keeps _ h2
  cases h
  split_ifs
  · exact hk
  · exact hk

/-- The same for a run of FROM entries. -/
theorem from_loop_keeps (relations : List RelationSqlNode) {s s1 : Scope}
    (h : Resolved.loop from_relation relations s = .ok s1) :
    s1.db.tables.map (fun t => t.name) = s.db.tables.map (fun t => t.name) ∧
      (∀ key v, s.local_table_map.find key = some v → s1.local_table_map.find key = some v) ∧
      ((∀ t ∈ s.tables, t < s.db.tables.length) → ∀ t ∈ s1.tables, t < s1.db.tables.length) ∧
      (∀ key v, s1.local_table_map.find key = some v →
        s.local_table_map.find key = some v ∨
          (∃ relation ∈ relations, relation.has_alias = true ∧ relation.alias_name = key) ∨
          s.db.find_table key = some v) := by
  induction relations generalizing s with
  | nil =>
    cases h
    exact ⟨rfl, fun _ _ hk => hk, fun hv => hv, fun _ _ hk => Or.inl hk⟩
  | cons relation rest ih =>
    simp only [Resolved.loop] at h
    obtain ⟨s2, h2, h⟩ := Resolved.bind_eq_ok.mp h
    obtain ⟨n1, m1, v1, o1⟩ := from_relation_keeps h2
    obtain ⟨n2, m2, v2, o2⟩ := ih h
    refine ⟨n2.trans n1, fun key v hk => m2 key v (m1 key v hk), fun hv => v2 (v1 hv), ?_⟩
    intro key v hk
    rcases o2 key v hk with hk | ⟨r, hr, hk⟩ | hk
    · rcases o1 key v hk with hk | hk | hk
      · exact Or.inl hk
      · exact Or.inr (Or.inl ⟨relation, List.mem_cons_self _ _, hk⟩)
      · exact Or.inr (Or.inr hk)
    · exact Or.inr (Or.inl ⟨r, List.mem_cons_of_mem _ hr, hk⟩)
    · rw [Db.find_table_of_names n1] at hk
      exact Or.inr (Or.inr hk)

/-- The handles that the FROM loop leaves in `tables` point to tables of the
catalog. -/
theorem from_stage_valid {db : Db} {select_sql : SelectSqlNode} {table_map : Option TableMap}
    {scope : Scope}
    (h : from_stage select_sql (initial_scope db select_sql table_map) = .ok scope) :
    ∀ t ∈ scope.tables, t < scope.db.tables.length := by
  obtain ⟨-, -, hv, -⟩ := from_loop_keeps _ h
  exact hv (fun t ht => absurd ht (by simp [initial_scope]))

/-- When its tables exist, a FROM entry is accepted or is rejected for its
alias. -/
theorem table_names_loop_outcome (relation : RelationSqlNode) (names : List String) (s : Scope)
    (hfind : ∀ name ∈ names, (s.db.find_table name).isSome) :
    Resolved.loop (add_from_table relation) names s = .returned RC.SQL_SYNTAX ∨
      ∃ s1, Resolved.loop (add_from_table relation) names s = .ok s1 := by
  induction names generalizing s with
  | nil => exact Or.inr ⟨s, rfl⟩
  | cons name rest ih =>
    simp only [Resolved.loop]
    rcases add_from_table_outcome relation name s (hfind name (List.mem_cons_self _ _)) with
      h | ⟨s2, h⟩
    · exact Or.inl (Resolved.bind_returned h)
    · rw [Resolved.bind_ok h]
      obtain ⟨n1, -, -, -⟩ := add_from_table_keeps h
      exact ih s2 (fun name1 h1 => by
        rw [Db.find_table_of_names n1]; exact hfind name1 (List.mem_cons_of_mem _ h1))

theorem from_relation_outcome (relation : RelationSqlNode) (s : Scope)
    (hfind : ∀ name ∈ table_names relation, (s.db.find_table name).isSome) :
    from_relation relation s = .returned RC.SQL_SYNTAX ∨
      ∃ s1, from_relation relation s = .ok s1 := by
  rw [from_relation_eq]
  rcases table_names_loop_outcome relation _ s hfind with h | ⟨s1, h⟩
  · exact Or.inl (Resolved.bind_returned h)
  · rw [Resolved.bind_ok h]; exact Or.inr ⟨_, rfl⟩

theorem from_loop_outcome (relations : List RelationSqlNode) (s : Scope)
    (hfind : ∀ relation ∈ relations, ∀ name ∈ table_names relation,
      (s.db.find_table name).isSome) :
    Resolved.loop from_relation relations s = .returned RC.SQL_SYNTAX ∨
      ∃ s1, Resolved.loop from_relation relations s = .ok s1 := by
  induction relations generalizing s with
  | nil => exact Or.inr ⟨s, rfl⟩
  | cons relation rest ih =>
    simp only [Resolved.loop]
    rcases from_relation_outcome relation s (hfind relation (List.mem_cons_self _ _)) with
      h | ⟨s2, h⟩
    · exact Or.inl (Resolved.bind_returned h)
    · rw [Resolved.bind_ok h]
      obtain ⟨n1, -, -, -⟩ := from_relation_keeps h
      exact ih s2 (fun r hr name hname => by
        rw [Db.find_table_of_names n1]; exact hfind r (List.mem_cons_of_mem _ hr) name hname)

/-- An accepted FROM entry with an alias and a table has its alias in the
local map. -/
theorem from_relation_registers_alias {relation : RelationSqlNode} {s s1 : Scope}
    (h : from_relation relation s = .ok s1) (halias : relation.has_alias = true)
    (hnames : table_names relation ≠ []) :
    s1.local_table_map.count relation.alias_name > 0 := by
  rw [from_relation_eq] at h
  obtain ⟨s2, h2, h⟩ := Resolved.bind_eq_ok.mp h
  have hlocal : s1.local_table_map = s2.local_table_map := by
    cases h; split_ifs <;> rfl
  rw [hlocal]
  cases hn : table_names relation with
  | nil => exact absurd hn hnames
  | cons name rest =>
    rw [hn] at h2
    simp only [Resolved.loop] at h2
    obtain ⟨s3, h3, h2⟩ := Resolved.bind_eq_ok.mp h2
    obtain ⟨table, -, -, -, -, hfree, hl, -⟩ := add_from_table_ok h3
    obtain ⟨-, mono, -, -⟩ := table_names_loop_keeps _ h2
    rw [if_pos halias] at hl
    rw [TableMap.count_pos_iff]
    refine ⟨table, mono _ _ ?_⟩
    rw [hl]
    exact TableMap.find_insert_of_find (TableMap.find_insert_self _ (hfree halias)) _ _

/-- A code returned by the FROM loop is the code that `create` returns. -/
theorem create_returns_from_stage {api : ResolverApi} {db : Db} {select_sql : SelectSqlNode}
    {is_sub_select : Bool} {table_map : Option TableMap} {alias_to_select_attr : Option AliasMap}
    {rc : RC}
    (h : from_stage select_sql (initial_scope db select_sql table_map) = .returned rc) :
    SelectStmt.create api (some db) select_sql is_sub_select table_map alias_to_select_attr =
      .returned rc := by
  simp only [SelectStmt.create]
  exact Resolved.bind_returned h

/-- Claim C26, counterexample. In `FROM u AS t, t AS x` both entries are
accepted, yet the second relation, the table `t` (handle 0), is not registered
under its real name: the local scope table keeps `t` bound to the table `u`
(handle 1), which took the name as its alias. -/
theorem from_real_name_taken_by_alias :
    ∃ s, from_stage
        { relations := [{ relation := "u", has_alias := true, alias_name := "t" },
                        { relation := "t", has_alias := true, alias_name := "x" }] }
        (initial_scope example_db {} none) = .ok s ∧
      example_db.find_table "t" = some 0 ∧
      s.local_table_map.find "x" = some 0 ∧
      s.local_table_map.find "t" = some 1 :=
  ⟨_, rfl, by decide, by decide, by decide⟩

/-- Claim C26, amended. (1) When two entries of a FROM clause carry the same
alias, each names at least one table and the tables named up to the second of
them exist, `SelectStmt::create` returns `SQL_SYNTAX`. (2) When the FROM loop
accepts the clause, a plain aliased entry has its alias bound to its table in
the local scope table; its real name is a key of that table, and is bound to
its table unless an earlier entry has that name as its alias. -/
theorem from_alias_rule (api : ResolverApi) (db : Db) (select_sql : SelectSqlNode)
    (is_sub_select : Bool) (table_map : Option TableMap)
    (alias_to_select_attr : Option AliasMap) :
    (∀ (pre : List RelationSqlNode) (a : RelationSqlNode) (mid : List RelationSqlNode)
        (b : RelationSqlNode) (post : List RelationSqlNode),
      select_sql.relations = (pre ++ a :: mid) ++ b :: post →
      a.has_alias = true → b.has_alias = true → b.alias_name = a.alias_name →
      table_names a ≠ [] → table_names b ≠ [] →
      (∀ relation ∈ (pre ++ a :: mid) ++ [b], ∀ name ∈ table_names relation,
        (db.find_table name).isSome) →
      SelectStmt.create api (some db) select_sql is_sub_select table_map alias_to_select_attr =
        .returned RC.SQL_SYNTAX) ∧
    (∀ (pre : List RelationSqlNode) (a : RelationSqlNode) (post : List RelationSqlNode)
        (s : Scope),
      select_sql.relations = pre ++ a :: post →
      a.has_inner_join = false → a.has_alias = true →
      from_stage select_sql (initial_scope db select_sql table_map) = .ok s →
      ∃ table, db.find_table a.relation = some table ∧
        s.local_table_map.find a.alias_name = some table ∧
        s.local_table_map.count a.relation > 0 ∧
        ((∀ relation ∈ pre, relation.has_alias = true → relation.alias_name ≠ a.relation) →
          s.local_table_map.find a.relation = some table)) := by
  constructor
  · intro pre a mid b post hrel ha hb hab hna hnb hfind
    apply create_returns_from_stage
    unfold from_stage
    rw [hrel, Resolved.loop_append]
    have hfind1 : ∀ relation ∈ pre ++ a :: mid, ∀ name ∈ table_names relation,
        ((initial_scope db select_sql table_map).db.find_table name).isSome :=
      fun r hr name hname => hfind r (List.mem_append_left _ hr) name hname
    rcases from_loop_outcome (pre ++ a :: mid) _ hfind1 with h | ⟨s3, h⟩
    · exact Resolved.bind_returned h
    · rw [Resolved.bind_ok h]
      have h3 := h
      rw [Resolved.loop_append] at h3
      obtain ⟨s1, hs1, h3⟩ := Resolved.bind_eq_ok.mp h3
      simp only [Resolved.loop] at h3
      obtain ⟨s2, hs2, h3⟩ := Resolved.bind_eq_ok.mp h3
      have hreg := from_relation_registers_alias hs2 ha hna
      obtain ⟨v, hv⟩ := (TableMap.count_pos_iff _ _).mp hreg
      obtain ⟨-, mono, -, -⟩ := from_loop_keeps _ h3
      obtain ⟨names, -, -, -⟩ := from_loop_keeps _ h
      have htaken : s3.local_table_map.count b.alias_name > 0 := by
        rw [hab]; exact (TableMap.count_pos_iff _ _).mpr ⟨v, mono _ _ hv⟩
      simp only [Resolved.loop]
      apply Resolved.bind_returned
      rw [from_relation_eq]
      apply Resolved.bind_returned
      cases hn : table_names b with
      | nil => exact absurd hn hnb
      | cons name rest =>
        simp only [Resolved.loop]
        apply Resolved.bind_returned
        apply add_from_table_alias_taken _ _ _ _ hb htaken
        rw [Db.find_table_of_names names]
        exact hfind b (List.mem_append_right _ (List.mem_singleton_self b)) name
          (by rw [hn]; exact List.mem_cons_self _ _)
  · intro pre a post s hrel hplain ha hs
    unfold from_stage at hs
    rw [hrel] at hs
    have hs0 := hs
    rw [show pre ++ a :: post = (pre ++ [a]) ++ post by simp, Resolved.loop_append] at hs0
    obtain ⟨s2, hs2, hpost⟩ := Resolved.bind_eq_ok.mp hs0
    have hs2a := hs2
    rw [Resolved.loop_append] at hs2a
    obtain ⟨s1, hs1, hs2a⟩ := Resolved.bind_eq_ok.mp hs2a
    simp only [Resolved.loop] at hs2a
    obtain ⟨s2a, ha2, hs2a⟩ := Resolved.bind_eq_ok.mp hs2a
    cases hs2a
    obtain ⟨names1, -, -, -⟩ := from_loop_keeps _ hs1
    obtain ⟨-, -, -, origin⟩ := from_loop_keeps _ hs2
    obtain ⟨-, mono, -, -⟩ := from_loop_keeps _ hpost
    have hadd : add_from_table a a.relation s1 = .ok s2 := by
      unfold from_relation at ha2
      rw [if_pos hplain] at ha2
      exact ha2
    obtain ⟨table, hfind, -, -, -, hfree, hl, -⟩ := add_from_table_ok hadd
    rw [if_pos ha] at hl
    rw [Db.find_table_of_names names1] at hfind
    have hfind0 : db.find_table a.relation = some table := hfind
    have halias2 : s2.local_table_map.find a.alias_name = some table := by
      rw [hl]
      exact TableMap.find_insert_of_find (TableMap.find_insert_self _ (hfree ha)) _ _
    have hname2 : s2.local_table_map.count a.relation > 0 := by
      rw [hl]; exact TableMap.count_insert_self _ _ _
    refine ⟨table, hfind0, mono _ _ halias2, ?_, ?_⟩
    · obtain ⟨v, hv⟩ := (TableMap.count_pos_iff _ _).mp hname2
      exact (TableMap.count_pos_iff _ _).mpr ⟨v, mono _ _ hv⟩
    · intro hpre
      obtain ⟨v, hv⟩ := (TableMap.count_pos_iff _ _).mp hname2
      rcases origin _ _ hv with h0 | ⟨r, hr, hralias, hrname⟩ | h0
      · exact absurd h0 (by simp [initial_scope, TableMap.find])
      · rcases List.mem_append.mp hr with hr | hr
        · exact absurd hrname (hpre r hr hralias)
        · rw [List.mem_singleton] at hr
          subst hr
          rw [hrname] at halias2
          exact mono _ _ halias2
      · have hvt : v = table := by
          have h1 : db.find_table a.relation = some v := h0
          rw [hfind0] at h1
          exact (Option.some.inj h1).symm
        subst hvt
        exact mono _ _ hv

/-- Claim C26, worked example of the amended rule: `FROM t AS x, u AS x` is
rejected with `SQL_SYNTAX`, and `FROM t AS x` is accepted with the table `t`
bound to `x` and to `t` in the local scope table. -/
theorem from_alias_rule_witness :
    SelectStmt.create example_resolver (some example_db)
        { relations := [{ relation := "t", has_alias := true, alias_name := "x" },
                        { relation := "u", has_alias := true, alias_name := "x" }] }
        false none none = .returned RC.SQL_SYNTAX ∧
      ∃ s table,
        from_stage { relations := [{ relation := "t", has_alias := true, alias_name := "x" }] }
          (initial_scope example_db {} none) = .ok s ∧
        example_db.find_table "t" = some table ∧
        s.local_table_map.find "x" = some table ∧
        s.local_table_map.find "t" = some table := by
  refine ⟨(from_alias_rule example_resolver example_db
      { relations := [{ relation := "t", has_alias := true, alias_name := "x" },
                      { relation := "u", has_alias := true, alias_name := "x" }] }
      false none none).1 [] _ [] _ [] rfl rfl rfl rfl (by decide) (by decide) (by decide), ?_⟩
  obtain ⟨table, h1, h2, -, h4⟩ := (from_alias_rule example_resolver example_db
      { relations := [{ relation := "t", has_alias := true, alias_name := "x" }] }
      false none none).2 [] _ [] _ rfl rfl rfl rfl
  exact ⟨_, table, rfl, h1, h2, h4 (fun _ h => absurd h (List.not_mem_nil _))⟩

/-! ## SelectStmt::create: wildcards -/

theorem range_filterMap_drop {α : Type} (l : List α) (s : Nat) :
    (List.range l.length).filterMap (fun i => if s ≤ i then l[i]? else none) = l.drop s := by
  induction l using List.reverseRecOn with
  | nil => simp
  | append_singleton l a ih =>
    rw [List.length_append, List.length_singleton, List.range_succ, List.filterMap_append]
    have hpre : (List.range l.length).filterMap
          (fun i => if s ≤ i then (l ++ [a])[i]? else none) =
        (List.range l.length).filterMap (fun i => if s ≤ i then l[i]? else none) := by
      apply List.filterMap_congr
      intro i hi
      rw [List.mem_range] at hi
      rw [List.getElem?_append_left hi]
    rw [hpre, ih]
    by_cases hs : s ≤ l.length
    · rw [List.drop_append_of_le_length hs]
      simp [hs]
    · have hlt : l.length < s := Nat.lt_of_not_le hs
      rw [List.drop_eq_nil_of_le (Nat.le_of_lt hlt)]
      rw [List.drop_eq_nil_of_le (by simp; omega)]
      simp [hs]

theorem non_system_columns_eq_drop (table_meta : TableMeta) :
    table_meta.non_system_columns = table_meta.fields.drop table_meta.sys_field_num := by
  unfold TableMeta.non_system_columns TableMeta.field_num
  exact range_filterMap_drop _ _

/-- One call of `wildcard_fields` on a handle of the catalog. -/
theorem wildcard_fields_eq (db : Db) (table : Nat) (field_metas : List Field)
    (hvalid : table < db.tables.length) :
    ∃ fields, wildcard_fields db table field_metas = some (field_metas ++ fields) ∧
      fields.map (fun f => (f.table, f.field)) =
        (db.table_meta table).non_system_columns.map (fun c => (some table, some c)) ∧
      fields.length = (db.table_meta table).field_num - (db.table_meta table).sys_field_num := by
  unfold wildcard_fields Db.table_meta
  rw [List.getElem?_eq_getElem hvalid]
  refine ⟨_, rfl, ?_, ?_⟩
  · rw [non_system_columns_eq_drop, List.map_map]
    apply List.map_congr_left
    intro c _
    simp only [Function.comp]
    split_ifs <;> rfl
  · simp [TableMeta.field_num]

/-- The loop of `wildcard_fields` over handles of the catalog. -/
theorem wildcard_all_eq (db : Db) (tables : List Nat) (field_metas : List Field)
    (hvalid : ∀ t ∈ tables, t < db.tables.length) :
    ∃ fields, wildcard_all db tables field_metas = some (field_metas ++ fields) ∧
      fields.map (fun f => (f.table, f.field)) =
        tables.flatMap (fun t =>
          (db.table_meta t).non_system_columns.map (fun c => (some t, some c))) ∧
      fields.length =
        (tables.map (fun t => (db.table_meta t).field_num - (db.table_meta t).sys_field_num)).sum := by
  induction tables generalizing field_metas with
  | nil => exact ⟨[], by simp [wildcard_all], rfl, rfl⟩
  | cons t rest ih =>
    obtain ⟨f1, h1, m1, l1⟩ := wildcard_fields_eq db t field_metas (hvalid t (List.mem_cons_self _ _))
    obtain ⟨f2, h2, m2, l2⟩ := ih (field_metas ++ f1) (fun u hu => hvalid u (List.mem_cons_of_mem _ hu))
    refine ⟨f1 ++ f2, ?_, ?_, ?_⟩
    · simp only [wildcard_all, h1, h2, List.append_assoc]
    · rw [List.map_append, m1, m2, List.flatMap_cons]
    · rw [List.length_append, l1, l2, List.map_cons, List.sum_cons]

/-- A code returned at a select-list item that the loop reaches is the code
that `create` returns. -/
theorem create_returns_at_item {api : ResolverApi} {db : Db} {select_sql : SelectSqlNode}
    {is_sub_select : Bool} {table_map : Option TableMap} {alias_to_select_attr : Option AliasMap}
    {before after : List ExprSqlNode} {item : ExprSqlNode} {scope : Scope}
    {group_by_fields : List Field} {p : Projection} {rc : RC}
    (hreach : reaches_item api db select_sql table_map alias_to_select_attr before item after
      scope group_by_fields p)
    (hitem : resolve_attribute api (aggr_func_count select_sql.attributes) scope item p =
      .returned rc) :
    SelectStmt.create api (some db) select_sql is_sub_select table_map alias_to_select_attr =
      .returned rc := by
  obtain ⟨hattrs, hfrom, hgb, hmix, hafter⟩ := hreach
  simp only [SelectStmt.create]
  rw [Resolved.bind_ok hfrom, Resolved.bind_ok hgb]
  simp only [create_from_select_list, create_after_mixing_rule]
  rw [hmix]
  simp only
  apply Resolved.bind_returned
  have hsplit := select_list_loop_split api (aggr_func_count select_sql.attributes) scope
    before after item { alias_to_select_attr := alias_to_select_attr.getD {} }
  rw [← hattrs] at hsplit
  rw [hsplit, Resolved.bind_ok hafter]
  exact Resolved.bind_returned hitem

/-- Claim C23. A select-list item `*` without aggregate appends to
`query_fields` exactly the non-system columns of the tables in `tables`, table
after table in the order of `tables` and in metadata order within a table,
`Σ (field_num − sys_field_num)` fields in all; an item `tbl.*` without
aggregate appends exactly the non-system columns of the table that the scope
map binds to `tbl`. The handles are handles of the catalog, as they are after
the FROM loop. -/
theorem wildcard_appends_non_system_columns (api : ResolverApi) (k : Nat) (scope : Scope)
    (item : ExprSqlNode) (p : Projection)
    (hsyn : item.left_attr.is_syntax_error = false)
    (hstar : item.left_attr.attribute_name = "*")
    (hnone : item.left_attr.aggr_func_type = AggrFuncType.NONE) :
    (is_blank item.left_attr.relation_name = true →
      (∀ t ∈ scope.tables, t < scope.db.tables.length) →
      ∃ fields,
        resolve_attribute api k scope item p =
          .ok { p with query_fields := p.query_fields ++ fields } ∧
        fields.map (fun f => (f.table, f.field)) =
          scope.tables.flatMap (fun t =>
            (scope.db.table_meta t).non_system_columns.map (fun c => (some t, some c))) ∧
        fields.length =
          (scope.tables.map (fun t =>
            (scope.db.table_meta t).field_num - (scope.db.table_meta t).sys_field_num)).sum) ∧
    (∀ table, is_blank item.left_attr.relation_name = false →
      item.left_attr.relation_name ≠ "*" →
      scope.table_map.find item.left_attr.relation_name = some table →
      table < scope.db.tables.length →
      ∃ fields,
        resolve_attribute api k scope item p =
          .ok { p with query_fields := p.query_fields ++ fields } ∧
        fields.map (fun f => (f.table, f.field)) =
          (scope.db.table_meta table).non_system_columns.map (fun c => (some table, some c)) ∧
        fields.length =
          (scope.db.table_meta table).field_num - (scope.db.table_meta table).sys_field_num) := by
  constructor
  · intro hblank hvalid
    obtain ⟨fields, hw, hm, hl⟩ := wildcard_all_eq scope.db scope.tables p.query_fields hvalid
    refine ⟨fields, ?_, hm, hl⟩
    rw [resolve_attribute_star _ _ _ _ _ hsyn hblank hstar, hw]
    simp [hnone]
  · intro table hblank hrel hfind hvalid
    obtain ⟨fields, hw, hm, hl⟩ := wildcard_fields_eq scope.db table p.query_fields hvalid
    refine ⟨fields, ?_, hm, hl⟩
    rw [resolve_attribute_qualified _ _ _ _ _ hsyn hblank hrel, hfind]
    simp [hstar, hw, hnone]

/-- Claim C23, worked example: over `FROM t, u` of the example catalog, `*`
appends the columns `a`, `b` of `t` and `a`, `c` of `u`, and `u.*` appends the
columns `a`, `c` of `u`; the system column in front of each table is left
out. -/
theorem wildcard_appends_non_system_columns_witness :
    (∃ fields,
      resolve_attribute example_resolver 0
          { db := example_db, tables := [0, 1],
            table_map := { entries := [("t", 0), ("u", 1)] } }
          { left_attr := { attribute_name := "*" } } {} =
        .ok { query_fields := [] ++ fields } ∧
      fields.map (fun f => (f.table, f.field)) =
        [(some 0, some { name := "a" }), (some 0, some { name := "b" }),
         (some 1, some { name := "a" }), (some 1, some { name := "c" })]) ∧
    (∃ fields,
      resolve_attribute example_resolver 0
          { db := example_db, tables := [0, 1],
            table_map := { entries := [("t", 0), ("u", 1)] } }
          { left_attr := { relation_name := "u", attribute_name := "*" } } {} =
        .ok { query_fields := [] ++ fields } ∧
      fields.map (fun f => (f.table, f.field)) =
        [(some 1, some { name := "a" }), (some 1, some { name := "c" })]) := by
  constructor
  · obtain ⟨fields, h1, h2, -⟩ := (wildcard_appends_non_system_columns example_resolver 0
      { db := example_db, tables := [0, 1], table_map := { entries := [("t", 0), ("u", 1)] } }
      { left_attr := { attribute_name := "*" } } {} rfl rfl rfl).1 (by decide) (by decide)
    exact ⟨fields, h1, h2.trans (by decide)⟩
  · obtain ⟨fields, h1, h2, -⟩ := (wildcard_appends_non_system_columns example_resolver 0
      { db := example_db, tables := [0, 1], table_map := { entries := [("t", 0), ("u", 1)] } }
      { left_attr := { relation_name := "u", attribute_name := "*" } } {} rfl rfl rfl).2 1
      (by decide) (by decide) (by decide) (by decide)
    exact ⟨fields, h1, h2.trans (by decide)⟩

/-- Claim C24. When the select-list loop of `SelectStmt::create` reaches an
item that wraps `*` in an aggregate: for `COUNT` the item is accepted and
appends one field, tagged `COUNT`, to `aggr_query_fields`; for `SUM`, `AVG`,
`MIN` or `MAX`, `create` returns `AGGR_FUNC_NOT_VALID`. -/
theorem count_is_the_only_aggregate_over_star (api : ResolverApi) (db : Db)
    (select_sql : SelectSqlNode) (is_sub_select : Bool) (table_map : Option TableMap)
    (alias_to_select_attr : Option AliasMap) (before after : List ExprSqlNode)
    (item : ExprSqlNode) (scope : Scope) (group_by_fields : List Field) (p : Projection)
    (hreach : reaches_item api db select_sql table_map alias_to_select_attr before item after
      scope group_by_fields p)
    (hsyn : item.left_attr.is_syntax_error = false)
    (hblank : is_blank item.left_attr.relation_name = true)
    (hstar : item.left_attr.attribute_name = "*") :
    (item.left_attr.aggr_func_type = AggrFuncType.CNT →
      ∃ p1 count_field,
        resolve_attribute api (aggr_func_count select_sql.attributes) scope item p = .ok p1 ∧
        p1.aggr_query_fields = p.aggr_query_fields ++ [count_field] ∧
        count_field.aggr_func_type = AggrFuncType.CNT) ∧
    (item.left_attr.aggr_func_type ∈
        [AggrFuncType.SUM, AggrFuncType.AVG, AggrFuncType.MIN, AggrFuncType.MAX] →
      SelectStmt.create api (some db) select_sql is_sub_select table_map alias_to_select_attr =
        .returned RC.AGGR_FUNC_NOT_VALID) := by
  obtain ⟨fields, hw, -, -⟩ :=
    wildcard_all_eq scope.db scope.tables p.query_fields (from_stage_valid hreach.2.1)
  constructor
  · intro hcnt
    rw [resolve_attribute_star _ _ _ _ _ hsyn hblank hstar, hw]
    simp only [hcnt, ne_eq, reduceCtorEq, not_false_eq_true, if_true]
    exact ⟨_, _, rfl, rfl, rfl⟩
  · intro haggr
    apply create_returns_at_item hreach
    rw [resolve_attribute_star _ _ _ _ _ hsyn hblank hstar, hw]
    simp only [List.mem_cons, List.mem_singleton, List.not_mem_nil, or_false] at haggr
    rcases haggr with h | h | h | h <;> simp [h]

/-- Claim C24, worked example: `SELECT COUNT(*) FROM t` gets one aggregate
field tagged `COUNT`, and `SELECT SUM(*) FROM t` is rejected with
`AGGR_FUNC_NOT_VALID`. -/
theorem count_is_the_only_aggregate_over_star_witness :
    (∃ p1 count_field,
      resolve_attribute example_resolver 1
          { db := example_db, tables := [0], table_map := { entries := [("t", 0)] },
            local_table_map := { entries := [("t", 0)] } }
          { type := ExpressType.ATTR_T,
            left_attr := { attribute_name := "*", aggr_func_type := AggrFuncType.CNT } } {} =
        .ok p1 ∧
      p1.aggr_query_fields = [] ++ [count_field] ∧
      count_field.aggr_func_type = AggrFuncType.CNT) ∧
    SelectStmt.create example_resolver (some example_db)
        { relations := [{ relation := "t" }],
          attributes :=
            [{ type := ExpressType.ATTR_T,
               left_attr := { attribute_name := "*", aggr_func_type := AggrFuncType.SUM } }] }
        false none none = .returned RC.AGGR_FUNC_NOT_VALID :=
  ⟨(count_is_the_only_aggregate_over_star example_resolver example_db
      { relations := [{ relation := "t" }],
        attributes :=
          [{ type := ExpressType.ATTR_T,
             left_attr := { attribute_name := "*", aggr_func_type := AggrFuncType.CNT } }] }
      false none none [] [] _ _ _ _ ⟨rfl, rfl, rfl, rfl, rfl⟩ rfl rfl rfl).1 rfl,
   (count_is_the_only_aggregate_over_star example_resolver example_db
      { relations := [{ relation := "t" }],
        attributes :=
          [{ type := ExpressType.ATTR_T,
             left_attr := { attribute_name := "*", aggr_func_type := AggrFuncType.SUM } }] }
      false none none [] [] _ _ _ _ ⟨rfl, rfl, rfl, rfl, rfl⟩ rfl rfl rfl).2 (by decide)⟩

/-- Claim C25. When the select-list loop of `SelectStmt::create` reaches an
unqualified column `col`: if `tables` does not hold exactly one table, `create`
returns `SCHEMA_FIELD_MISSING`; if it holds exactly one table, that table has no
column `col` and the item is not a constant, `create` returns
`SCHEMA_FIELD_MISSING` as well. -/
theorem unqualified_column_needs_one_table (api : ResolverApi) (db : Db)
    (select_sql : SelectSqlNode) (is_sub_select : Bool) (table_map : Option TableMap)
    (alias_to_select_attr : Option AliasMap) (before after : List ExprSqlNode)
    (item : ExprSqlNode) (scope : Scope) (group_by_fields : List Field) (p : Projection)
    (hreach : reaches_item api db select_sql table_map alias_to_select_attr before item after
      scope group_by_fields p)
    (hsyn : item.left_attr.is_syntax_error = false)
    (hblank : is_blank item.left_attr.relation_name = true)
    (hcol : item.left_attr.attribute_name ≠ "*") :
    (scope.tables.length ≠ 1 →
      SelectStmt.create api (some db) select_sql is_sub_select table_map alias_to_select_attr =
        .returned RC.SCHEMA_FIELD_MISSING) ∧
    (∀ table, scope.tables = [table] →
      (scope.db.table_meta table).field item.left_attr.attribute_name = none →
      item.left_attr.is_constant_value = false →
      SelectStmt.create api (some db) select_sql is_sub_select table_map alias_to_select_attr =
        .returned RC.SCHEMA_FIELD_MISSING) := by
  constructor
  · intro hlen
    apply create_returns_at_item hreach
    rw [resolve_attribute_unqualified _ _ _ _ _ hsyn hblank hcol]
    split
    · rename_i table htables
      rw [htables] at hlen
      exact absurd rfl hlen
    · rfl
  · intro table htables hfield hconst
    apply create_returns_at_item hreach
    have hvalid : table < scope.db.tables.length :=
      from_stage_valid hreach.2.1 table (by rw [htables]; exact List.mem_singleton_self _)
    rw [resolve_attribute_unqualified _ _ _ _ _ hsyn hblank hcol, htables]
    simp only [List.getElem?_eq_getElem hvalid]
    unfold Db.table_meta at hfield
    rw [List.getElem?_eq_getElem hvalid] at hfield
    simp only at hfield
    simp [resolve_unqualified, hfield, hconst]

/-- Claim C25, worked example: `SELECT a FROM t, u` and `SELECT c FROM t` are
rejected with `SCHEMA_FIELD_MISSING`. -/
theorem unqualified_column_needs_one_table_witness :
    SelectStmt.create example_resolver (some example_db)
        { relations := [{ relation := "t" }, { relation := "u" }],
          attributes := [{ type := ExpressType.ATTR_T, left_attr := { attribute_name := "a" } }] }
        false none none = .returned RC.SCHEMA_FIELD_MISSING ∧
    SelectStmt.create example_resolver (some example_db)
        { relations := [{ relation := "t" }],
          attributes := [{ type := ExpressType.ATTR_T, left_attr := { attribute_name := "c" } }] }
        false none none = .returned RC.SCHEMA_FIELD_MISSING :=
  ⟨(unqualified_column_needs_one_table example_resolver example_db
      { relations := [{ relation := "t" }, { relation := "u" }],
        attributes := [{ type := ExpressType.ATTR_T, left_attr := { attribute_name := "a" } }] }
      false none none [] [] _ _ _ _ ⟨rfl, rfl, rfl, rfl, rfl⟩ rfl rfl (by decide)).1 (by decide),
   (unqualified_column_needs_one_table example_resolver example_db
      { relations := [{ relation := "t" }],
        attributes := [{ type := ExpressType.ATTR_T, left_attr := { attribute_name := "c" } }] }
      false none none [] [] _ _ _ _ ⟨rfl, rfl, rfl, rfl, rfl⟩ rfl rfl (by decide)).2 0 rfl
      (by decide) rfl⟩

/-! ## SelectStmt::create: the conditions of a sub-select -/

/-- One operand that is not named like a recorded alias and whose outer table,
if any, is bound: its outer table is appended to `tables`. -/
theorem outer_reference_accepts (aliases : AliasMap) (scope : Scope) (tables : List Nat)
    (type : ExpressType) (attr : RelAttrSqlNode)
    (halias : ¬ names_alias aliases type attr) (hbound : operand_bound scope type attr) :
    outer_reference aliases type attr { scope with tables := tables } =
      .ok { scope with tables := tables ++ outer_table_of scope type attr } := by
  unfold outer_reference outer_table_of
  by_cases htype : type = ExpressType.ATTR_T
  · have hcount : ¬ aliases.count attr.attribute_name > 0 := fun h => halias ⟨htype, h⟩
    rw [if_pos htype, if_neg hcount]
    by_cases houter : attr.relation_name ≠ "" ∧ scope.local_table_map.count attr.relation_name = 0
    · have hfind := hbound ⟨htype, houter⟩
      rw [if_pos houter, if_pos (show is_outer_reference scope type attr from ⟨htype, houter⟩)]
      cases h : scope.table_map.find attr.relation_name with
      | none => rw [h] at hfind; exact absurd hfind (by simp)
      | some t => rfl
    · rw [if_neg houter, if_neg (show ¬ is_outer_reference scope type attr from
        fun h => houter h.2)]
      simp
  · rw [if_neg htype, if_neg (show ¬ is_outer_reference scope type attr from
      fun h => htype h.1)]
    simp

/-- One operand named like a recorded alias is rejected. -/
theorem outer_reference_rejects (aliases : AliasMap) (s : Scope)
    (type : ExpressType) (attr : RelAttrSqlNode) (halias : names_alias aliases type attr) :
    outer_reference aliases type attr s = .returned RC.SQL_SYNTAX := by
  unfold outer_reference
  rw [if_pos halias.1, if_pos halias.2]

/-- An accepted operand had its outer table, if any, appended to `tables`. -/
theorem outer_reference_ok {aliases : AliasMap} {scope : Scope} {tables : List Nat}
    {type : ExpressType} {attr : RelAttrSqlNode} {s1 : Scope}
    (h : outer_reference aliases type attr { scope with tables := tables } = .ok s1) :
    s1 = { scope with tables := tables ++ outer_table_of scope type attr } := by
  by_cases halias : names_alias aliases type attr
  · rw [outer_reference_rejects _ _ _ _ halias] at h; exact absurd h (by simp)
  · by_cases hbound : operand_bound scope type attr
    · rw [outer_reference_accepts _ _ _ _ _ halias hbound] at h
      exact (Resolved.ok.inj h).symm
    · have houter : is_outer_reference scope type attr := by
        by_contra hne; exact hbound (fun ho => absurd ho hne)
      have hnone : scope.table_map.find attr.relation_name = none := by
        cases hf : scope.table_map.find attr.relation_name with
        | none => rfl
        | some t => exact absurd (fun _ => by simp [hf]) hbound
      have hcount : ¬ aliases.count attr.attribute_name > 0 := fun hc => halias ⟨houter.1, hc⟩
      unfold outer_reference at h
      rw [if_pos houter.1, if_neg hcount, if_pos houter.2] at h
      simp only [hnone] at h
      exact absurd h (by simp)

/-- The loop over the conditions of a sub-select, when it runs to its end,
has appended the outer tables of the conditions to `tables`. -/
theorem outer_references_loop_ok {aliases : AliasMap} {scope : Scope}
    (conditions : List ConditionSqlNode) {tables : List Nat} {s1 : Scope}
    (h : Resolved.loop (outer_references aliases) conditions { scope with tables := tables } =
      .ok s1) :
    s1 = { scope with tables := tables ++ outer_tables scope conditions } := by
  induction conditions generalizing tables with
  | nil =>
    cases h
    simp [outer_tables]
  | cons c rest ih =>
    simp only [Resolved.loop, outer_references] at h
    obtain ⟨s2, h2, h⟩ := Resolved.bind_eq_ok.mp h
    obtain ⟨s3, h3, h2⟩ := Resolved.bind_eq_ok.mp h2
    rw [outer_reference_ok h3] at h2
    rw [outer_reference_ok h2] at h
    rw [ih h]
    simp [outer_tables, List.flatMap_cons]

/-- The loop over the conditions of a sub-select runs to its end when no
operand is named like a recorded alias and every outer table is bound. -/
theorem outer_references_loop_accepts (aliases : AliasMap) (scope : Scope)
    (conditions : List ConditionSqlNode) (tables : List Nat)
    (hok : ∀ c ∈ conditions,
      ¬ names_alias aliases c.left_type c.left_attr ∧
      ¬ names_alias aliases c.right_type c.right_attr ∧
      operand_bound scope c.left_type c.left_attr ∧
      operand_bound scope c.right_type c.right_attr) :
    Resolved.loop (outer_references aliases) conditions { scope with tables := tables } =
      .ok { scope with tables := tables ++ outer_tables scope conditions } := by
  induction conditions generalizing tables with
  | nil => simp [Resolved.loop, outer_tables]
  | cons c rest ih =>
    obtain ⟨hl, hr, bl, br⟩ := hok c (List.mem_cons_self _ _)
    simp only [Resolved.loop, outer_references]
    rw [outer_reference_accepts _ _ _ _ _ hl bl]
    simp only [Resolved.bind]
    rw [outer_reference_accepts _ _ _ _ _ hr br]
    simp only [Resolved.bind]
    rw [ih _ (fun c1 h1 => hok c1 (List.mem_cons_of_mem _ h1))]
    simp [outer_tables, List.flatMap_cons]

/-- The loop over the conditions of a sub-select returns `SQL_SYNTAX` when an
operand is named like a recorded alias and every outer table is bound. -/
theorem outer_references_loop_rejects (aliases : AliasMap) (scope : Scope)
    (conditions : List ConditionSqlNode) (tables : List Nat)
    (hbound : ∀ c ∈ conditions,
      operand_bound scope c.left_type c.left_attr ∧
      operand_bound scope c.right_type c.right_attr)
    (halias : ∃ c ∈ conditions,
      names_alias aliases c.left_type c.left_attr ∨
      names_alias aliases c.right_type c.right_attr) :
    Resolved.loop (outer_references aliases) conditions { scope with tables := tables } =
      .returned RC.SQL_SYNTAX := by
  induction conditions generalizing tables with
  | nil =>
    obtain ⟨c, hc, -⟩ := halias
    exact absurd hc (List.not_mem_nil _)
  | cons c rest ih =>
    obtain ⟨bl, br⟩ := hbound c (List.mem_cons_self _ _)
    simp only [Resolved.loop, outer_references]
    by_cases hl : names_alias aliases c.left_type c.left_attr
    · rw [outer_reference_rejects _ _ _ _ hl]; rfl
    · rw [outer_reference_accepts _ _ _ _ _ hl bl]
      simp only [Resolved.bind]
      by_cases hr : names_alias aliases c.right_type c.right_attr
      · rw [outer_reference_rejects _ _ _ _ hr]
      · rw [outer_reference_accepts _ _ _ _ _ hr br]
        simp only [Resolved.bind]
        apply ih _ (fun c1 h1 => hbound c1 (List.mem_cons_of_mem _ h1))
        obtain ⟨c1, hc1, h1⟩ := halias
        rcases List.mem_cons.mp hc1 with heq | hmem
        · subst heq
          rcases h1 with h1 | h1
          · exact absurd h1 hl
          · exact absurd h1 hr
        · exact ⟨c1, hmem, h1⟩

/-- The lookups of the table names of one FROM entry append the handles of
these tables to `tables` and leave `conditions` alone. -/
theorem table_names_loop_tables {relation : RelationSqlNode} (names : List String)
    {s s1 : Scope} (h : Resolved.loop (add_from_table relation) names s = .ok s1) :
    s1.tables.map some = s.tables.map some ++ names.map s.db.find_table ∧
      s1.conditions = s.conditions := by
  induction names generalizing s with
  | nil => cases h; simp
  | cons name rest ih =>
    simp only [Resolved.loop] at h
    obtain ⟨s2, h2, h⟩ := Resolved.bind_eq_ok.mp h
    obtain ⟨table, hfind, htables, hnames, hcond, -, -, -⟩ := add_from_table_ok h2
    obtain ⟨ht, hc⟩ := ih h
    refine ⟨?_, hc.trans hcond⟩
    rw [ht, htables, List.map_append, List.map_cons, List.map_nil, List.map_cons, hfind,
      List.append_assoc, List.singleton_append]
    congr 2
    apply List.map_congr_left
    intro n _
    exact Db.find_table_of_names hnames n

/-- The FROM loop appends the handles of the tables it names to `tables`, in
the order it names them, and only adds to `conditions`. -/
theorem from_loop_tables (relations : List RelationSqlNode) {s s1 : Scope}
    (h : Resolved.loop from_relation relations s = .ok s1) :
    s1.tables.map some =
        s.tables.map some ++ (relations.flatMap table_names).map s.db.find_table ∧
      ∃ joined, s1.conditions = s.conditions ++ joined := by
  induction relations generalizing s with
  | nil => cases h; exact ⟨by simp, [], by simp⟩
  | cons relation rest ih =>
    simp only [Resolved.loop] at h
    obtain ⟨s2, h2, h⟩ := Resolved.bind_eq_ok.mp h
    obtain ⟨hnames, -, -, -⟩ := from_relation_keeps h2
    rw [from_relation_eq] at h2
    obtain ⟨s3, h3, h2⟩ := Resolved.bind_eq_ok.mp h2
    obtain ⟨ht3, hc3⟩ := table_names_loop_tables _ h3
    have ht2 : s2.tables = s3.tables := by cases h2; split_ifs <;> rfl
    have hc2 : ∃ joined, s2.conditions = s3.conditions ++ joined := by
      cases h2
      split_ifs
      · exact ⟨[], by simp⟩
      · exact ⟨_, rfl⟩
    obtain ⟨ht, joined, hc⟩ := ih h
    obtain ⟨joined2, hc2⟩ := hc2
    refine ⟨?_, joined2 ++ joined, by rw [hc, hc2, hc3, List.append_assoc]⟩
    rw [ht, ht2, ht3, List.flatMap_cons, List.map_append, List.append_assoc]
    congr 2
    apply List.map_congr_left
    intro n _
    exact Db.find_table_of_names hnames n

/-- Claim C29. After the FROM loop of `SelectStmt::create`, `tables` holds the
handles of the FROM tables in the order of the clause. For a sub-select the loop
over the conditions accepts every operand that refers to an outer table bound in
the scope map (when no operand is named like a recorded alias) and appends the
handle of that table behind the FROM tables; the statement that `create`
resolves has that list as its tables, and with `is_sub_select = false` its
tables are exactly the FROM tables. -/
theorem sub_select_appends_outer_tables (api : ResolverApi) (db : Db)
    (select_sql : SelectSqlNode) (is_sub_select : Bool) (table_map : Option TableMap)
    (alias_to_select_attr : Option AliasMap) (scope : Scope)
    (hfrom : from_stage select_sql (initial_scope db select_sql table_map) = .ok scope) :
    scope.tables.map some = (select_sql.relations.flatMap table_names).map db.find_table ∧
    (∀ aliases : AliasMap,
      (∀ c ∈ scope.conditions,
        ¬ names_alias aliases c.left_type c.left_attr ∧
        ¬ names_alias aliases c.right_type c.right_attr ∧
        operand_bound scope c.left_type c.left_attr ∧
        operand_bound scope c.right_type c.right_attr) →
      Resolved.loop (outer_references aliases) scope.conditions scope =
        .ok { scope with tables := scope.tables ++ outer_tables scope scope.conditions }) ∧
    (∀ r, SelectStmt.create api (some db) select_sql is_sub_select table_map
        alias_to_select_attr = .ok r →
      r.stmt.tables =
        if is_sub_select then scope.tables ++ outer_tables scope scope.conditions
        else scope.tables) := by
  refine ⟨?_, ?_, ?_⟩
  · have h := (from_loop_tables _ hfrom).1
    simpa [initial_scope] using h
  · intro aliases hok
    exact outer_references_loop_accepts aliases scope scope.conditions scope.tables hok
  · intro r hr
    obtain ⟨scope0, gb, p, scope1, hfrom0, -, -, -, hwhere, htables, -, -, -⟩ :=
      create_ok_stages hr
    rw [hfrom] at hfrom0
    cases hfrom0
    rw [htables]
    cases is_sub_select with
    | false =>
      simp only [Bool.false_eq_true, if_false] at hwhere ⊢
      cases hwhere; rfl
    | true =>
      simp only [if_true] at hwhere ⊢
      rw [@outer_references_loop_ok _ scope scope.conditions scope.tables _ hwhere]

/-- Claim C29, worked example: the sub-select `SELECT a FROM t WHERE u.a = t.a`
under an outer query that binds `u` is resolved with the tables `t`, `u`, and
the same statement with `is_sub_select = false` with the table `t` alone. -/
theorem sub_select_appends_outer_tables_witness :
    (∃ r, SelectStmt.create example_resolver (some example_db) example_sub_select
        true (some { entries := [("u", 1)] }) none = .ok r ∧ r.stmt.tables = [0, 1]) ∧
    (∃ r, SelectStmt.create example_resolver (some example_db) example_sub_select
        false (some { entries := [("u", 1)] }) none = .ok r ∧ r.stmt.tables = [0]) :=
  ⟨⟨_, rfl, ((sub_select_appends_outer_tables example_resolver example_db example_sub_select
      true (some { entries := [("u", 1)] }) none _ rfl).2.2 _ rfl).trans (by decide)⟩,
   ⟨_, rfl, ((sub_select_appends_outer_tables example_resolver example_db example_sub_select
      false (some { entries := [("u", 1)] }) none _ rfl).2.2 _ rfl).trans (by decide)⟩⟩

/-- A code returned by the loop over the conditions of a sub-select is the
code that `create` returns. -/
theorem create_returns_at_where {api : ResolverApi} {db : Db} {select_sql : SelectSqlNode}
    {table_map : Option TableMap} {alias_to_select_attr : Option AliasMap} {scope : Scope}
    {group_by_fields : List Field} {p : Projection} {rc : RC}
    (hreach : reaches_where api db select_sql table_map alias_to_select_attr scope
      group_by_fields p)
    (hwhere : Resolved.loop (outer_references p.alias_to_select_attr) scope.conditions scope =
      .returned rc) :
    SelectStmt.create api (some db) select_sql true table_map alias_to_select_attr =
      .returned rc := by
  obtain ⟨hfrom, hgb, hmix, hsel⟩ := hreach
  simp only [SelectStmt.create]
  rw [Resolved.bind_ok hfrom, Resolved.bind_ok hgb]
  simp only [create_from_select_list, create_after_mixing_rule]
  rw [hmix]
  simp only
  rw [Resolved.bind_ok hsel]
  simp only [if_true]
  exact Resolved.bind_returned hwhere

/-- Claim C30. When `SelectStmt::create` is called with `is_sub_select = true`
and reaches the WHERE stage, and the left or the right operand of a WHERE
condition is an attribute named like an alias that the outer query recorded in
the alias map, `create` returns `SQL_SYNTAX`; the outer tables that the
conditions refer to are bound in the scope map. -/
theorem outer_alias_in_sub_select_rejected (api : ResolverApi) (db : Db)
    (select_sql : SelectSqlNode) (table_map : Option TableMap) (aliases : AliasMap)
    (scope : Scope) (group_by_fields : List Field) (p : Projection) (c : ConditionSqlNode)
    (hreach : reaches_where api db select_sql table_map (some aliases) scope group_by_fields p)
    (hc : c ∈ select_sql.conditions)
    (halias : names_alias aliases c.left_type c.left_attr ∨
      names_alias aliases c.right_type c.right_attr)
    (hbound : ∀ c1 ∈ scope.conditions,
      operand_bound scope c1.left_type c1.left_attr ∧
      operand_bound scope c1.right_type c1.right_attr) :
    SelectStmt.create api (some db) select_sql true table_map (some aliases) =
      .returned RC.SQL_SYNTAX := by
  apply create_returns_at_where hreach
  obtain ⟨joined, hcond⟩ := (from_loop_tables _ hreach.1).2
  have hc1 : c ∈ scope.conditions := by
    rw [hcond]; exact List.mem_append_left _ hc
  have hkeep : ∀ key, aliases.count key > 0 → p.alias_to_select_attr.count key > 0 :=
    fun key hkey => select_list_loop_keeps_alias _ hreach.2.2.2 hkey
  apply outer_references_loop_rejects p.alias_to_select_attr scope scope.conditions scope.tables
    hbound
  refine ⟨c, hc1, ?_⟩
  rcases halias with h | h
  · exact Or.inl ⟨h.1, hkeep _ h.2⟩
  · exact Or.inr ⟨h.1, hkeep _ h.2⟩

/-- Claim C30, worked example: under an outer query that recorded the alias
`x`, the sub-select `SELECT a FROM t WHERE x = 1` is rejected with
`SQL_SYNTAX`. -/
theorem outer_alias_in_sub_select_rejected_witness :
    SelectStmt.create example_resolver (some example_db)
        { relations := [{ relation := "t" }],
          attributes := [{ type := ExpressType.ATTR_T, left_attr := { attribute_name := "a" } }],
          conditions :=
            [{ left_type := ExpressType.ATTR_T, left_attr := { attribute_name := "x" },
               comp := ExprOp.EQUAL_TO, right_value := Value.int 1 }] }
        true none
        (some { entries := [("x", { type := ExpressType.ATTR_T,
                                     left_attr := { attribute_name := "b", has_alias := true,
                                                    alias_name := "x" } })] }) =
      .returned RC.SQL_SYNTAX :=
  outer_alias_in_sub_select_rejected example_resolver example_db _ none _ _ _ _
    { left_type := ExpressType.ATTR_T, left_attr := { attribute_name := "x" },
      comp := ExprOp.EQUAL_TO, right_value := Value.int 1 }
    ⟨rfl, rfl, rfl, rfl⟩ (by decide) (by decide) (by decide)

/-- A select-list item without aggregate leaves `aggr_query_fields` alone when
the select list has no aggregate-wrapped attribute. -/
theorem resolve_attribute_keeps_aggr {api : ResolverApi} {scope : Scope}
    {item : ExprSqlNode} {p p1 : Projection}
    (hnone : item.left_attr.aggr_func_type = AggrFuncType.NONE)
    (h : resolve_attribute api 0 scope item p = .ok p1) :
    p1.aggr_query_fields = p.aggr_query_fields := by
  by_cases hcol : item.left_attr.attribute_name = "*"
  · cases hsyn : item.left_attr.is_syntax_error with
    | true => rw [resolve_attribute_syntax_error _ _ _ _ _ hsyn] at h; exact absurd h (by simp)
    | false =>
      cases hblank : is_blank item.left_attr.relation_name with
      | true =>
        rw [resolve_attribute_star _ _ _ _ _ hsyn hblank hcol] at h
        split at h
        · exact absurd h (by simp)
        · simp only [hnone, ne_eq, not_true_eq_false, if_false] at h
          cases h; rfl
      | false =>
        by_cases hrel : item.left_attr.relation_name = "*"
        · rw [resolve_attribute_star_table _ _ _ _ _ hsyn hrel, if_neg (not_not.mpr hcol)] at h
          split at h
          · exact absurd h (by simp)
          · split_ifs at h; cases h; rfl
        · rw [resolve_attribute_qualified _ _ _ _ _ hsyn hblank hrel] at h
          split at h
          · exact absurd h (by simp)
          · rw [if_pos hcol] at h
            split at h
            · exact absurd h (by simp)
            · split_ifs at h; cases h; rfl
  · obtain ⟨f, g, hp | hp⟩ := resolve_attribute_column_ok hcol h
    · rw [hp]; rfl
    · rw [hp]; rfl

/-- The select-list loop leaves `aggr_query_fields` alone when no item
carries an aggregate. -/
theorem select_list_loop_keeps_aggr {api : ResolverApi} {scope : Scope}
    (items : List ExprSqlNode) {p p1 : Projection}
    (hnone : ∀ item ∈ items, item.left_attr.aggr_func_type = AggrFuncType.NONE)
    (h : select_list_loop api 0 scope items p = .ok p1) :
    p1.aggr_query_fields = p.aggr_query_fields := by
  unfold select_list_loop at h
  have hnone1 : ∀ item ∈ items.reverse, item.left_attr.aggr_func_type = AggrFuncType.NONE :=
    fun item hitem => hnone item (List.mem_reverse.mp hitem)
  generalize items.reverse = l at h hnone1
  induction l generalizing p with
  | nil => cases h; rfl
  | cons item rest ih =>
    simp only [Resolved.loop] at h
    obtain ⟨p2, h2, h⟩ := Resolved.bind_eq_ok.mp h
    rw [ih h (fun i hi => hnone1 i (List.mem_cons_of_mem _ hi))]
    exact resolve_attribute_keeps_aggr (hnone1 item (List.mem_cons_self _ _)) h2

theorem aggr_func_count_eq_zero_of_none (attributes : List ExprSqlNode)
    (hnone : ∀ item ∈ attributes, item.left_attr.aggr_func_type = AggrFuncType.NONE) :
    aggr_func_count attributes = 0 := by
  rw [aggr_func_count_eq_countP, List.countP_eq_zero]
  intro item hitem
  simp [is_aggr_attribute, hnone item hitem]

/-- Claim C21, counterexample. `SELECT COUNT(a), b FROM t GROUP BY b` is
resolved with two fields in `aggr_query_fields` (the plain column `b` is
appended there as well), one field in `group_by_fields` and two fields in
`query_fields`: `aggr_query_fields` is not empty and `2 + 1` is not `2`. -/
theorem aggr_query_fields_hold_plain_columns :
    ∃ r, SelectStmt.create example_resolver (some example_db)
        { relations := [{ relation := "t" }],
          attributes :=
            [{ type := ExpressType.ATTR_T,
               left_attr := { attribute_name := "a", aggr_func_type := AggrFuncType.CNT } },
             { type := ExpressType.ATTR_T, left_attr := { attribute_name := "b" } }],
          group_by_attributes := [{ attribute_name := "b" }] }
        false none none = .ok r ∧
      r.stmt.aggr_query_fields.length = 2 ∧
      r.stmt.group_by_fields.length = 1 ∧
      r.stmt.query_fields.length = 2 ∧
      ¬ (r.stmt.aggr_query_fields = [] ∨
        r.stmt.aggr_query_fields.length + r.stmt.group_by_fields.length =
          r.stmt.query_fields.length) :=
  ⟨_, rfl, by decide, by decide, by decide, by decide⟩

/-- Claim C21, amended. For every statement that `SelectStmt::create`
resolves, with `A` the number of aggregate-wrapped attributes of the select list
and `N` the number of its items: `A = 0` or `A + |group_by_fields| = N`; when
no item carries an aggregate, `aggr_query_fields` is empty; when `A ≠ 0` and no
item is a wildcard, `query_fields` and `aggr_query_fields` both hold `N`
fields, one for every item, aggregate or not. -/
theorem aggregate_fields_invariant (api : ResolverApi) (db : Db) (select_sql : SelectSqlNode)
    (is_sub_select : Bool) (table_map : Option TableMap)
    (alias_to_select_attr : Option AliasMap) (r : CreateResult)
    (h : SelectStmt.create api (some db) select_sql is_sub_select table_map
      alias_to_select_attr = .ok r) :
    (aggr_func_count select_sql.attributes = 0 ∨
      aggr_func_count select_sql.attributes + r.stmt.group_by_fields.length =
        select_sql.attributes.length) ∧
    ((∀ item ∈ select_sql.attributes, item.left_attr.aggr_func_type = AggrFuncType.NONE) →
      r.stmt.aggr_query_fields = []) ∧
    (aggr_func_count select_sql.attributes ≠ 0 →
      (∀ item ∈ select_sql.attributes, item.left_attr.attribute_name ≠ "*") →
      r.stmt.query_fields.length = select_sql.attributes.length ∧
        r.stmt.aggr_query_fields.length = select_sql.attributes.length) := by
  obtain ⟨scope, gb, p, scope1, -, -, hmix, hsel, -, -, hgb, hq, ha⟩ := create_ok_stages h
  refine ⟨?_, ?_, ?_⟩
  · rw [hgb]
    unfold SelectStmt.aggr_mixing_check at hmix
    split_ifs at hmix with hc
    by_cases h0 : aggr_func_count select_sql.attributes = 0
    · exact Or.inl h0
    · right
      by_contra hne
      exact hc ⟨h0, hne⟩
  · intro hnone
    rw [aggr_func_count_eq_zero_of_none _ hnone] at hsel
    rw [ha, select_list_loop_keeps_aggr _ hnone hsel]
  · intro hk hcol
    have hl := select_list_loop_lengths _ hk hcol hsel
    rw [hq, ha]
    simpa using hl

/-- Claim C21, worked example of the amended rule on
`SELECT COUNT(a), b FROM t GROUP BY b`: one aggregate plus one group-by field
for two items, and two fields in each of `query_fields` and
`aggr_query_fields`. -/
theorem aggregate_fields_invariant_witness :
    ∃ r, SelectStmt.create example_resolver (some example_db)
        { relations := [{ relation := "t" }],
          attributes :=
            [{ type := ExpressType.ATTR_T,
               left_attr := { attribute_name := "a", aggr_func_type := AggrFuncType.CNT } },
             { type := ExpressType.ATTR_T, left_attr := { attribute_name := "b" } }],
          group_by_attributes := [{ attribute_name := "b" }] }
        false none none = .ok r ∧
      1 + r.stmt.group_by_fields.length = 2 ∧
      r.stmt.query_fields.length = 2 ∧ r.stmt.aggr_query_fields.length = 2 := by
  refine ⟨_, rfl, ?_⟩
  have h := aggregate_fields_invariant example_resolver example_db
    { relations := [{ relation := "t" }],
      attributes :=
        [{ type := ExpressType.ATTR_T,
           left_attr := { attribute_name := "a", aggr_func_type := AggrFuncType.CNT } },
         { type := ExpressType.ATTR_T, left_attr := { attribute_name := "b" } }],
      group_by_attributes := [{ attribute_name := "b" }] }
    false none none _ rfl
  exact ⟨by decide, h.2.2 (by decide) (by decide)⟩

/-- Claim C22, the code at the failing input. The sub-select
`SELECT u.a FROM t`, under an outer query whose scope map binds `u` (handle 1),
is resolved: its only query field is the column `a` of `u`, not a constant, and
its tables list holds `t` (handle 0) alone. -/
theorem query_field_of_outer_table_not_in_tables :
    ∃ r, SelectStmt.create example_resolver (some example_db)
        { relations := [{ relation := "t" }],
          attributes :=
            [{ type := ExpressType.ATTR_T,
               left_attr := { relation_name := "u", attribute_name := "a" } }] }
        true (some { entries := [("u", 1)] }) none = .ok r ∧
      r.stmt.tables = [0] ∧
      r.stmt.query_fields.map (fun f => (f.table, f.field, f.is_constant_value)) =
        [(some 1, some { name := "a" }, false)] ∧
      ¬ (∀ f ∈ r.stmt.query_fields,
          f.is_constant_value = true ∨ ∃ t ∈ r.stmt.tables, f.table = some t) :=
  ⟨_, rfl, by decide, by decide, by decide⟩

/-- Claim C27, the code at the failing input. `SELECT LENGTH(x.a) FROM t AS x`
is resolved with a query field whose alias is `x.a`: the function wrapper, which
the resolver layer of the example writes `LENGTH`, is not part of it. -/
theorem function_alias_lost_under_table_alias :
    example_resolver.func_to_str (FunctionType.FUNC 0) = "LENGTH" ∧
    ∃ r, SelectStmt.create example_resolver (some example_db)
        { relations := [{ relation := "t", has_alias := true, alias_name := "x" }],
          attributes :=
            [{ type := ExpressType.ATTR_T,
               left_attr := { relation_name := "x", attribute_name := "a",
                              function_type := FunctionType.FUNC 0 } }] }
        false none none = .ok r ∧
      r.stmt.query_fields.map (fun f => (f.func_type, f.has_alias, f.alias_name)) =
        [(FunctionType.FUNC 0, true, "x.a")] :=
  ⟨rfl, _, rfl, by decide⟩

/-- Claim C28, the code at the failing input.
`SELECT COUNT(*) AS x, COUNT(*) AS x FROM t` is resolved, with two aggregate
fields of the alias `x`. -/
theorem count_star_alias_not_checked :
    ∃ r, SelectStmt.create example_resolver (some example_db)
        { relations := [{ relation := "t" }],
          attributes :=
            [{ type := ExpressType.ATTR_T,
               left_attr := { attribute_name := "*", aggr_func_type := AggrFuncType.CNT,
                              has_alias := true, alias_name := "x" } },
             { type := ExpressType.ATTR_T,
               left_attr := { attribute_name := "*", aggr_func_type := AggrFuncType.CNT,
                              has_alias := true, alias_name := "x" } }] }
        false none none = .ok r ∧
      r.stmt.aggr_query_fields.map (fun f => (f.aggr_func_type, f.alias_name)) =
        [(AggrFuncType.CNT, "x"), (AggrFuncType.CNT, "x")] :=
  ⟨_, rfl, by decide⟩

/-- Claim C40. For every left operand that evaluates successfully, `x IN ()`
with an empty list on the right returns `EXPRESSION_LIST_NULL`, the code with
which `ListExpression::get_value_list` rejects an empty list; no FALSE is
written, the value of the caller is left as it was. -/
theorem in_empty_list_is_rejected (api : ValueApi) (tuple : Tuple) (left : Expr)
    (value left_value : Value) (σ σ1 : Store)
    (hleft : get_value api tuple left Value.undefined σ = some (RC.SUCCESS, left_value, σ1)) :
    get_value api tuple (.comparison ExprOp.IN_COMP left (.list [])) value σ =
      some (RC.EXPRESSION_LIST_NULL, value, σ1) := by
  rw [get_value_in_list, hleft]
  rfl

/-- Claim C40, worked example: `1 IN ()` returns `EXPRESSION_LIST_NULL`. -/
theorem in_empty_list_is_rejected_witness :
    get_value example_api ⟨[]⟩ (.comparison ExprOp.IN_COMP (.value (Value.int 1)) (.list []))
        Value.undefined [] =
      some (RC.EXPRESSION_LIST_NULL, Value.undefined, []) :=
  in_empty_list_is_rejected example_api ⟨[]⟩ (.value (Value.int 1)) Value.undefined (Value.int 1)
    [] [] (get_value_value example_api ⟨[]⟩ (Value.int 1) Value.undefined [])

/-! ## SelectStmt::create: conditions, ORDER BY and the index map of the aggregates -/

/-- A column that GROUP BY or ORDER BY resolves is a column of the name that
the item gives. -/
theorem resolve_column_name {scope : Scope} {relation_attr : RelAttrSqlNode} {field : Field}
    (h : resolve_column scope relation_attr = .ok field) :
    field.field.map (fun m => m.name) = some relation_attr.attribute_name := by
  have hfind : ∀ (t : Table) (m : FieldMeta),
      t.table_meta.field relation_attr.attribute_name = some m →
      m.name = relation_attr.attribute_name := by
    intro t m hm
    unfold TableMeta.field at hm
    have := List.find?_some hm
    simpa using this
  unfold resolve_column at h
  split_ifs at h
  all_goals (split at h <;> (try contradiction))
  all_goals (try (split at h <;> (try contradiction)))
  all_goals (try (split at h <;> (try contradiction)))
  all_goals (cases h; exact congrArg some (hfind _ _ (by assumption)))

/-- The ORDER BY loop appends one direction and one field for every item it is
given, in the order it is given them. -/
theorem order_by_loop_ok {scope : Scope} (nodes : List OrderBySqlNode)
    {acc res : List Field × List OrderByDirection}
    (h : Resolved.loop (order_by_step scope) nodes acc = .ok res) :
    res.2 = acc.2 ++ nodes.map (fun node => node.direction) ∧
      ∃ fields, res.1 = acc.1 ++ fields ∧
        fields.map (fun f => f.field.map (fun m => m.name)) =
          nodes.map (fun node => some node.rel_attr.attribute_name) := by
  induction nodes generalizing acc with
  | nil => cases h; exact ⟨by simp, [], by simp, rfl⟩
  | cons node rest ih =>
    simp only [Resolved.loop, order_by_step] at h
    obtain ⟨acc1, h1, h⟩ := Resolved.bind_eq_ok.mp h
    obtain ⟨field, hfield, h1⟩ := Resolved.bind_eq_ok.mp h1
    cases h1
    obtain ⟨hd, fields, hf, hn⟩ := ih h
    refine ⟨by rw [hd]; simp, field :: fields, by rw [hf]; simp, ?_⟩
    rw [List.map_cons, List.map_cons, hn, resolve_column_name hfield]

/-- The ORDER BY loop resolves every item it is given in the scope of the
loop and appends the field, in the order it is given the items. -/
theorem order_by_loop_resolves {scope : Scope} (nodes : List OrderBySqlNode)
    {acc res : List Field × List OrderByDirection}
    (h : Resolved.loop (order_by_step scope) nodes acc = .ok res) :
    ∃ fields, res.1 = acc.1 ++ fields ∧
      List.Forall₂ (fun node f => resolve_column scope node.rel_attr = .ok f) nodes fields := by
  induction nodes generalizing acc with
  | nil => cases h; exact ⟨[], by simp, List.Forall₂.nil⟩
  | cons node rest ih =>
    simp only [Resolved.loop, order_by_step] at h
    obtain ⟨acc1, h1, h⟩ := Resolved.bind_eq_ok.mp h
    obtain ⟨field, hfield, h1⟩ := Resolved.bind_eq_ok.mp h1
    cases h1
    obtain ⟨fields, hf, hall⟩ := ih h
    exact ⟨field :: fields, by rw [hf]; simp, List.Forall₂.cons hfield hall⟩

/-- The ORDER BY loop of a successful `SelectStmt::create`, with the scope it
runs in. -/
theorem create_ok_order_by {api : ResolverApi} {db : Db} {select_sql : SelectSqlNode}
    {is_sub_select : Bool} {table_map : Option TableMap} {alias_to_select_attr : Option AliasMap}
    {r : CreateResult}
    (h : SelectStmt.create api (some db) select_sql is_sub_select table_map
      alias_to_select_attr = .ok r) :
    ∃ (scope : Scope) (p : Projection) (scope1 : Scope),
      from_stage select_sql (initial_scope db select_sql table_map) = .ok scope ∧
      select_list_loop api (aggr_func_count select_sql.attributes) scope select_sql.attributes
        { alias_to_select_attr := alias_to_select_attr.getD {} } = .ok p ∧
      (if is_sub_select then
        Resolved.loop (outer_references p.alias_to_select_attr) scope.conditions scope
       else .ok scope) = .ok scope1 ∧
      Resolved.loop (order_by_step (order_by_scope api scope scope1 p))
        select_sql.order_by_sql_nodes.reverse ([], []) =
        .ok (r.stmt.order_by_fields, r.stmt.order_by_directions) := by
  simp only [SelectStmt.create] at h
  obtain ⟨scope, hscope, h⟩ := Resolved.bind_eq_ok.mp h
  obtain ⟨gb, hgb, h⟩ := Resolved.bind_eq_ok.mp h
  simp only [create_from_select_list, create_after_mixing_rule] at h
  split at h
  · exact absurd h (by simp)
  · obtain ⟨p, hp, h⟩ := Resolved.bind_eq_ok.mp h
    obtain ⟨scope1, hscope1, h⟩ := Resolved.bind_eq_ok.mp h
    split at h
    · exact absurd h (by simp)
    · obtain ⟨ob, hob, h⟩ := Resolved.bind_eq_ok.mp h
      split at h
      · exact absurd h (by simp)
      · cases h
        exact ⟨scope, p, scope1, hscope, hp, hscope1, hob⟩

/-- Claim C38. A statement with `n` ORDER BY items that `SelectStmt::create`
resolves has `n` fields in `order_by_fields` and `n` directions in
`order_by_directions`, and both lists are the ORDER BY list of the statement
reversed: for every `k < n`, entry `k` of `order_by_directions` is the
direction of the item at position `n − 1 − k` of the statement, and entry `k`
of `order_by_fields` is the column that this same item resolves to in the
scope of the ORDER BY loop. -/
theorem order_by_lists_are_reversed (api : ResolverApi) (db : Db) (select_sql : SelectSqlNode)
    (is_sub_select : Bool) (table_map : Option TableMap)
    (alias_to_select_attr : Option AliasMap) (r : CreateResult)
    (h : SelectStmt.create api (some db) select_sql is_sub_select table_map
      alias_to_select_attr = .ok r) :
    r.stmt.order_by_fields.length = select_sql.order_by_sql_nodes.length ∧
    r.stmt.order_by_directions.length = select_sql.order_by_sql_nodes.length ∧
    r.stmt.order_by_directions =
      select_sql.order_by_sql_nodes.reverse.map (fun node => node.direction) ∧
    r.stmt.order_by_fields.map (fun f => f.field.map (fun m => m.name)) =
      select_sql.order_by_sql_nodes.reverse.map
        (fun node => some node.rel_attr.attribute_name) ∧
    ∃ (scope : Scope) (p : Projection) (scope1 : Scope),
      from_stage select_sql (initial_scope db select_sql table_map) = .ok scope ∧
      select_list_loop api (aggr_func_count select_sql.attributes) scope select_sql.attributes
        { alias_to_select_attr := alias_to_select_attr.getD {} } = .ok p ∧
      (if is_sub_select then
        Resolved.loop (outer_references p.alias_to_select_attr) scope.conditions scope
       else .ok scope) = .ok scope1 ∧
      List.Forall₂
        (fun node f =>
          resolve_column (order_by_scope api scope scope1 p) node.rel_attr = .ok f)
        select_sql.order_by_sql_nodes.reverse r.stmt.order_by_fields ∧
      ∀ k, k < select_sql.order_by_sql_nodes.length →
        ∃ node f,
          select_sql.order_by_sql_nodes[select_sql.order_by_sql_nodes.length - 1 - k]? =
            some node ∧
          r.stmt.order_by_directions[k]? = some node.direction ∧
          r.stmt.order_by_fields[k]? = some f ∧
          resolve_column (order_by_scope api scope scope1 p) node.rel_attr = .ok f := by
  obtain ⟨scope, p, scope1, hscope, hp, hscope1, hob⟩ := create_ok_order_by h
  obtain ⟨hd, fields, hf, hn⟩ := order_by_loop_ok _ hob
  obtain ⟨fields1, hf1, hall⟩ := order_by_loop_resolves _ hob
  simp only [List.nil_append] at hd hf hf1
  rw [← hf1] at hall
  have hlen : r.stmt.order_by_fields.length = select_sql.order_by_sql_nodes.length := by
    rw [← hall.length_eq, List.length_reverse]
  refine ⟨hlen, ?_, hd, ?_, scope, p, scope1, hscope, hp, hscope1, hall, ?_⟩
  · rw [hd]; simp
  · rw [hf]; exact hn
  · intro k hk
    have hk1 : k < select_sql.order_by_sql_nodes.reverse.length := by
      rw [List.length_reverse]; exact hk
    have hk2 : k < r.stmt.order_by_fields.length := by rw [hlen]; exact hk
    refine ⟨select_sql.order_by_sql_nodes.reverse.get ⟨k, hk1⟩,
      r.stmt.order_by_fields.get ⟨k, hk2⟩, ?_, ?_, ?_, ?_⟩
    · rw [← List.getElem?_reverse hk, List.getElem?_eq_getElem hk1]
      rfl
    · rw [hd, List.getElem?_map, List.getElem?_eq_getElem hk1]
      rfl
    · rw [List.getElem?_eq_getElem hk2]
      rfl
    · exact List.Forall₂.get hall hk1 hk2

/-- Claim C38, worked example over two tables with a column of the same name:
`SELECT t.b FROM t, u ORDER BY t.a ASC, u.a DESC` is resolved with the fields
`u.a`, `t.a` (`u` has handle 1, `t` handle 0) and the directions `DESC`,
`ASC`. -/
theorem order_by_lists_are_reversed_witness :
    ∃ r, SelectStmt.create example_resolver (some example_db)
        { relations := [{ relation := "t" }, { relation := "u" }],
          attributes :=
            [{ type := ExpressType.ATTR_T,
               left_attr := { relation_name := "t", attribute_name := "b" } }],
          order_by_sql_nodes :=
            [{ rel_attr := { relation_name := "t", attribute_name := "a" },
               direction := OrderByDirection.ASC },
             { rel_attr := { relation_name := "u", attribute_name := "a" },
               direction := OrderByDirection.DESC }] }
        false none none = .ok r ∧
      r.stmt.order_by_directions = [OrderByDirection.DESC, OrderByDirection.ASC] ∧
      r.stmt.order_by_fields.map (fun f => (f.table, f.field.map (fun m => m.name))) =
        [(some 1, some "a"), (some 0, some "a")] ∧
      r.stmt.order_by_fields.length = 2 := by
  refine ⟨_, rfl, ?_⟩
  have h := order_by_lists_are_reversed example_resolver example_db
    { relations := [{ relation := "t" }, { relation := "u" }],
      attributes :=
        [{ type := ExpressType.ATTR_T,
           left_attr := { relation_name := "t", attribute_name := "b" } }],
      order_by_sql_nodes :=
        [{ rel_attr := { relation_name := "t", attribute_name := "a" },
           direction := OrderByDirection.ASC },
         { rel_attr := { relation_name := "u", attribute_name := "a" },
           direction := OrderByDirection.DESC }] }
    false none none _ rfl
  exact ⟨h.2.2.1, by decide, h.1⟩

/-- Claim C37, the code at the failing inputs. `SELECT COUNT(*)` with an empty
FROM list, and `SELECT COUNT(*) FROM s` over a table `s` that has a system
column and no other, are both resolved with one aggregate field, no query field
and the index map `0 ↦ -1`: the projection index is `query_fields.size() - 1`
with `query_fields` empty. -/
theorem count_star_index_below_zero :
    (∃ r, SelectStmt.create example_resolver (some example_db)
        { attributes :=
            [{ type := ExpressType.ATTR_T,
               left_attr := { attribute_name := "*", aggr_func_type := AggrFuncType.CNT } }] }
        false none none = .ok r ∧
      r.stmt.aggr_query_fields.length = 1 ∧ r.stmt.query_fields.length = 0 ∧
      r.stmt.aggr_field_to_query_field_map = [(0, -1)]) ∧
    (∃ r, SelectStmt.create example_resolver
        (some { tables := [{ name := "s",
                             table_meta := { fields := [{ name := "__trx" }],
                                             sys_field_num := 1 } }] })
        { relations := [{ relation := "s" }],
          attributes :=
            [{ type := ExpressType.ATTR_T,
               left_attr := { attribute_name := "*", aggr_func_type := AggrFuncType.CNT } }] }
        false none none = .ok r ∧
      r.stmt.aggr_query_fields.length = 1 ∧ r.stmt.query_fields.length = 0 ∧
      r.stmt.aggr_field_to_query_field_map = [(0, -1)]) :=
  ⟨⟨_, rfl, by decide, by decide, by decide⟩, ⟨_, rfl, by decide, by decide, by decide⟩⟩

/-! ## LogicalPlanGenerator: counting and the sharing map -/

theorem table_get_count_list_cons (x : LogicalOperator) (xs : List LogicalOperator) :
    LogicalOperator.table_get_count_list (x :: xs) =
      x.table_get_count + LogicalOperator.table_get_count_list xs := by
  simp only [LogicalOperator.table_get_count_list]

theorem table_get_count_list_append (xs ys : List LogicalOperator) :
    LogicalOperator.table_get_count_list (xs ++ ys) =
      LogicalOperator.table_get_count_list xs + LogicalOperator.table_get_count_list ys := by
  induction xs with
  | nil => simp [LogicalOperator.table_get_count_list]
  | cons x xs ih =>
    rw [List.cons_append, table_get_count_list_cons, table_get_count_list_cons, ih]
    omega

theorem table_get_count_add_child (oper child : LogicalOperator) :
    (oper.add_child child).table_get_count = oper.table_get_count + child.table_get_count := by
  cases oper <;>
    simp only [LogicalOperator.add_child, LogicalOperator.table_get_count,
      table_get_count_list_append, LogicalOperator.table_get_count_list] <;> omega

theorem join_count_left_deep (first : LogicalOperator) (rest : List LogicalOperator) :
    (left_deep_join first rest).join_count =
      first.join_count + LogicalOperator.join_count_list rest + rest.length := by
  induction rest generalizing first with
  | nil => simp [left_deep_join, LogicalOperator.join_count_list]
  | cons second rest ih =>
    simp only [left_deep_join, ih, LogicalOperator.join_count,
      LogicalOperator.join_count_list, List.length_cons]
    omega

theorem OperatorMap.find_isSome_iff (m : OperatorMap) (key : String) :
    (m.find key).isSome ↔ key ∈ m.entries.map (fun e => e.1) := by
  unfold OperatorMap.find
  have hmap : ∀ o : Option (String × LogicalOperator),
      (o.map (fun e => e.2)).isSome = o.isSome := by
    intro o; cases o <;> rfl
  rw [hmap, List.find?_isSome, List.mem_map]
  constructor
  · rintro ⟨e, he, hk⟩
    exact ⟨e, he, by simpa using hk⟩
  · rintro ⟨e, he, hk⟩
    exact ⟨e, he, by simpa using hk⟩

theorem OperatorMap.count_pos_iff_key (m : OperatorMap) (key : String) :
    m.count key > 0 ↔ key ∈ m.entries.map (fun e => e.1) := by
  rw [← OperatorMap.find_isSome_iff]
  unfold OperatorMap.count
  cases h : m.find key <;> simp

theorem OperatorMap.mem_of_find {m : OperatorMap} {key : String} {oper : LogicalOperator}
    (h : m.find key = some oper) : (key, oper) ∈ m.entries := by
  unfold OperatorMap.find at h
  cases hf : List.find? (fun e => decide (e.1 = key)) m.entries with
  | none => rw [hf] at h; exact absurd h (by simp)
  | some e =>
    rw [hf] at h
    have hmem := List.mem_of_find?_eq_some hf
    have hkey := List.find?_some hf
    simp only [Option.map_some', Option.some.injEq] at h
    have hk : e.1 = key := by simpa using hkey
    rw [← hk, ← h]
    exact hmem

theorem OperatorMap.insert_of_absent {m : OperatorMap} {key : String}
    (h : ¬ m.count key > 0) (oper : LogicalOperator) :
    m.insert key oper = { entries := m.entries ++ [(key, oper)] } := by
  unfold OperatorMap.insert
  rw [if_neg h]

/-- The inner loop of the fold, for fields that all have a table. -/
theorem fields_of_table_eq (db : Db) (table_name : String) (all_fields : List Field)
    (hfields : ∀ f ∈ all_fields, (f.table_name db).isSome) :
    fields_of_table db table_name all_fields =
      some (all_fields.filter (fun f => decide (f.table_name db = some table_name))) := by
  induction all_fields with
  | nil => rfl
  | cons f rest ih =>
    have hf := hfields f (List.mem_cons_self _ _)
    have hrest := ih (fun g hg => hfields g (List.mem_cons_of_mem _ hg))
    unfold fields_of_table
    cases hn : f.table_name db with
    | none => rw [hn] at hf; exact absurd hf (by simp)
    | some name =>
      simp only [hrest]
      by_cases heq : name = table_name
      · simp [List.filter_cons, hn, heq]
      · simp [List.filter_cons, hn, heq]

/-- One step of the fold over the tables, for a handle of the catalog and
fields that all have a table: the step is defined and keeps the invariant of
the fold. -/
theorem add_table_to_source_invariant (db : Db) (all_fields : List Field)
    (processed : List Nat) (table : Nat) (st : SourceTree)
    (hfields : ∀ f ∈ all_fields, (f.table_name db).isSome)
    (htable : (db.table_name table).isSome)
    (hinv : source_invariant db all_fields processed st) :
    ∃ st1, add_table_to_source db all_fields table st = some st1 ∧
      source_invariant db all_fields (processed ++ [table]) st1 := by
  obtain ⟨ha, hb, hc, hd⟩ := hinv
  cases hname : db.table_name table with
  | none => rw [hname] at htable; exact absurd htable (by simp)
  | some name =>
    unfold add_table_to_source
    simp only [hname, fields_of_table_eq db name all_fields hfields]
    by_cases hcount : st.map.count name > 0
    · rw [if_pos hcount]
      have hkey := (OperatorMap.count_pos_iff_key _ _).mp hcount
      cases hroot : st.table_oper with
      | none =>
        rw [hroot] at ha
        have : st.map.entries = [] := by
          apply List.eq_nil_of_length_eq_zero
          simpa [source_table_get_count] using ha.symm
        rw [this] at hkey
        exact absurd hkey (by simp)
      | some table_oper =>
        refine ⟨_, rfl, ?_, hb, ?_, ?_⟩
        · rw [hroot] at ha
          simp only [source_table_get_count] at ha ⊢
          rw [table_get_count_add_child, ← ha]
          simp [LogicalOperator.table_get_count, LogicalOperator.table_get_count_list]
        · intro key
          rw [hc key, List.map_append, List.mem_append]
          constructor
          · exact Or.inl
          · rintro (h | h)
            · exact h
            · simp only [List.map_cons, List.map_nil, List.mem_singleton, hname,
                Option.some.injEq] at h
              subst h
              exact (hc key).mp hkey
        · intro e he
          obtain ⟨t, ht, hte⟩ := hd e he
          exact ⟨t, List.mem_append_left _ ht, hte⟩
    · rw [if_neg hcount, OperatorMap.insert_of_absent hcount]
      have hkey : name ∉ st.map.entries.map (fun e => e.1) :=
        fun h => hcount ((OperatorMap.count_pos_iff_key _ _).mpr h)
      refine ⟨_, rfl, ?_, ?_, ?_, ?_⟩
      · simp only [List.length_append, List.length_singleton]
        rw [← ha]
        cases hroot : st.table_oper with
        | none =>
          simp [source_table_get_count, LogicalOperator.table_get_count,
            LogicalOperator.table_get_count_list]
        | some table_oper =>
          simp only [source_table_get_count]
          rw [table_get_count_add_child, table_get_count_add_child]
          simp [LogicalOperator.table_get_count, LogicalOperator.table_get_count_list]
      · simp only [List.map_append, List.map_cons, List.map_nil]
        rw [List.nodup_append]
        refine ⟨hb, List.nodup_singleton _, ?_⟩
        intro k hk hk1
        rw [List.mem_singleton] at hk1
        subst hk1
        exact hkey hk
      · intro key
        simp only [List.map_append, List.map_cons, List.map_nil, List.mem_append,
          List.mem_singleton, hname, Option.some.injEq]
        rw [hc key]
      · intro e he
        rcases List.mem_append.mp he with he | he
        · obtain ⟨t, ht, hte⟩ := hd e he
          exact ⟨t, List.mem_append_left _ ht, hte⟩
        · rw [List.mem_singleton] at he
          subst he
          refine ⟨table, List.mem_append_right _ (List.mem_singleton_self _), hname, ?_⟩
          simp [table_get_of, hname]

/-- The fold over the tables, for handles of the catalog and fields that all
have a table: the fold is defined and keeps its invariant. -/
theorem source_tree_invariant (db : Db) (all_fields : List Field) (tables : List Nat)
    (processed : List Nat) (st : SourceTree)
    (hfields : ∀ f ∈ all_fields, (f.table_name db).isSome)
    (htables : ∀ t ∈ tables, (db.table_name t).isSome)
    (hinv : source_invariant db all_fields processed st) :
    ∃ st1, source_tree db all_fields tables st = some st1 ∧
      source_invariant db all_fields (processed ++ tables) st1 := by
  induction tables generalizing processed st with
  | nil => exact ⟨st, rfl, by simpa using hinv⟩
  | cons table rest ih =>
    obtain ⟨st1, h1, hinv1⟩ := add_table_to_source_invariant db all_fields processed table st
      hfields (htables table (List.mem_cons_self _ _)) hinv
    obtain ⟨st2, h2, hinv2⟩ := ih (processed ++ [table]) st1
      (fun t ht => htables t (List.mem_cons_of_mem _ ht)) hinv1
    refine ⟨st2, ?_, ?_⟩
    · simp only [source_tree, h1, h2]
    · simpa using hinv2

theorem source_invariant_empty (db : Db) (all_fields : List Field) :
    source_invariant db all_fields [] {} := by
  refine ⟨rfl, List.nodup_nil, ?_, ?_⟩
  · intro key; simp
  · intro e he; exact absurd he (List.not_mem_nil _)

/-! ## LogicalPlanGenerator: predicate, projection and the operators above -/

/-- The loop over the filter units makes one comparison for every unit, in
the order of the units and with the comparator of the unit. -/
theorem filter_units_expressions_units (api : PlanApi) (filter_units : List FilterUnit)
    (map : Option OperatorMap) :
    List.Forall₂ (fun u e => ∃ left right, e = Expr.comparison u.comp left right)
      filter_units (filter_units_expressions api filter_units map).1 := by
  induction filter_units generalizing map with
  | nil => exact List.Forall₂.nil
  | cons u rest ih =>
    simp only [filter_units_expressions]
    exact List.Forall₂.cons ⟨_, _, rfl⟩ (ih _)

theorem having_expressions_units (api : PlanApi) (filter_units : List FilterUnit) :
    List.Forall₂ (fun u e => ∃ left right, e = Expr.comparison u.comp left right)
      filter_units (having_expressions api filter_units) := by
  induction filter_units with
  | nil => exact List.Forall₂.nil
  | cons u rest ih =>
    simp only [having_expressions, List.map_cons]
    exact List.Forall₂.cons ⟨_, _, rfl⟩ ih

/-- `create_plan(FilterStmt *)` returns `SUCCESS`, with a predicate operator
over the AND of the comparisons when there is a filter unit and with a null
pointer when there is none. -/
theorem filter_create_plan_eq (api : PlanApi) (filter_stmt : FilterStmt)
    (map : Option OperatorMap) :
    FilterStmt.create_plan api filter_stmt map =
      (RC.SUCCESS,
        if filter_stmt.filter_units = [] then none
        else some (LogicalOperator.predicate
          (Expr.conjunction ConjunctionType.AND
            (filter_units_expressions api filter_stmt.filter_units map).1) []),
        (filter_units_expressions api filter_stmt.filter_units map).2) := by
  unfold FilterStmt.create_plan
  cases hunits : filter_stmt.filter_units with
  | nil => simp [filter_units_expressions]
  | cons u rest => simp [filter_units_expressions]

/-- `create_plan(SelectStmt *)` over the source tree that the fold yields. -/
theorem select_create_plan_eq (api : PlanApi) (db : Db) (select_stmt : SelectStmt)
    (map : Option OperatorMap) (source : SourceTree)
    (hsource : source_tree db select_stmt.query_fields select_stmt.tables
      { table_oper := none, map := map.getD {} } = some source) :
    SelectStmt.create_plan api db select_stmt map =
      some (RC.SUCCESS,
        some (wrap_operators api select_stmt
          (project_plan select_stmt.query_fields
            (FilterStmt.create_plan api select_stmt.filter_stmt (some source.map)).2.1
            source.table_oper)),
        (FilterStmt.create_plan api select_stmt.filter_stmt
          (some source.map)).2.2.getD source.map) := by
  unfold SelectStmt.create_plan
  rw [hsource]
  simp only [filter_create_plan_eq, ne_eq, not_true_eq_false, if_false]

/-- A defined `create_plan(SelectStmt *)` went through a defined fold. -/
theorem select_create_plan_source {api : PlanApi} {db : Db} {select_stmt : SelectStmt}
    {map : Option OperatorMap} {res : RC × Option LogicalOperator × OperatorMap}
    (h : SelectStmt.create_plan api db select_stmt map = some res) :
    ∃ source, source_tree db select_stmt.query_fields select_stmt.tables
      { table_oper := none, map := map.getD {} } = some source := by
  unfold SelectStmt.create_plan at h
  cases hs : source_tree db select_stmt.query_fields select_stmt.tables
      { table_oper := none, map := map.getD {} } with
  | none => rw [hs] at h; exact absurd h (by simp)
  | some source => exact ⟨source, rfl⟩

/-- The projection part with the filter of the statement: with a filter unit
the `Project` has the predicate operator as its only child, and the source
tree, if there is one, is the only child of the predicate operator; without a
filter unit the source tree, if there is one, is the only child of the
`Project`. -/
theorem project_plan_eq (api : PlanApi) (all_fields : List Field) (filter_stmt : FilterStmt)
    (map : Option OperatorMap) (table_oper : Option LogicalOperator) :
    project_plan all_fields (FilterStmt.create_plan api filter_stmt map).2.1 table_oper =
      if filter_stmt.filter_units = [] then
        LogicalOperator.project all_fields table_oper.toList
      else
        LogicalOperator.project all_fields
          [LogicalOperator.predicate
            (Expr.conjunction ConjunctionType.AND
              (filter_units_expressions api filter_stmt.filter_units map).1)
            table_oper.toList] := by
  rw [filter_create_plan_eq]
  unfold project_plan
  by_cases hunits : filter_stmt.filter_units = []
  · simp only [hunits, if_true]
    cases table_oper <;> rfl
  · simp only [hunits, if_false]
    cases table_oper <;> rfl

/-- Claim C32, the code at the failing input. The sub-select
`SELECT a FROM t WHERE b = 1`, planned with the sharing map of an outer query
over `t`, has one table and one filter unit; its plan is a `Project` over a
`Predicate` that has no child: the fold over the tables has left no source
tree. -/
theorem predicate_without_source_tree :
    example_inner_select.tables.length = 1 ∧
    example_inner_select.filter_stmt.filter_units.length = 1 ∧
    SelectStmt.create_plan example_plan_api example_db example_inner_select
        (some example_parent_map) =
      some (RC.SUCCESS,
        some (LogicalOperator.project [example_field_a]
          [LogicalOperator.predicate
            (Expr.conjunction ConjunctionType.AND
              [Expr.comparison ExprOp.EQUAL_TO (Expr.field "" "b") (Expr.value (Value.int 1))])
            []]),
        example_parent_map) :=
  ⟨rfl, rfl, rfl⟩

/-- Claim C35, the code at the failing input. The only table of the
sub-select `SELECT a FROM t` has its name in the sharing map of the parent; the
step of the fold leaves `table_oper` null and the map as it was, and the plan is
a `Project` without child: no `TableGet`, no `Join`, no link to the operator of
the parent. -/
theorem shared_table_without_root_is_dropped :
    example_parent_map.count "t" = 1 ∧
    add_table_to_source example_db [example_field_a] 0
        { table_oper := none, map := example_parent_map } =
      some { table_oper := none, map := example_parent_map } ∧
    SelectStmt.create_plan example_plan_api example_db
        { tables := [0], query_fields := [example_field_a], is_sub_select := true }
        (some example_parent_map) =
      some (RC.SUCCESS, some (LogicalOperator.project [example_field_a] []),
        example_parent_map) :=
  ⟨rfl, rfl, rfl⟩

/-- Claim C34. A plan that `create_plan` makes for a SELECT has, from the
`Project` upwards: a `GroupBy` directly over the `Project` exactly when
`group_by_fields` is not empty; an `OrderBy` with the directions over that
exactly when `order_by_fields` is not empty; and as the root an `Aggregate`
over that exactly when `aggr_query_fields` is not empty, with one comparison
for every filter unit of HAVING, in their order and with their comparators.
With all three present the plan is `Aggregate`, `OrderBy`, `GroupBy`,
`Project`, each the only child of the one before. -/
theorem operators_above_project (api : PlanApi) (db : Db) (select_stmt : SelectStmt)
    (map : Option OperatorMap) (rc : RC) (root : Option LogicalOperator) (m : OperatorMap)
    (h : SelectStmt.create_plan api db select_stmt map = some (rc, root, m)) :
    rc = RC.SUCCESS ∧
    ∃ (children : List LogicalOperator) (having : List Expr)
      (group_level order_level : LogicalOperator),
      List.Forall₂ (fun u e => ∃ left right, e = Expr.comparison u.comp left right)
        select_stmt.having_filter_stmt.filter_units having ∧
      group_level =
        (if select_stmt.group_by_fields = [] then
          LogicalOperator.project select_stmt.query_fields children
        else
          LogicalOperator.group_by select_stmt.group_by_fields
            [LogicalOperator.project select_stmt.query_fields children]) ∧
      order_level =
        (if select_stmt.order_by_fields = [] then group_level
        else
          LogicalOperator.order_by select_stmt.order_by_fields
            select_stmt.order_by_directions [group_level]) ∧
      root = some
        (if select_stmt.aggr_query_fields = [] then order_level
        else
          LogicalOperator.aggregation select_stmt.aggr_query_fields
            select_stmt.aggr_field_to_query_field_map having [order_level]) ∧
      (select_stmt.group_by_fields ≠ [] → select_stmt.order_by_fields ≠ [] →
        select_stmt.aggr_query_fields ≠ [] →
        root = some
          (LogicalOperator.aggregation select_stmt.aggr_query_fields
            select_stmt.aggr_field_to_query_field_map having
            [LogicalOperator.order_by select_stmt.order_by_fields
              select_stmt.order_by_directions
              [LogicalOperator.group_by select_stmt.group_by_fields
                [LogicalOperator.project select_stmt.query_fields children]]])) := by
  obtain ⟨source, hsource⟩ := select_create_plan_source h
  rw [select_create_plan_eq api db select_stmt map source hsource] at h
  simp only [Option.some.injEq, Prod.mk.injEq] at h
  obtain ⟨hrc, hroot, -⟩ := h
  refine ⟨hrc.symm, ?_⟩
  have hproject : ∃ children,
      project_plan select_stmt.query_fields
          (FilterStmt.create_plan api select_stmt.filter_stmt (some source.map)).2.1
          source.table_oper =
        LogicalOperator.project select_stmt.query_fields children := by
    rw [project_plan_eq]
    split_ifs
    · exact ⟨_, rfl⟩
    · exact ⟨_, rfl⟩
  obtain ⟨children, hchildren⟩ := hproject
  rw [hchildren] at hroot
  refine ⟨children, having_expressions api select_stmt.having_filter_stmt.filter_units,
    _, _, having_expressions_units api _, rfl, rfl, ?_, ?_⟩
  · rw [← hroot]
    unfold wrap_operators
    cases hg : select_stmt.group_by_fields <;> cases ho : select_stmt.order_by_fields <;>
      cases ha : select_stmt.aggr_query_fields <;> rfl
  · intro hg ho ha
    rw [← hroot]
    unfold wrap_operators
    cases hg1 : select_stmt.group_by_fields with
    | nil => exact absurd hg1 hg
    | cons g gs =>
      cases ho1 : select_stmt.order_by_fields with
      | nil => exact absurd ho1 ho
      | cons o os =>
        cases ha1 : select_stmt.aggr_query_fields with
        | nil => exact absurd ha1 ha
        | cons a as => rfl

/-- Claim C34, worked example: for
`SELECT COUNT(a), b FROM t GROUP BY b HAVING COUNT(a) > 1 ORDER BY b` the
operators from the root down are `Aggregate`, `OrderBy`, `GroupBy`, `Project`,
and the `Aggregate` holds one comparison for the one filter unit of HAVING. -/
theorem operators_above_project_witness :
    ∃ (root : LogicalOperator) (m : OperatorMap),
      SelectStmt.create_plan example_plan_api example_db example_grouped_select none =
        some (RC.SUCCESS, some root, m) ∧
      ∃ (children : List LogicalOperator) (having : List Expr),
        root =
          LogicalOperator.aggregation example_grouped_select.aggr_query_fields
            example_grouped_select.aggr_field_to_query_field_map having
            [LogicalOperator.order_by example_grouped_select.order_by_fields
              example_grouped_select.order_by_directions
              [LogicalOperator.group_by example_grouped_select.group_by_fields
                [LogicalOperator.project example_grouped_select.query_fields children]]] ∧
        having.length = 1 := by
  refine ⟨_, _, rfl, ?_⟩
  obtain ⟨-, children, having, gl, ol, hhaving, -, -, -, hroot⟩ :=
    operators_above_project example_plan_api example_db example_grouped_select none
      RC.SUCCESS _ _ rfl
  exact ⟨children, having, Option.some.inj (hroot (by decide) (by decide) (by decide)),
    hhaving.length_eq.symm⟩

/-! ## LogicalPlanGenerator: the fold over the tables -/

theorem source_tree_append (db : Db) (all_fields : List Field) (xs ys : List Nat)
    (st : SourceTree) :
    source_tree db all_fields (xs ++ ys) st =
      (source_tree db all_fields xs st).bind (source_tree db all_fields ys) := by
  induction xs generalizing st with
  | nil => rfl
  | cons x xs ih =>
    simp only [List.cons_append, source_tree]
    cases add_table_to_source db all_fields x st with
    | none => rfl
    | some st1 => exact ih st1

/-- One step of the fold for a table whose name is not in the sharing map. -/
theorem add_table_to_source_fresh (db : Db) (all_fields : List Field) (table : Nat)
    (st : SourceTree) (name : String)
    (hfields : ∀ f ∈ all_fields, (f.table_name db).isSome)
    (hname : db.table_name table = some name)
    (hfresh : name ∉ st.map.entries.map (fun e => e.1)) :
    add_table_to_source db all_fields table st =
      some {
        table_oper :=
          match st.table_oper with
          | none => some (table_get_of db all_fields table)
          | some table_oper =>
            some (LogicalOperator.join false none
              [table_oper, table_get_of db all_fields table]),
        map := { entries := st.map.entries ++ [(name, table_get_of db all_fields table)] } } := by
  have hcount : ¬ st.map.count name > 0 :=
    fun h => hfresh ((OperatorMap.count_pos_iff_key _ _).mp h)
  unfold add_table_to_source
  simp only [hname, fields_of_table_eq db name all_fields hfields, if_neg hcount,
    OperatorMap.insert_of_absent hcount, table_get_of]
  cases st.table_oper <;> rfl

/-- The fold over tables of pairwise distinct names that are not in the
sharing map, from a root at hand. -/
theorem source_tree_fresh (db : Db) (all_fields : List Field) (tables : List Nat)
    (root : LogicalOperator) (m : OperatorMap)
    (hfields : ∀ f ∈ all_fields, (f.table_name db).isSome)
    (htables : ∀ t ∈ tables, (db.table_name t).isSome)
    (hdistinct : (tables.map db.table_name).Nodup)
    (hfresh : ∀ t ∈ tables, ∀ name, db.table_name t = some name →
      name ∉ m.entries.map (fun e => e.1)) :
    source_tree db all_fields tables { table_oper := some root, map := m } =
      some {
        table_oper := some (left_deep_join root (tables.map (table_get_of db all_fields))),
        map := { entries := m.entries ++
          tables.map (fun t => ((db.table_name t).getD "", table_get_of db all_fields t)) } } := by
  induction tables generalizing root m with
  | nil => simp [source_tree, left_deep_join]
  | cons table rest ih =>
    have htable := htables table (List.mem_cons_self _ _)
    cases hname : db.table_name table with
    | none => rw [hname] at htable; exact absurd htable (by simp)
    | some name =>
      rw [List.map_cons, List.nodup_cons] at hdistinct
      simp only [source_tree]
      rw [add_table_to_source_fresh db all_fields table _ name hfields hname
        (hfresh table (List.mem_cons_self _ _) name hname)]
      simp only
      rw [ih _ _ (fun t ht => htables t (List.mem_cons_of_mem _ ht)) hdistinct.2]
      · simp [left_deep_join, hname, List.append_assoc]
      · intro t ht name1 hname1 hmem
        simp only [List.map_append, List.map_cons, List.map_nil, List.mem_append,
          List.mem_singleton] at hmem
        rcases hmem with hmem | hmem
        · exact hfresh t (List.mem_cons_of_mem _ ht) name1 hname1 hmem
        · subst hmem
          apply hdistinct.1
          rw [hname, ← hname1]
          exact List.mem_map_of_mem _ ht

/-- Claim C33. For tables `T1 .. Tn` of pairwise distinct names, no sharing
map handed in and projection fields that all have a table, the fold over the
tables yields the left-deep tree over the `TableGet` operators of `T1 .. Tn`:
`TableGet(T1)` alone for `n = 1`, otherwise the plain `Join` of the tree over
`T1 .. Tn-1` with `TableGet(Tn)`, with `n − 1` `Join` operators in all. Every
`TableGet` is readonly and carries the projection fields whose table has the
name of its table, in projection order, and the sharing map holds the name of
every `Ti`, bound to its `TableGet`. -/
theorem source_tree_is_left_deep (db : Db) (all_fields : List Field) (first : Nat)
    (rest : List Nat)
    (hfields : ∀ f ∈ all_fields, (f.table_name db).isSome)
    (htables : ∀ t ∈ first :: rest, (db.table_name t).isSome)
    (hdistinct : ((first :: rest).map db.table_name).Nodup) :
    source_tree db all_fields (first :: rest) { table_oper := none, map := {} } =
      some {
        table_oper :=
          some (left_deep_join (table_get_of db all_fields first)
            (rest.map (table_get_of db all_fields))),
        map := { entries := (first :: rest).map (fun t =>
          ((db.table_name t).getD "", table_get_of db all_fields t)) } } ∧
    (left_deep_join (table_get_of db all_fields first)
      (rest.map (table_get_of db all_fields))).join_count = rest.length ∧
    (∀ t, table_get_of db all_fields t =
      LogicalOperator.table_get t
        (all_fields.filter (fun f => decide (f.table_name db = db.table_name t))) true []) := by
  refine ⟨?_, ?_, fun t => rfl⟩
  · have hfirst := htables first (List.mem_cons_self _ _)
    cases hname : db.table_name first with
    | none => rw [hname] at hfirst; exact absurd hfirst (by simp)
    | some name =>
      rw [List.map_cons, List.nodup_cons] at hdistinct
      simp only [source_tree]
      rw [add_table_to_source_fresh db all_fields first _ name hfields hname (by simp)]
      simp only
      rw [source_tree_fresh db all_fields rest _ _ hfields
        (fun t ht => htables t (List.mem_cons_of_mem _ ht)) hdistinct.2]
      · simp [hname]
      · intro t ht name1 hname1 hmem
        simp only [List.nil_append, List.map_cons, List.map_nil, List.mem_singleton] at hmem
        subst hmem
        apply hdistinct.1
        rw [hname, ← hname1]
        exact List.mem_map_of_mem _ ht
  · rw [join_count_left_deep]
    have hzero : ∀ l : List Nat,
        LogicalOperator.join_count_list (l.map (table_get_of db all_fields)) = 0 := by
      intro l
      induction l with
      | nil => simp [LogicalOperator.join_count_list]
      | cons t l ih =>
        simp [LogicalOperator.join_count_list, ih, table_get_of, LogicalOperator.join_count]
    simp [hzero, table_get_of, LogicalOperator.join_count, LogicalOperator.join_count_list]

/-- Claim C33, worked example: for `SELECT t.a, u.c FROM t, u` the fold yields
the `Join` of the `TableGet` of `t` over the field `t.a` with the `TableGet` of
`u` over the field `u.c`, both readonly, and the map holds `t` and `u`. -/
theorem source_tree_is_left_deep_witness :
    source_tree example_db
        [example_field_a, { table := some 1, field := some { name := "c" } }] [0, 1]
        { table_oper := none, map := {} } =
      some {
        table_oper := some (LogicalOperator.join false none
          [LogicalOperator.table_get 0 [example_field_a] true [],
           LogicalOperator.table_get 1 [{ table := some 1, field := some { name := "c" } }]
             true []]),
        map := { entries :=
          [("t", LogicalOperator.table_get 0 [example_field_a] true []),
           ("u", LogicalOperator.table_get 1
             [{ table := some 1, field := some { name := "c" } }] true [])] } } :=
  (source_tree_is_left_deep example_db
    [example_field_a, { table := some 1, field := some { name := "c" } }] 0 [1]
    (by decide) (by decide) (by decide)).1.trans rfl

/-- The operators above the projection add no `TableGet`. -/
theorem table_get_count_wrap_operators (api : PlanApi) (select_stmt : SelectStmt)
    (project_oper : LogicalOperator) :
    (wrap_operators api select_stmt project_oper).table_get_count =
      project_oper.table_get_count := by
  unfold wrap_operators
  have hg : ∀ fields, (LogicalOperator.group_by fields []).table_get_count = 0 := by
    intro fields
    simp [LogicalOperator.table_get_count, LogicalOperator.table_get_count_list]
  have ho : ∀ fields directions,
      (LogicalOperator.order_by fields directions []).table_get_count = 0 := by
    intro fields directions
    simp [LogicalOperator.table_get_count, LogicalOperator.table_get_count_list]
  have ha : ∀ fields m expressions,
      (LogicalOperator.aggregation fields m expressions []).table_get_count = 0 := by
    intro fields m expressions
    simp [LogicalOperator.table_get_count, LogicalOperator.table_get_count_list]
  cases select_stmt.group_by_fields <;> cases select_stmt.order_by_fields <;>
    cases select_stmt.aggr_query_fields <;>
    simp only [List.isEmpty_nil, List.isEmpty_cons, if_true, if_false, Bool.true_eq_false,
      table_get_count_add_child, hg, ho, ha, Nat.zero_add]

/-- The projection and the predicate add no `TableGet` to the source tree. -/
theorem table_get_count_project_plan (api : PlanApi) (all_fields : List Field)
    (filter_stmt : FilterStmt) (map : Option OperatorMap)
    (table_oper : Option LogicalOperator) :
    (project_plan all_fields (FilterStmt.create_plan api filter_stmt map).2.1
      table_oper).table_get_count = source_table_get_count table_oper := by
  rw [project_plan_eq]
  split_ifs <;> cases table_oper <;>
    simp only [source_table_get_count, Option.toList, LogicalOperator.table_get_count,
      LogicalOperator.table_get_count_list, Nat.add_zero, Nat.zero_add]

/-- Under the invariant of the fold there are as many `TableGet` operators
in the source tree as there are distinct table names. -/
theorem source_invariant_count {db : Db} {all_fields : List Field} {processed : List Nat}
    {st : SourceTree} (hinv : source_invariant db all_fields processed st)
    (hvalid : ∀ t ∈ processed, (db.table_name t).isSome) :
    source_table_get_count st.table_oper = (processed.map db.table_name).dedup.length := by
  obtain ⟨ha, hb, hc, -⟩ := hinv
  rw [ha]
  have hlen : st.map.entries.length =
      ((st.map.entries.map (fun e => e.1)).map some).length := by simp
  rw [hlen]
  apply List.Perm.length_eq
  rw [List.perm_ext_iff_of_nodup (hb.map (Option.some_injective _)) (List.nodup_dedup _)]
  intro x
  rw [List.mem_dedup]
  cases x with
  | none =>
    constructor
    · intro h
      simp at h
    · intro h
      obtain ⟨t, ht, hn⟩ := List.mem_map.mp h
      have := hvalid t ht
      rw [hn] at this
      exact absurd this (by simp)
  | some key =>
    rw [← hc key]
    simp

/-- Claim C39. Without a sharing map handed in, for handles of the catalog and
projection fields that all have a table, the plan of a SELECT has as many
`TableGet` operators as its tables list has distinct table names. A table
whose name occurred before in the list gets no `TableGet`: the root of the
source tree built so far becomes the only child of a `Join` flagged
`is_right_sub_link` whose `right_link` is the `TableGet` of the earlier table
of that name. -/
theorem repeated_table_gets_one_table_get (api : PlanApi) (db : Db) (select_stmt : SelectStmt)
    (hfields : ∀ f ∈ select_stmt.query_fields, (f.table_name db).isSome)
    (htables : ∀ t ∈ select_stmt.tables, (db.table_name t).isSome) :
    (∃ plan m, SelectStmt.create_plan api db select_stmt none =
        some (RC.SUCCESS, some plan, m) ∧
      plan.table_get_count = (select_stmt.tables.map db.table_name).dedup.length) ∧
    (∀ pre t post, select_stmt.tables = pre ++ t :: post →
      db.table_name t ∈ pre.map db.table_name →
      ∃ root first m1, first ∈ pre ∧ db.table_name first = db.table_name t ∧
        source_tree db select_stmt.query_fields pre { table_oper := none, map := {} } =
          some { table_oper := some root, map := m1 } ∧
        source_tree db select_stmt.query_fields (pre ++ [t])
            { table_oper := none, map := {} } =
          some {
            table_oper := some (LogicalOperator.join true
              (some (table_get_of db select_stmt.query_fields first)) [root]),
            map := m1 }) := by
  constructor
  · obtain ⟨source, hsource, hinv⟩ := source_tree_invariant db select_stmt.query_fields
      select_stmt.tables [] {} hfields htables (source_invariant_empty db _)
    refine ⟨_, _, select_create_plan_eq api db select_stmt none source hsource, ?_⟩
    rw [table_get_count_wrap_operators, table_get_count_project_plan]
    simpa using source_invariant_count hinv (by simpa using htables)
  · intro pre t post htbl hmem
    have hpre : ∀ u ∈ pre, (db.table_name u).isSome :=
      fun u hu => htables u (by rw [htbl]; exact List.mem_append_left _ hu)
    have ht : (db.table_name t).isSome :=
      htables t (by rw [htbl]; exact List.mem_append_right _ (List.mem_cons_self _ _))
    obtain ⟨st, hst, hinv⟩ := source_tree_invariant db select_stmt.query_fields pre [] {}
      hfields hpre (source_invariant_empty db _)
    simp only [List.nil_append] at hinv
    obtain ⟨ha, hb, hc, hd⟩ := hinv
    cases hname : db.table_name t with
    | none => rw [hname] at ht; exact absurd ht (by simp)
    | some name =>
      rw [hname] at hmem
      have hkey : name ∈ st.map.entries.map (fun e => e.1) := (hc name).mpr hmem
      have hcount : st.map.count name > 0 := (OperatorMap.count_pos_iff_key _ _).mpr hkey
      have hsome := (OperatorMap.find_isSome_iff _ _).mpr hkey
      cases hfind : st.map.find name with
      | none => rw [hfind] at hsome; exact absurd hsome (by simp)
      | some link =>
        obtain ⟨first, hfirst, hfname, hlink⟩ := hd _ (OperatorMap.mem_of_find hfind)
        cases hroot : st.table_oper with
        | none =>
          rw [hroot] at ha
          have hnil : st.map.entries = [] := by
            apply List.eq_nil_of_length_eq_zero
            simpa [source_table_get_count] using ha.symm
          rw [hnil] at hkey
          exact absurd hkey (by simp)
        | some root =>
          have hst1 : source_tree db select_stmt.query_fields pre
              { table_oper := none, map := {} } =
              some { table_oper := some root, map := st.map } := by
            rw [show ({ table_oper := none, map := {} } : SourceTree) = {} from rfl, hst,
              ← hroot]
          refine ⟨root, first, st.map, hfirst, hfname, hst1, ?_⟩
          rw [source_tree_append, hst1]
          simp only [Option.bind, source_tree, add_table_to_source, hname,
            fields_of_table_eq db name select_stmt.query_fields hfields, if_pos hcount, hfind]
          simp only at hlink
          rw [hlink]
          rfl

/-- Claim C39, worked example: the plan of `SELECT a FROM t, t` has one
`TableGet`; its source tree is a `Join` flagged `is_right_sub_link` whose only
child is the `TableGet` of `t` and whose `right_link` is that `TableGet`. -/
theorem repeated_table_gets_one_table_get_witness :
    (∃ plan m, SelectStmt.create_plan example_plan_api example_db
        { tables := [0, 0], query_fields := [example_field_a] } none =
        some (RC.SUCCESS, some plan, m) ∧
      plan.table_get_count = 1) ∧
    source_tree example_db [example_field_a] [0, 0] { table_oper := none, map := {} } =
      some {
        table_oper := some (LogicalOperator.join true
          (some (LogicalOperator.table_get 0 [example_field_a] true []))
          [LogicalOperator.table_get 0 [example_field_a] true []]),
        map := example_parent_map } := by
  have h := repeated_table_gets_one_table_get example_plan_api example_db
    { tables := [0, 0], query_fields := [example_field_a] } (by decide) (by decide)
  refine ⟨?_, rfl⟩
  obtain ⟨plan, m, hplan, hcount⟩ := h.1
  exact ⟨plan, m, hplan, hcount.trans (by decide)⟩

/-! ## LogicalPlanGenerator: UPDATE -/

/-- A defined `create_plan(SelectStmt *)` returns `SUCCESS` and leaves an
operator. -/
theorem select_create_plan_success {api : PlanApi} {db : Db} {select_stmt : SelectStmt}
    {map : Option OperatorMap}
    (h : (SelectStmt.create_plan api db select_stmt map).isSome) :
    ∃ root m, SelectStmt.create_plan api db select_stmt map =
      some (RC.SUCCESS, some root, m) := by
  cases hres : SelectStmt.create_plan api db select_stmt map with
  | none => rw [hres] at h; exact absurd h (by simp)
  | some res =>
    obtain ⟨source, hsource⟩ := select_create_plan_source hres
    rw [select_create_plan_eq api db select_stmt map source hsource] at hres
    exact ⟨_, _, hres.symm⟩

/-- The loop over the sub-selects of an UPDATE, when the plan of every
sub-select is defined: one plan for every entry, in the order of the entries. -/
theorem set_selects_plans_eq (api : PlanApi) (db : Db) (entries : List (String × SelectStmt))
    (hselects : ∀ e ∈ entries, (SelectStmt.create_plan api db e.2 none).isSome) :
    ∃ opers, set_selects_plans api db entries = some (RC.SUCCESS, opers) ∧
      List.Forall₂ (fun e oper => ∃ m, SelectStmt.create_plan api db e.2 none =
        some (RC.SUCCESS, some oper, m)) entries opers := by
  induction entries with
  | nil => exact ⟨[], rfl, List.Forall₂.nil⟩
  | cons e rest ih =>
    obtain ⟨root, m, hroot⟩ := select_create_plan_success (hselects e (List.mem_cons_self _ _))
    obtain ⟨opers, hopers, hall⟩ := ih (fun e1 h1 => hselects e1 (List.mem_cons_of_mem _ h1))
    refine ⟨root :: opers, ?_, List.Forall₂.cons ⟨m, hroot⟩ hall⟩
    simp [set_selects_plans, hroot, hopers]

/-- Claim C36. The plan of an UPDATE over a table of the catalog, when the
plans of its sub-selects are defined, is an `Update` whose only child is the
scan, a `TableGet` that is not readonly over the non-system columns of the
table in metadata order, under a `Predicate` when the WHERE filter has a filter
unit and directly under the `Update` when it has none. The `Update` carries the
names of the SET columns that have a sub-select, in the order of
`col_name_to_selects`, and one plan for every one of them: plan `i` is the plan
of the sub-select of name `i`. -/
theorem update_plan_shape (api : PlanApi) (db : Db) (update_stmt : UpdateStmt) (t : Table)
    (htable : db.tables[update_stmt.table]? = some t)
    (hselects : ∀ e ∈ update_stmt.col_name_to_selects,
      (SelectStmt.create_plan api db e.2 none).isSome) :
    ∃ (fields : List Field) (opers : List LogicalOperator),
      fields.map (fun f => (f.table, f.field)) =
        t.table_meta.non_system_columns.map (fun c => (some update_stmt.table, some c)) ∧
      List.Forall₂ (fun e oper => ∃ m, SelectStmt.create_plan api db e.2 none =
        some (RC.SUCCESS, some oper, m)) update_stmt.col_name_to_selects opers ∧
      UpdateStmt.create_plan api db update_stmt =
        some (RC.SUCCESS,
          some (LogicalOperator.update update_stmt.table update_stmt.attribute_names
            update_stmt.values (update_stmt.col_name_to_selects.map (fun e => e.1)) opers
            [if update_stmt.filter_stmt.filter_units = [] then
               LogicalOperator.table_get update_stmt.table fields false []
             else
               LogicalOperator.predicate
                 (Expr.conjunction ConjunctionType.AND
                   (filter_units_expressions api update_stmt.filter_stmt.filter_units none).1)
                 [LogicalOperator.table_get update_stmt.table fields false []]])) := by
  obtain ⟨opers, hopers, hall⟩ := set_selects_plans_eq api db _ hselects
  refine ⟨(t.table_meta.fields.drop t.table_meta.sys_field_num).map (fun field_meta =>
    { table := some update_stmt.table, field := some field_meta }), opers, ?_, hall, ?_⟩
  · rw [non_system_columns_eq_drop, List.map_map]
    rfl
  · unfold UpdateStmt.create_plan
    rw [htable]
    simp only [filter_create_plan_eq, hopers, ne_eq, not_true_eq_false, if_false]
    by_cases hunits : update_stmt.filter_stmt.filter_units = []
    · simp only [hunits, if_true]
      rfl
    · simp only [hunits, if_false]
      rfl

/-- Claim C36, worked example: the plan of
`UPDATE t SET a = (SELECT a FROM t, t), b = 2 WHERE b = 1` is an `Update` over
a `Predicate` over the `TableGet` of `t`, not readonly, over the columns `a`
and `b`, with the one name `a` and one sub-select plan. -/
theorem update_plan_shape_witness :
    ∃ (fields : List Field) (opers : List LogicalOperator),
      UpdateStmt.create_plan example_plan_api example_db example_update =
        some (RC.SUCCESS,
          some (LogicalOperator.update 0 ["a", "b"] [Value.undefined, Value.int 2] ["a"] opers
            [LogicalOperator.predicate
              (Expr.conjunction ConjunctionType.AND
                [Expr.comparison ExprOp.EQUAL_TO (Expr.field "" "b")
                  (Expr.value (Value.int 1))])
              [LogicalOperator.table_get 0 fields false []]])) ∧
      fields.map (fun f => (f.table, f.field)) =
        [(some 0, some { name := "a" }), (some 0, some { name := "b" })] ∧
      opers.length = 1 := by
  obtain ⟨fields, opers, hfields, hall, hplan⟩ := update_plan_shape example_plan_api
    example_db example_update _ rfl (by decide)
  rw [if_neg (by decide)] at hplan
  exact ⟨fields, opers, hplan, hfields.trans (by decide), hall.length_eq.symm⟩

end Observer
